import Mathlib

/-!
# CloudOps Autopilot: incident detector, analyzer and handler

A shallow embedding of `src/functions/incident-detector/index.js` and
`src/functions/incident-detector/ai-analyzer.js`.

* JavaScript values that an event can carry are the JSON values plus
  `undefined` (an absent field).
* A JavaScript `TypeError` is an `Except.error`.
* The two collaborators of the handler (`dynamodb.put`, `sns.publish`) and
  the clock and random generator are read from a `World`; the effects the
  handler performs are returned as a trace.
* IEEE-754 binary64 arithmetic is modelled exactly on the non-negative
  normal range (`Dbl`).
-/

namespace CloudOps

/-! ## JavaScript values -/

/-- The values of an event payload: JSON values, and `undefined` for what is absent.
Numbers are observed by this program only through their truthiness, so an
integer stands for the JSON number. An object is its list of own properties,
read with `List.lookup`. -/
inductive JsVal where
  | undefined : JsVal
  | null : JsVal
  | bool (b : Bool) : JsVal
  | num (n : Int) : JsVal
  | str (s : String) : JsVal
  | arr (items : List JsVal) : JsVal
  | obj (fields : List (String × JsVal)) : JsVal

/-- The only runtime failure of these functions: reading a property of
`undefined` or `null`, or calling a method that is not there. -/
inductive JsError where
  | typeError : JsError
  deriving DecidableEq, Repr

deriving instance DecidableEq for Except

namespace JsVal

/-- Whether the value is `undefined` or `null`. -/
def isNullish : JsVal → Bool
  | undefined => true
  | null => true
  | _ => false

/-- The JavaScript `ToBoolean` conversion. -/
def truthy : JsVal → Bool
  | undefined => false
  | null => false
  | bool b => b
  | num n => n != 0
  | str s => s != ""
  | arr _ => true
  | obj _ => true

/-- The optional-chaining read `v?.name`, for the property names this program
reads (`state`, `value`, `errorType`): none of them is defined on a
primitive wrapper, on `Array.prototype` or on `Object.prototype`, so only an
object with that own property yields a value. -/
def getOpt (v : JsVal) (name : String) : JsVal :=
  match v with
  | obj fields => (fields.lookup name).getD undefined
  | _ => undefined

/-- The plain read `v.name`: a `TypeError` on `undefined` and `null`. -/
def get (v : JsVal) (name : String) : Except JsError JsVal :=
  if v.isNullish then .error .typeError else .ok (v.getOpt name)

/-- The comparison `v === 'literal'`. -/
def strictEqStr : JsVal → String → Bool
  | str s, t => s == t
  | _, _ => false

end JsVal

/-! ## Strings -/

/-- Whether `t` occurs in `s` as a contiguous run of characters. -/
def includesChars : List Char → List Char → Bool
  | [], t => t.isEmpty
  | c :: s, t => t.isPrefixOf (c :: s) || includesChars s t

/-- The method `String.prototype.includes`. -/
def jsIncludes (s t : String) : Bool :=
  includesChars s.data t.data

/-- The text `t` occurs in `s`: what "contains the substring" means. -/
def Occurs (t s : String) : Prop :=
  ∃ pre post : List Char, s.data = pre ++ t.data ++ post

/-- The call `eventType.includes(t)` where `eventType` may be absent: calling a
method of `undefined` is a `TypeError`. -/
def includesOf (eventType : Option String) (t : String) : Except JsError Bool :=
  match eventType with
  | none => .error .typeError
  | some s => .ok (jsIncludes s t)

/-- The method `String.prototype.toLowerCase`, on the ASCII letters. For the
ASCII words searched afterwards the answers are those of the full Unicode
lower-casing, which maps no other character to a letter of these words,
except the dotted capital I, to an `i` followed by a combining dot. -/
def toLowerCase (s : String) : String :=
  ⟨s.data.map Char.toLower⟩

/-- The call `eventType.toLowerCase()` where `eventType` may be absent. -/
def toLowerCaseOf (eventType : Option String) : Except JsError String :=
  match eventType with
  | none => .error .typeError
  | some s => .ok (toLowerCase s)

/-- The operator `a && b` whose right operand can fail and is evaluated only
when the left operand holds. -/
def andThen (a : Bool) (b : Except JsError Bool) : Except JsError Bool :=
  if a then b else .ok false

/-- The operator `a || b` whose right operand can fail and is evaluated only
when the left operand does not hold. -/
def orElse (a : Bool) (b : Except JsError Bool) : Except JsError Bool :=
  if a then .ok true else b

/-! ## Severity classifier (`index.js`) -/

/-- The four strings `determineSeverity` returns. -/
inductive Severity where
  | LOW | MEDIUM | HIGH | CRITICAL
  deriving DecidableEq, Repr

/-- The function `determineSeverity(source, eventType, detail)`. -/
def determineSeverity (source : String) (eventType : Option String) (detail : JsVal) :
    Except JsError Severity := do
  -- Critical incidents
  if ← andThen (source == "aws.ec2") ((detail.get "state").map (·.strictEqStr "terminated")) then
    return .CRITICAL
  if ← andThen (source == "aws.rds") (includesOf eventType "failure") then
    return .CRITICAL
  if ← andThen (source == "aws.lambda") ((detail.get "errorType").map (·.truthy)) then
    return .HIGH
  -- High incidents
  if ← andThen (source == "aws.ec2") ((detail.get "state").map (·.strictEqStr "stopped")) then
    return .HIGH
  if ← andThen (source == "aws.cloudwatch")
      ((detail.get "state").map (fun st => (st.getOpt "value").strictEqStr "ALARM")) then
    return .HIGH
  if ← andThen (source == "aws.s3") (includesOf eventType "error") then
    return .HIGH
  -- Medium incidents
  if ← andThen (source == "aws.ec2") ((detail.get "state").map (·.strictEqStr "stopping")) then
    return .MEDIUM
  if source == "aws.autoscaling" then
    return .MEDIUM
  return .LOW


/-! ## Binary64 numbers

The confidence score is a JavaScript number. The numbers that occur are
positive, finite and normal, so a number is a 53-bit significand and an
exponent, and a sum is the exact sum rounded to nearest, ties to even. -/

/-- The binary64 number `mant * 2 ^ exp`. A number produced by `Dbl.round`
has `2 ^ 52 ≤ mant < 2 ^ 53`, or is zero. -/
structure Dbl where
  mant : Nat
  exp : Int
  deriving DecidableEq, Repr

namespace Dbl

/-- The value `⌊log₂ n⌋` by repeated halving, at most `fuel` times. -/
def log2Fuel : Nat → Nat → Nat
  | 0, _ => 0
  | fuel + 1, n => if n < 2 then 0 else log2Fuel fuel (n / 2) + 1

/-- The value `⌊log₂ n⌋` (and `0` for `n = 0`). -/
def floorLog2 (n : Nat) : Nat := log2Fuel n n

/-- The value `⌊n / (d * 2 ^ e)⌋`. -/
def floorScaled (n d : Nat) (e : Int) : Nat :=
  (n * 2 ^ (-e).toNat) / (d * 2 ^ e.toNat)

/-- The binary64 number nearest to the rational `n / d` (`d` positive), ties to
the even significand; exponent range not limited. -/
def round (n d : Nat) : Dbl :=
  if n = 0 then ⟨0, 0⟩ else
  let e0 : Int := (floorLog2 n : Int) - (floorLog2 d : Int) - 53
  let e : Int := if floorScaled n d e0 < 2 ^ 53 then e0 else e0 + 1
  let num := n * 2 ^ (-e).toNat
  let den := d * 2 ^ e.toNat
  let q := num / den
  let r := num % den
  let m := if den < 2 * r ∨ (2 * r = den ∧ q % 2 = 1) then q + 1 else q
  if m = 2 ^ 53 then ⟨2 ^ 52, e + 1⟩ else ⟨m, e⟩

/-- The operator `x + y` on numbers: the exact sum, rounded. -/
def add (x y : Dbl) : Dbl :=
  let e := min x.exp y.exp
  round ((x.mant * 2 ^ (x.exp - e).toNat + y.mant * 2 ^ (y.exp - e).toNat) * 2 ^ e.toNat)
    (2 ^ (-e).toNat)

/-- The comparison `x <= y` on numbers. -/
def le (x y : Dbl) : Bool :=
  let e := min x.exp y.exp
  decide (x.mant * 2 ^ (x.exp - e).toNat ≤ y.mant * 2 ^ (y.exp - e).toNat)

/-- The function `Math.min(x, y)`. -/
def min (x y : Dbl) : Dbl := if le x y then x else y

/-- The real number a binary64 number stands for. -/
def toRat (x : Dbl) : ℚ := (x.mant : ℚ) * (2 : ℚ) ^ x.exp

end Dbl

/-! ## Analysis enricher (`ai-analyzer.js`) -/

/-- An entry of the knowledge table. A property that an entry does not define
reads as `undefined`, here `none`. -/
structure Template where
  summary : String
  causes : Option (List String)
  recommendations : Option (List String)
  deriving DecidableEq, Repr

/-- The own properties of the constant `ANALYSIS_TEMPLATES`. -/
def ANALYSIS_TEMPLATES : List (String × List (String × Template)) :=
  [("aws.ec2",
      [("terminated",
          { summary := "EC2 instance unexpectedly terminated"
            causes := some ["Instance failure", "Auto Scaling action", "Manual termination",
              "Spot instance interruption"]
            recommendations := some [
              "Check CloudWatch logs for error messages",
              "Verify Auto Scaling group configuration",
              "Review instance health checks",
              "Consider using Reserved Instances for critical workloads"] }),
       ("stopped",
          { summary := "EC2 instance stopped"
            causes := some ["Manual stop", "System maintenance", "Instance failure",
              "Resource constraints"]
            recommendations := some [
              "Check instance status and system logs",
              "Verify if stop was intentional",
              "Monitor for automatic restart",
              "Review instance sizing and resource usage"] })]),
   ("aws.rds",
      [("failure",
          { summary := "RDS database failure detected"
            causes := some ["Connection limit exceeded", "Storage full", "Parameter group issues",
              "Network connectivity"]
            recommendations := some [
              "Check database connection count",
              "Monitor storage utilization",
              "Review parameter group settings",
              "Verify security group rules"] })]),
   ("aws.lambda",
      [("error",
          { summary := "Lambda function execution error"
            causes := some ["Code errors", "Timeout", "Memory limit", "Permission issues"]
            recommendations := some [
              "Review function logs in CloudWatch",
              "Check function timeout settings",
              "Monitor memory usage",
              "Verify IAM permissions"] })]),
   ("aws.s3",
      [("error",
          { summary := "S3 service error detected"
            causes := some ["Permission denied", "Bucket policy issues", "Network connectivity",
              "Service limits"]
            recommendations := some [
              "Check bucket policies and ACLs",
              "Verify IAM permissions",
              "Monitor request rates",
              "Review CloudTrail logs"] })])]

/-- The property names every object literal inherits from `Object.prototype`.
Each of them reads as a function, or for `__proto__` as `Object.prototype`
itself: a truthy value that holds no template. -/
def objectPrototypeNames : List String :=
  ["constructor", "__defineGetter__", "__defineSetter__", "hasOwnProperty",
   "__lookupGetter__", "__lookupSetter__", "isPrototypeOf", "propertyIsEnumerable",
   "toString", "valueOf", "__proto__", "toLocaleString"]

/-- What the read `ANALYSIS_TEMPLATES[source]` yields. -/
inductive SourceTemplates where
  | table (entries : List (String × Template))
  | inherited
  | undefined
  deriving DecidableEq, Repr

/-- The read `ANALYSIS_TEMPLATES[source]`: an own property, else an inherited
one, else `undefined`. -/
def lookupSource (source : String) : SourceTemplates :=
  match ANALYSIS_TEMPLATES.lookup source with
  | some entries => .table entries
  | none => if objectPrototypeNames.contains source then .inherited else .undefined

namespace SourceTemplates

/-- The `ToBoolean` conversion of `ANALYSIS_TEMPLATES[source]`. -/
def truthy : SourceTemplates → Bool
  | table _ => true
  | inherited => true
  | undefined => false

/-- The expression `x || {}`. -/
def orEmpty : SourceTemplates → SourceTemplates
  | undefined => table []
  | x => x

/-- The read `sourceTemplates[eventKey]` for the keys `findEventKey` returns:
none of them is a property of a function or of `Object.prototype`. -/
def lookupKey (t : SourceTemplates) (eventKey : String) : Option Template :=
  match t with
  | table entries => entries.lookup eventKey
  | inherited => none
  | undefined => none

end SourceTemplates

/-- The function `findEventKey(eventType, details)`. -/
def findEventKey (eventType : Option String) (details : JsVal) : Except JsError String := do
  if ← orElse (jsIncludes (← toLowerCaseOf eventType) "terminated")
      ((details.get "state").map (·.strictEqStr "terminated")) then
    return "terminated"
  if ← orElse (jsIncludes (← toLowerCaseOf eventType) "stopped")
      ((details.get "state").map (·.strictEqStr "stopped")) then
    return "stopped"
  if ← orElse (jsIncludes (← toLowerCaseOf eventType) "failure")
      ((toLowerCaseOf eventType).map (jsIncludes · "error")) then
    return "failure"
  if (← details.get "errorType").truthy then
    return "error"
  return "default"

/-- The function `getGenericAnalysis(source, eventType)`; an absent event type
is spelled `undefined` by the template literal. -/
def getGenericAnalysis (source : String) (eventType : Option String) : Template :=
  { summary := source ++ " service event detected: " ++ eventType.getD "undefined"
    causes := some ["Service-specific issue", "Configuration problem", "Resource constraints"]
    recommendations := some [
      "Check service-specific logs",
      "Review recent configuration changes",
      "Monitor resource utilization",
      "Consult AWS service documentation"] }

/-- The function `generateSeverityReasoning(source, eventType, details)`. -/
def generateSeverityReasoning (source : String) (eventType : Option String) (details : JsVal) :
    Except JsError String := do
  if ← andThen (source == "aws.ec2")
      ((details.get "state").map (·.strictEqStr "terminated")) then
    return "Critical: Instance termination can cause service outages and data loss"
  if ← andThen (source == "aws.rds") (includesOf eventType "failure") then
    return "Critical: Database failures directly impact application availability"
  if ← andThen (source == "aws.lambda") ((details.get "errorType").map (·.truthy)) then
    return "High: Function errors can disrupt serverless application workflows"
  return "Medium: Event requires monitoring but may not immediately impact services"

/-- The function `assessImpact(source, eventType, details)`. -/
def assessImpact (source : String) (_eventType : Option String) (details : JsVal) :
    Except JsError (List String) := do
  let mut impacts : List String := []
  if source == "aws.ec2" then
    impacts := impacts ++ ["Potential service downtime"]
    impacts := impacts ++ ["Application unavailability"]
    if (← details.get "state").strictEqStr "terminated" then
      impacts := impacts ++ ["Possible data loss"]
  if source == "aws.rds" then
    impacts := impacts ++ ["Database connectivity issues"]
    impacts := impacts ++ ["Application data access problems"]
    impacts := impacts ++ ["Potential transaction failures"]
  if source == "aws.lambda" then
    impacts := impacts ++ ["Serverless function failures"]
    impacts := impacts ++ ["API endpoint disruptions"]
    impacts := impacts ++ ["Workflow interruptions"]
  return if impacts.length > 0 then impacts else ["Impact assessment pending"]

/-- The function `generateNextSteps(source, eventType)`. -/
def generateNextSteps (source : String) (_eventType : Option String) : List String := Id.run do
  let mut steps : List String := [
    "Monitor incident status",
    "Check related AWS service health",
    "Review CloudWatch metrics and alarms"]
  if source == "aws.ec2" then
    steps := steps ++ ["Verify instance replacement if needed"]
    steps := steps ++ ["Check Auto Scaling group status"]
  if source == "aws.rds" then
    steps := steps ++ ["Test database connectivity"]
    steps := steps ++ ["Review database performance metrics"]
  return steps

/-- The number of UTF-16 code units of a string, its `length`. -/
def utf16Length (s : String) : Nat :=
  (s.data.map (fun c => if c.toNat < 65536 then 1 else 2)).sum

/-- The number `Object.keys(details).length` for a value that is not
`undefined` or `null`: the distinct own keys of an object, the indices of an
array or of a string, nothing for a number or a boolean. -/
def keyCount : JsVal → Nat
  | .obj fields => (fields.map Prod.fst).eraseDups.length
  | .arr items => items.length
  | .str s => utf16Length s
  | _ => 0

/-- The function `calculateConfidenceScore(source, eventType, details)`. -/
def calculateConfidenceScore (source : String) (_eventType : Option String) (details : JsVal) :
    Dbl := Id.run do
  let mut score := Dbl.round 7 10 -- Base confidence
  -- Higher confidence for well-known event patterns
  if (lookupSource source).truthy then score := score.add (Dbl.round 2 10)
  if details.truthy && decide (keyCount details > 2) then score := score.add (Dbl.round 1 10)
  return Dbl.min score (Dbl.round 1 1)

/-- The record `analyzeIncident` returns. -/
structure Analysis where
  summary : String
  severity_reasoning : String
  root_causes : List String
  recommendations : List String
  impact_assessment : List String
  next_steps : List String
  confidence_score : Dbl
  deriving DecidableEq, Repr

/-- The function `analyzeIncident(source, eventType, details)`, without its log
line and its delay of 100 ms. -/
def analyzeIncident (source : String) (eventType : Option String) (details : JsVal) :
    Except JsError Analysis := do
  -- Get base analysis template
  let sourceTemplates := (lookupSource source).orEmpty
  let eventKey ← findEventKey eventType details
  let template := (sourceTemplates.lookupKey eventKey).getD (getGenericAnalysis source eventType)
  -- Enhance analysis with specific details
  let summary := template.summary
  let severity_reasoning ← generateSeverityReasoning source eventType details
  let root_causes := template.causes.getD ["Unknown cause - requires investigation"]
  let recommendations :=
    template.recommendations.getD ["Monitor the situation", "Check service logs"]
  let impact_assessment ← assessImpact source eventType details
  let next_steps := generateNextSteps source eventType
  let confidence_score := calculateConfidenceScore source eventType details
  return { summary, severity_reasoning, root_causes, recommendations, impact_assessment,
           next_steps, confidence_score }

/-! ## Incident handler (`index.js`) -/

/-- The event the handler receives: `event.source`, `event['detail-type']`
(perhaps absent) and `event.detail` (`undefined` when absent). -/
structure Event where
  source : String
  detailType : Option String
  detail : JsVal

/-- What the handler reads from outside: the clock, the random generator, and
whether the two collaborators accept their call. -/
structure World where
  timestamp : Nat
  randomSuffix : String
  createdAt : String
  updatedAt : String
  putSucceeds : Bool
  publishSucceeds : Bool

/-- The incident record the handler assembles. -/
structure Incident where
  incident_id : String
  timestamp : Nat
  source : String
  event_type : Option String
  severity : Severity
  status : String
  details : JsVal
  analysis : Analysis
  created_at : String
  updated_at : String

/-- A call to a collaborator and whether it succeeded. -/
inductive Effect where
  | put (item : Incident) (succeeded : Bool)
  | publish (item : Incident) (succeeded : Bool)

namespace Effect

/-- Whether the effect is a repository write. -/
def isPut : Effect → Bool
  | put _ _ => true
  | publish _ _ => false

/-- Whether the effect is a notification publish. -/
def isPublish : Effect → Bool
  | put _ _ => false
  | publish _ _ => true

/-- Whether the effect is a repository write that succeeded. -/
def isCompletedPut : Effect → Bool
  | put _ ok => ok
  | publish _ _ => false

end Effect

/-- The body of a response, before `JSON.stringify` where the handler applies it. -/
inductive Body where
  | text (s : String)
  | processed (message incidentId : String) (severity : Severity)
  | failed (error : String)
  deriving DecidableEq, Repr

/-- The value the handler returns. -/
structure Response where
  statusCode : Nat
  body : Body
  deriving DecidableEq, Repr

/-- The function `sendNotification(incident)`: one publish, whose failure is
caught and logged. -/
def sendNotification (w : World) (incident : Incident) : List Effect :=
  [.publish incident w.publishSucceeds]

/-- The response of the `catch` block of the handler. -/
def failureResponse : Response :=
  { statusCode := 500, body := .failed "Failed to process incident" }

/-- The function `exports.handler(event)`: the response and the calls made to the
collaborators, in order. Log lines are left out. -/
def handler (w : World) (event : Event) : Response × List Effect :=
  -- Extract event details
  let eventSource := event.source
  let eventType := event.detailType
  let eventDetail := event.detail
  let timestamp := w.timestamp
  -- Determine incident severity
  match determineSeverity eventSource eventType eventDetail with
  | .error _ => (failureResponse, [])
  | .ok severity =>
    -- Skip low-severity events to reduce noise
    if severity = .LOW then
      ({ statusCode := 200, body := .text "Event processed - low severity" }, [])
    else
      -- Generate incident ID
      let incidentId := eventSource ++ "-" ++ toString timestamp ++ "-" ++ w.randomSuffix
      -- Analyze incident with AI
      match analyzeIncident eventSource eventType eventDetail with
      | .error _ => (failureResponse, [])
      | .ok analysis =>
        -- Create incident record
        let incident : Incident :=
          { incident_id := incidentId
            timestamp := timestamp
            source := eventSource
            event_type := eventType
            severity := severity
            status := "OPEN"
            details := eventDetail
            analysis := analysis
            created_at := w.createdAt
            updated_at := w.updatedAt }
        -- Store in DynamoDB
        if !w.putSucceeds then (failureResponse, [.put incident false])
        else
          -- Send notification for high/critical incidents
          let sent :=
            if severity = .HIGH ∨ severity = .CRITICAL then sendNotification w incident else []
          ({ statusCode := 200
             body := .processed "Incident processed successfully" incidentId severity },
           .put incident true :: sent)

/-! ## Dashboard metrics (`dashboard-api/index.js`) -/

/-- An item of the incidents table as the metrics read it. The two time stamps
stand for `new Date(field).getTime()`: the epoch milliseconds of the ISO text,
`none` for a `created_at` that is no date (`NaN`) and for a `resolved_at` that
is absent. The source is a string or absent. -/
structure StoredIncident where
  severity : JsVal
  status : JsVal
  source : Option String
  created_at : Option Int
  resolved_at : Option Int

/-- The four strings `calculateSystemHealth` returns, in rising order. -/
inductive Health where
  | HEALTHY | WARNING | DEGRADED | CRITICAL
  deriving DecidableEq, Repr

/-- The function `calculateSystemHealth(incidents)`. -/
def calculateSystemHealth (incidents : List StoredIncident) : Health :=
  let criticalCount := (incidents.filter
    (fun i => i.severity.strictEqStr "CRITICAL" && i.status.strictEqStr "OPEN")).length
  let highCount := (incidents.filter
    (fun i => i.severity.strictEqStr "HIGH" && i.status.strictEqStr "OPEN")).length
  if criticalCount > 0 then .CRITICAL
  else if highCount > 2 then .DEGRADED
  else if highCount > 0 then .WARNING
  else .HEALTHY

/-- The position of a rating in the order HEALTHY < WARNING < DEGRADED < CRITICAL. -/
def Health.rank : Health → Nat
  | .HEALTHY => 0
  | .WARNING => 1
  | .DEGRADED => 2
  | .CRITICAL => 3

/-- An object used as a map, as the list of its own properties in insertion
order: the assignment `o[k] = v` replaces the value of an own key in place
and appends a new key at the end. -/
def setKey {α : Type} (o : List (String × α)) (k : String) (v : α) : List (String × α) :=
  match o with
  | [] => [(k, v)]
  | (k', v') :: rest => if k' == k then (k', v) :: rest else (k', v') :: setKey rest k v

/-- The call `o.hasOwnProperty(k)`. -/
def hasOwn {α : Type} (o : List (String × α)) (k : String) : Bool :=
  o.any (fun p => p.1 == k)

/-- The method `getHours()` of the date with the given epoch milliseconds, in
UTC, the time zone of the Lambda runtime. -/
def getHours (t : Int) : Nat :=
  ((t / 3600000) % 24).toNat

/-- The call `s.padStart(2, '0')`. -/
def padStart2 (s : String) : String :=
  ⟨List.replicate (2 - s.data.length) '0' ++ s.data⟩

/-- The key `getHours().toString().padStart(2, '0') + ':00'` of a date; the hour of
no date is `NaN`. -/
def hourKey (t : Option Int) : String :=
  match t with
  | none => "NaN:00"
  | some t => padStart2 (toString (getHours t)) ++ ":00"

/-- The function `getIncidentsByHour(incidents)`, with `now` the epoch milliseconds
of `new Date()`. -/
def getIncidentsByHour (now : Int) (incidents : List StoredIncident) : List (String × Nat) :=
  -- Initialize last 24 hours
  let hours := (List.range 24).reverse.foldl
    (fun hours (i : Nat) =>
      setKey hours (hourKey (some (now - (i : Int) * 60 * 60 * 1000))) 0) []
  -- Count incidents by hour
  incidents.foldl
    (fun hours incident =>
      let hourKey := hourKey incident.created_at
      if hasOwn hours hourKey then
        setKey hours hourKey ((hours.lookup hourKey).getD 0 + 1)
      else hours)
    hours

/-- A value of the object `sources`: a count, or the text that `+ 1` makes of
an inherited member of `Object.prototype`. -/
inductive Tally where
  | count (n : Nat)
  | text
  deriving DecidableEq, Repr

/-- The expression `(sources[source] || 0) + 1`: an own count is incremented, an
own text stays a text, an inherited member (a function or an object, truthy)
becomes a text, and an absent key gives 1. -/
def nextTally (sources : List (String × Tally)) (source : String) : Tally :=
  match sources.lookup source with
  | some (.count n) => .count (n + 1)
  | some .text => .text
  | none => if objectPrototypeNames.contains source then .text else .count 1

/-- The function `getIncidentsBySource(incidents)`. Assigning a primitive to
`__proto__` changes nothing. -/
def getIncidentsBySource (incidents : List StoredIncident) : List (String × Tally) :=
  incidents.foldl
    (fun sources incident =>
      let source := match incident.source with
        | some s => if s != "" then s else "unknown"
        | none => "unknown"
      if source == "__proto__" then sources
      else setKey sources source (nextTally sources source))
    []

/-! ## Signed numbers and the average resolution time -/

/-- A finite binary64 number with its sign: `± mant * 2 ^ exp`. -/
structure SDbl where
  neg : Bool
  mag : Dbl
  deriving DecidableEq, Repr

namespace SDbl

/-- The real number a signed number stands for. -/
def toRat (x : SDbl) : ℚ := if x.neg then -x.mag.toRat else x.mag.toRat

/-- The number nearest to the exact value `z * 2 ^ e / d` (`d` positive). -/
def ofScaled (z : Int) (e : Int) (d : Nat) : SDbl :=
  { neg := decide (z < 0)
    mag := Dbl.round (z.natAbs * 2 ^ e.toNat) (d * 2 ^ (-e).toNat) }

/-- The number of an integer, such as a time value or a length. -/
def ofInt (z : Int) : SDbl := ofScaled z 0 1

/-- The integer `± mant * 2 ^ (exp - e)` of a number at the scale `2 ^ e`, for
`e` at most `exp`. -/
def scaledTo (x : SDbl) (e : Int) : Int :=
  (if x.neg then -1 else 1) * ((x.mag.mant * 2 ^ (x.mag.exp - e).toNat : Nat) : Int)

/-- The operator `x + y`: the exact sum, rounded. -/
def add (x y : SDbl) : SDbl :=
  let e := min x.mag.exp y.mag.exp
  ofScaled (x.scaledTo e + y.scaledTo e) e 1

/-- The operator `x - y`: the exact difference, rounded. -/
def sub (x y : SDbl) : SDbl :=
  let e := min x.mag.exp y.mag.exp
  ofScaled (x.scaledTo e - y.scaledTo e) e 1

/-- The operator `x / y` for a divisor that is not zero: the exact quotient,
rounded. -/
def div (x y : SDbl) : SDbl :=
  { neg := x.neg != y.neg
    mag := Dbl.round (x.mag.mant * 2 ^ (x.mag.exp - y.mag.exp).toNat)
      (y.mag.mant * 2 ^ (y.mag.exp - x.mag.exp).toNat) }

/-- The function `Math.round(x)`: the integer `⌊x + 1/2⌋`. -/
def jsRound (x : SDbl) : Int :=
  let m : Int := (if x.neg then -1 else 1) * (x.mag.mant : Int)
  if 0 ≤ x.mag.exp then m * 2 ^ x.mag.exp.toNat
  else (2 * m + 2 ^ (-x.mag.exp).toNat) / (2 * 2 ^ (-x.mag.exp).toNat)

end SDbl

/-- The time value `new Date(field).getTime()` as a number; `none` is `NaN`. -/
def getTime (t : Option Int) : Option SDbl :=
  t.map SDbl.ofInt

/-- The function `calculateAvgResolutionTime(incidents)`; `none` is `NaN`. -/
def calculateAvgResolutionTime (incidents : List StoredIncident) : Option Int :=
  let resolvedIncidents := incidents.filter
    (fun i => i.status.strictEqStr "RESOLVED" && i.resolved_at.isSome)
  if resolvedIncidents.length = 0 then some 0
  else
    let totalTime : Option SDbl := resolvedIncidents.foldl
      (fun sum incident => do
        let createdAt ← getTime incident.created_at
        let resolvedAt ← getTime incident.resolved_at
        return (← sum).add (resolvedAt.sub createdAt))
      (some (SDbl.ofInt 0))
    totalTime.map (fun t =>
      (((t.div (SDbl.ofInt resolvedIncidents.length)).div (SDbl.ofInt 1000)).div
        (SDbl.ofInt 60)).jsRound) -- Minutes

/-- The object `metrics` that `getMetrics` computes from the scanned items. -/
structure Metrics where
  total_incidents : Nat
  open_incidents : Nat
  resolved_incidents : Nat
  critical_incidents : Nat
  high_incidents : Nat
  medium_incidents : Nat
  low_incidents : Nat
  avg_resolution_time : Option Int
  incidents_by_source : List (String × Tally)
  incidents_by_hour : List (String × Nat)
  system_health : Health
  deriving DecidableEq, Repr

/-- The function `getMetrics`, from the items the scan returned; `now` is the time
at which the hourly histogram is built. -/
def getMetrics (now : Int) (incidents : List StoredIncident) : Metrics :=
  { total_incidents := incidents.length
    open_incidents := (incidents.filter (fun i => i.status.strictEqStr "OPEN")).length
    resolved_incidents := (incidents.filter (fun i => i.status.strictEqStr "RESOLVED")).length
    critical_incidents := (incidents.filter (fun i => i.severity.strictEqStr "CRITICAL")).length
    high_incidents := (incidents.filter (fun i => i.severity.strictEqStr "HIGH")).length
    medium_incidents := (incidents.filter (fun i => i.severity.strictEqStr "MEDIUM")).length
    low_incidents := (incidents.filter (fun i => i.severity.strictEqStr "LOW")).length
    avg_resolution_time := calculateAvgResolutionTime incidents
    incidents_by_source := getIncidentsBySource incidents
    incidents_by_hour := getIncidentsByHour now incidents
    system_health := calculateSystemHealth incidents }

/-! ## Helper definitions of the proofs -/

/-- The CRITICAL rule in the words of the specification. -/
def CriticalRule (source : String) (eventType : Option String) (detail : JsVal) : Prop :=
  (source = "aws.ec2" ∧ detail.getOpt "state" = .str "terminated") ∨
  (source = "aws.rds" ∧ ∃ s, eventType = some s ∧ Occurs "failure" s)

/-- The HIGH rule in the words of the specification. -/
def HighRule (source : String) (eventType : Option String) (detail : JsVal) : Prop :=
  (source = "aws.lambda" ∧ (detail.getOpt "errorType").truthy = true) ∨
  (source = "aws.ec2" ∧ detail.getOpt "state" = .str "stopped") ∨
  (source = "aws.cloudwatch" ∧ (detail.getOpt "state").getOpt "value" = .str "ALARM") ∨
  (source = "aws.s3" ∧ ∃ s, eventType = some s ∧ Occurs "error" s)

/-- The MEDIUM rule in the words of the specification. -/
def MediumRule (source : String) (detail : JsVal) : Prop :=
  (source = "aws.ec2" ∧ detail.getOpt "state" = .str "stopping") ∨
  source = "aws.autoscaling"

/-- The classifier read source by source: each source reaches only its own
conditions, because every condition starts with a test of `source`. -/
def severityBySource (source : String) (eventType : Option String) (detail : JsVal) :
    Except JsError Severity :=
  if source = "aws.ec2" then
    if detail.isNullish then .error .typeError
    else .ok (if (detail.getOpt "state").strictEqStr "terminated" then .CRITICAL
      else if (detail.getOpt "state").strictEqStr "stopped" then .HIGH
      else if (detail.getOpt "state").strictEqStr "stopping" then .MEDIUM else .LOW)
  else if source = "aws.rds" then
    match eventType with
    | none => .error .typeError
    | some s => .ok (if jsIncludes s "failure" then .CRITICAL else .LOW)
  else if source = "aws.lambda" then
    if detail.isNullish then .error .typeError
    else .ok (if (detail.getOpt "errorType").truthy then .HIGH else .LOW)
  else if source = "aws.cloudwatch" then
    if detail.isNullish then .error .typeError
    else .ok (if ((detail.getOpt "state").getOpt "value").strictEqStr "ALARM" then .HIGH else .LOW)
  else if source = "aws.s3" then
    match eventType with
    | none => .error .typeError
    | some s => .ok (if jsIncludes s "error" then .HIGH else .LOW)
  else if source = "aws.autoscaling" then .ok .MEDIUM
  else .ok .LOW

/-- The key `findEventKey` derives from a present event type and a present
detail payload, condition by condition. -/
def eventKeyOf (s : String) (details : JsVal) : String :=
  if jsIncludes (toLowerCase s) "terminated" ∨ (details.getOpt "state").strictEqStr "terminated" then
    "terminated"
  else if jsIncludes (toLowerCase s) "stopped" ∨ (details.getOpt "state").strictEqStr "stopped" then
    "stopped"
  else if jsIncludes (toLowerCase s) "failure" ∨ jsIncludes (toLowerCase s) "error" then "failure"
  else if (details.getOpt "errorType").truthy then "error"
  else "default"

/-- The reasoning `generateSeverityReasoning` gives for a present event type and
a present detail payload. -/
def reasoningOf (source s : String) (details : JsVal) : String :=
  if source = "aws.ec2" ∧ (details.getOpt "state").strictEqStr "terminated" then
    "Critical: Instance termination can cause service outages and data loss"
  else if source = "aws.rds" ∧ jsIncludes s "failure" then
    "Critical: Database failures directly impact application availability"
  else if source = "aws.lambda" ∧ (details.getOpt "errorType").truthy then
    "High: Function errors can disrupt serverless application workflows"
  else "Medium: Event requires monitoring but may not immediately impact services"

/-- The record the handler assembles from an event, its severity and its analysis. -/
def incidentOf (w : World) (event : Event) (severity : Severity) (analysis : Analysis) :
    Incident :=
  { incident_id := event.source ++ "-" ++ toString w.timestamp ++ "-" ++ w.randomSuffix
    timestamp := w.timestamp
    source := event.source
    event_type := event.detailType
    severity := severity
    status := "OPEN"
    details := event.detail
    analysis := analysis
    created_at := w.createdAt
    updated_at := w.updatedAt }

/-- A world where both collaborators accept their call. -/
def sampleWorld : World :=
  { timestamp := 1700000000000
    randomSuffix := "k3j9x0q2a"
    createdAt := "2023-11-14T22:13:20.000Z"
    updatedAt := "2023-11-14T22:13:20.000Z"
    putSucceeds := true
    publishSucceeds := true }

/-- The scenario event of an unknown source. -/
def pingEvent : Event :=
  { source := "unknown-service", detailType := some "ping", detail := .obj [] }

/-- The scenario event of an autoscaling group. -/
def scaleOutEvent : Event :=
  { source := "aws.autoscaling", detailType := some "scale-out", detail := .obj [] }

/-- The scenario event of a terminated instance. -/
def terminatedEvent : Event :=
  { source := "aws.ec2", detailType := some "state-change"
    detail := .obj [("state", .str "terminated")] }

/-- The category key as the specification words its derivation: the event type
first (`terminated`, then `stopped`, then `failure` or `error`), then the state
field of the detail, then the error-type field, else the default key. -/
def specEventKey (s : String) (details : JsVal) : String :=
  if jsIncludes (toLowerCase s) "terminated" then "terminated"
  else if jsIncludes (toLowerCase s) "stopped" then "stopped"
  else if jsIncludes (toLowerCase s) "failure" ∨ jsIncludes (toLowerCase s) "error" then "failure"
  else if (details.getOpt "state").strictEqStr "terminated" then "terminated"
  else if (details.getOpt "state").strictEqStr "stopped" then "stopped"
  else if (details.getOpt "errorType").truthy then "error"
  else "default"

/-- The first condition of `findEventKey`. -/
def KeyTerminated (s : String) (details : JsVal) : Prop :=
  Occurs "terminated" (toLowerCase s) ∨ details.getOpt "state" = .str "terminated"

/-- The second condition of `findEventKey`. -/
def KeyStopped (s : String) (details : JsVal) : Prop :=
  Occurs "stopped" (toLowerCase s) ∨ details.getOpt "state" = .str "stopped"

/-- The third condition of `findEventKey`. -/
def KeyFailure (s : String) : Prop :=
  Occurs "failure" (toLowerCase s) ∨ Occurs "error" (toLowerCase s)


/-- The entry `ANALYSIS_TEMPLATES[source][key]` of the knowledge table, when the
table has it. -/
def templateEntry (source key : String) : Option Template :=
  (ANALYSIS_TEMPLATES.lookup source).bind (fun entries => entries.lookup key)

/-- The detail payload of the first simulator template. -/
def terminatedDetail : JsVal :=
  .obj [("instanceId", .str "i-1234567890abcdef0"), ("state", .str "terminated"),
        ("previousState", .str "running"),
        ("reason", .str "User initiated (2023-12-31 11:49:46 GMT)")]

/-- Whether the read `ANALYSIS_TEMPLATES[source]` is truthy: the source owns a
template table, or is a name inherited from `Object.prototype`. -/
def KnownSource (source : String) : Prop :=
  source ∈ ["aws.ec2", "aws.rds", "aws.lambda", "aws.s3"] ∨ source ∈ objectPrototypeNames

/-- Whether the detail payload is truthy and has more than two keys. -/
def ManyFields (details : JsVal) : Prop :=
  details.truthy = true ∧ 2 < keyCount details

instance (source : String) : Decidable (KnownSource source) := by
  unfold KnownSource
  exact inferInstance

instance (details : JsVal) : Decidable (ManyFields details) := by
  unfold ManyFields
  exact inferInstance

/-- Whether the source has a template table in `ANALYSIS_TEMPLATES`. -/
def HasTemplateTable (source : String) : Prop :=
  source ∈ ["aws.ec2", "aws.rds", "aws.lambda", "aws.s3"]

instance (source : String) : Decidable (HasTemplateTable source) := by
  unfold HasTemplateTable
  exact inferInstance

/-- The score the claim states, computed exactly in the rationals. -/
def exactConfidence (source : String) (details : JsVal) : ℚ :=
  min 1 (7 / 10 + (if HasTemplateTable source then 2 / 10 else 0) +
    (if ManyFields details then 1 / 10 else 0))

/-- The four reasoning texts. -/
def reasoningTexts : List String :=
  ["Critical: Instance termination can cause service outages and data loss",
   "Critical: Database failures directly impact application availability",
   "High: Function errors can disrupt serverless application workflows",
   "Medium: Event requires monitoring but may not immediately impact services"]

/-- An entry of `INCIDENT_TEMPLATES` of the simulator (`simulate-incidents.js`). -/
structure SimTemplate where
  source : String
  detailType : String
  detail : List (String × JsVal)

/-- The constant `INCIDENT_TEMPLATES`, by incident type. -/
def INCIDENT_TEMPLATES : List (String × List SimTemplate) :=
  [("ec2",
      [{ source := "aws.ec2"
         detailType := "EC2 Instance State-change Notification"
         detail := [("instanceId", .str "i-1234567890abcdef0"), ("state", .str "terminated"),
           ("previousState", .str "running"),
           ("reason", .str "User initiated (2023-12-31 11:49:46 GMT)")] },
       { source := "aws.ec2"
         detailType := "EC2 Instance State-change Notification"
         detail := [("instanceId", .str "i-0987654321fedcba0"), ("state", .str "stopped"),
           ("previousState", .str "running"), ("reason", .str "Instance failure")] }]),
   ("rds",
      [{ source := "aws.rds"
         detailType := "RDS DB Instance Event"
         detail := [("sourceId", .str "mydb-instance"),
           ("eventCategories", .arr [.str "failure"]),
           ("message", .str "Database connection limit exceeded"),
           ("sourceType", .str "db-instance")] },
       { source := "aws.rds"
         detailType := "RDS DB Cluster Event"
         detail := [("sourceId", .str "mydb-cluster"),
           ("eventCategories", .arr [.str "failover"]),
           ("message", .str "Failover completed"), ("sourceType", .str "db-cluster")] }]),
   ("lambda",
      [{ source := "aws.lambda"
         detailType := "Lambda Function Invocation Result"
         detail := [("functionName", .str "my-critical-function"),
           ("errorType", .str "TimeoutError"),
           ("errorMessage", .str "Task timed out after 30.00 seconds"),
           ("requestId", .str "abc123-def456-ghi789")] },
       { source := "aws.lambda"
         detailType := "Lambda Function Invocation Result"
         detail := [("functionName", .str "data-processor"), ("errorType", .str "MemoryError"),
           ("errorMessage", .str "Process out of memory"),
           ("requestId", .str "xyz789-uvw456-rst123")] }]),
   ("s3",
      [{ source := "aws.s3"
         detailType := "S3 Bucket Notification"
         detail := [("bucketName", .str "my-important-bucket"),
           ("eventName", .str "s3:ObjectRemove:Delete"), ("errorCode", .str "AccessDenied"),
           ("errorMessage", .str "Access Denied")] }]),
   ("cloudwatch",
      [{ source := "aws.cloudwatch"
         detailType := "CloudWatch Alarm State Change"
         detail := [("alarmName", .str "HighCPUUtilization"),
           ("state", .obj [("value", .str "ALARM"),
             ("reason", .str ("Threshold Crossed: 1 out of the last 1 datapoints [95.0] " ++
               "was greater than the threshold (80.0)"))]),
           ("previousState", .obj [("value", .str "OK")])] }])]

/-- The event the detector receives for a template that `simulateIncident` sends:
the detail of the template followed by the two fields the simulator adds. -/
def simulatedEvent (t : SimTemplate) (isoTime simulationId : String) : Event :=
  { source := t.source
    detailType := some t.detailType
    detail := .obj (t.detail ++
      [("timestamp", .str isoTime), ("simulationId", .str simulationId)]) }

/-- The severity the detector gives to the event of a template. -/
def templateSeverity (t : SimTemplate) (isoTime simulationId : String) :
    Except JsError Severity :=
  determineSeverity (simulatedEvent t isoTime simulationId).source
    (simulatedEvent t isoTime simulationId).detailType
    (simulatedEvent t isoTime simulationId).detail

/-- The severity level a reasoning text names at its start. -/
def reasoningLevel (r : String) : Option Severity :=
  if "Critical:".data.isPrefixOf r.data then some .CRITICAL
  else if "High:".data.isPrefixOf r.data then some .HIGH
  else if "Medium:".data.isPrefixOf r.data then some .MEDIUM
  else if "Low:".data.isPrefixOf r.data then some .LOW
  else none

/-- The first `rds` template of the simulator as the detector receives it. -/
def rdsFailureEvent : Event :=
  { source := "aws.rds"
    detailType := some "RDS DB Instance Event"
    detail := .obj [("sourceId", .str "mydb-instance"),
      ("eventCategories", .arr [.str "failure"]),
      ("message", .str "Database connection limit exceeded"),
      ("sourceType", .str "db-instance"),
      ("timestamp", .str "2023-11-14T22:13:20.000Z"),
      ("simulationId", .str "sim-1700000000000-k3j9x0q2a")] }

/-- The second `ec2` template of the simulator as the detector receives it. -/
def stoppedEvent : Event :=
  { source := "aws.ec2"
    detailType := some "EC2 Instance State-change Notification"
    detail := .obj [("instanceId", .str "i-0987654321fedcba0"), ("state", .str "stopped"),
      ("previousState", .str "running"), ("reason", .str "Instance failure"),
      ("timestamp", .str "2023-11-14T22:13:20.000Z"),
      ("simulationId", .str "sim-1700000000000-k3j9x0q2a")] }

/-- The number of incidents of the list that have the given severity and are OPEN. -/
def countOpen (sev : String) (incidents : List StoredIncident) : Nat :=
  (incidents.filter
    (fun i => i.severity.strictEqStr sev && i.status.strictEqStr "OPEN")).length

/-- An OPEN incident of the given severity, created at a fixed time. -/
def openIncident (sev : String) : StoredIncident :=
  { severity := .str sev, status := .str "OPEN", source := some "aws.ec2"
    created_at := some 1700000000000, resolved_at := none }

/-- An incident of the given severity, RESOLVED after the given minutes. -/
def resolvedIncident (sev : String) (minutes : Int) : StoredIncident :=
  { severity := .str sev, status := .str "RESOLVED", source := some "aws.ec2"
    created_at := some 1700000000000
    resolved_at := some (1700000000000 + minutes * 60000) }

/-- The scenario of one OPEN CRITICAL incident and five OPEN HIGH incidents. -/
def oneCriticalFiveHigh : List StoredIncident :=
  [openIncident "HIGH", openIncident "HIGH", openIncident "CRITICAL", openIncident "HIGH",
   openIncident "HIGH", openIncident "HIGH"]

/-- The key of an hour of the day. -/
def keyOfHour (h : Nat) : String :=
  padStart2 (toString h) ++ ":00"

/-- The 24 hours of the day in the order that ends with the hour `h0`. -/
def hoursEndingAt (h0 : Nat) : List Nat :=
  (List.range 24).map (fun j => (h0 + 1 + j) % 24)

/-- The 24 keys in the order of the hours that end with the hour `h0`. -/
def keysEndingAt (h0 : Nat) : List String :=
  (hoursEndingAt h0).map keyOfHour

/-- Whether a time lies in the trailing 24-hour window that ends at `now`. -/
def inWindow (now t : Int) : Bool :=
  decide (now - 24 * 60 * 60 * 1000 < t) && decide (t ≤ now)

/-- An incident created 48 hours before the time `1700003600000`. -/
def twoDaysOld : StoredIncident :=
  { severity := .str "HIGH", status := .str "OPEN", source := some "aws.ec2"
    created_at := some (1700003600000 - 48 * 60 * 60 * 1000), resolved_at := none }

/-- The key under which `getIncidentsBySource` counts an incident. -/
def sourceKey (i : StoredIncident) : String :=
  match i.source with
  | some s => if s != "" then s else "unknown"
  | none => "unknown"

/-- An incident whose source is the name `constructor`. -/
def constructorIncident : StoredIncident :=
  { severity := .str "LOW", status := .str "OPEN", source := some "constructor"
    created_at := some 1700000000000, resolved_at := none }

/-! ### Events that are not written, and counts by source -/

/-- An autoscaling event without the field `detail-type`. -/
def untypedScaleEvent : Event :=
  { source := "aws.autoscaling", detailType := none, detail := .obj [] }

/-- An autoscaling event without the field `detail`. -/
def bareScaleEvent : Event :=
  { source := "aws.autoscaling", detailType := some "EC2 Instance Launch Successful"
    detail := .undefined }

/-- The number a value of the object `sources` stands for; a text is no count. -/
def Tally.toNat : Tally → Nat
  | .count n => n
  | .text => 0

/-- Three incidents of the instance service, one of the database service and
two without a source, one of them with the empty string. -/
def sourcedIncidents : List StoredIncident :=
  [openIncident "HIGH",
   { severity := .str "HIGH", status := .str "OPEN", source := none
     created_at := some 1700000000000, resolved_at := none },
   openIncident "CRITICAL",
   { severity := .str "CRITICAL", status := .str "OPEN", source := some "aws.rds"
     created_at := some 1700000000000, resolved_at := none },
   { severity := .str "MEDIUM", status := .str "OPEN", source := some ""
     created_at := some 1700000000000, resolved_at := none },
   openIncident "MEDIUM"]

/-! ### Average resolution time -/


/-- The exponent `Dbl.round` chooses for `n / d`. -/
def Dbl.roundExp (n d : Nat) : Int :=
  let e0 : Int := (Dbl.floorLog2 n : Int) - (Dbl.floorLog2 d : Int) - 53
  if Dbl.floorScaled n d e0 < 2 ^ 53 then e0 else e0 + 1

/-- The integer nearest to `num / den`, ties to the even one. -/
def Dbl.nearestEven (num den : Nat) : Nat :=
  if den < 2 * (num % den) ∨ (2 * (num % den) = den ∧ (num / den) % 2 = 1) then num / den + 1
  else num / den

/-- A positive binary64 number: a significand of 53 bits and an exponent. -/
def Dbl.IsNormal (q : ℚ) : Prop :=
  ∃ m : Nat, ∃ e : Int, 2 ^ 52 ≤ m ∧ m < 2 ^ 53 ∧ q = (m : ℚ) * (2 : ℚ) ^ e

/-- The number `v` is a rounding of the positive rational `q`: a binary64
number within half a unit in the last place, and `q` itself where that is a
binary64 number. -/
def Dbl.Rounds (q v : ℚ) : Prop :=
  Dbl.IsNormal v ∧ |v - q| ≤ q / 2 ^ 53 ∧ |v - q| ≤ v / 2 ^ 53 ∧ (Dbl.IsNormal q → v = q)

/-- The incidents `calculateAvgResolutionTime` counts: those RESOLVED with a
present `resolved_at`. -/
def resolvedWithTime (incidents : List StoredIncident) : List StoredIncident :=
  incidents.filter (fun i => i.status.strictEqStr "RESOLVED" && i.resolved_at.isSome)

/-- The resolution time `resolved_at - created_at` of an incident in
milliseconds, where both times are there. -/
def resolutionMs (i : StoredIncident) : Int :=
  match i.created_at, i.resolved_at with
  | some c, some r => r - c
  | _, _ => 0

/-- The average resolution time in the words of the specification: the mean of
the resolution times in milliseconds over the RESOLVED incidents with a
`resolved_at`, in minutes, rounded to the nearest integer (a half goes up, as
`Math.round` does); `0` if there is none. Exact arithmetic. -/
def specAvgResolutionTime (incidents : List StoredIncident) : Int :=
  let subset := resolvedWithTime incidents
  if subset.length = 0 then 0
  else ⌊(((subset.map resolutionMs).sum : Int) : ℚ) / subset.length / 1000 / 60 + 1 / 2⌋

/-- Both times of the incident are time values of a `Date`: integers of
milliseconds that a number holds exactly (a `Date` keeps them within
`8.64 * 10 ^ 15` of the epoch, which is below `2 ^ 53`). -/
def timesAreDates (i : StoredIncident) : Bool :=
  match i.created_at, i.resolved_at with
  | some c, some r => decide (c.natAbs < 2 ^ 53) && decide (r.natAbs < 2 ^ 53)
  | _, _ => false

/-- The resolution times of the incidents added up without their signs, in
milliseconds. -/
def totalAbsMs (incidents : List StoredIncident) : Nat :=
  (incidents.map (fun i => (resolutionMs i).natAbs)).sum

/-- Three RESOLVED incidents of 10, 20 and 30 minutes. -/
def tenTwentyThirty : List StoredIncident :=
  [resolvedIncident "HIGH" 10, resolvedIncident "LOW" 20, resolvedIncident "CRITICAL" 30]

/-- The three RESOLVED incidents among an OPEN one and a RESOLVED one without
`resolved_at`. -/
def mixedIncidents : List StoredIncident :=
  [resolvedIncident "HIGH" 10, openIncident "CRITICAL", resolvedIncident "LOW" 20,
   { severity := .str "LOW", status := .str "RESOLVED", source := some "aws.s3"
     created_at := some 1700000000000, resolved_at := none },
   resolvedIncident "CRITICAL" 30]

/-- A RESOLVED incident whose `resolved_at` is 150 seconds before its
`created_at`. -/
def resolvedEarlier : StoredIncident :=
  { severity := .str "HIGH", status := .str "RESOLVED", source := some "aws.ec2"
    created_at := some 1700000000000, resolved_at := some (1700000000000 - 150000) }

/-- A RESOLVED incident created 70 minutes before the epoch and resolved at the
epoch. -/
def createdBeforeEpoch : StoredIncident :=
  { severity := .str "HIGH", status := .str "RESOLVED", source := some "aws.ec2"
    created_at := some (-4200000), resolved_at := some 0 }

/-- Two RESOLVED incidents created at the epoch whose resolution times add up
to more than `2 ^ 53` milliseconds. -/
def longIncidents : List StoredIncident :=
  [{ severity := .str "LOW", status := .str "RESOLVED", source := some "aws.ec2"
     created_at := some 0, resolved_at := some 4503599627429999 },
   { severity := .str "LOW", status := .str "RESOLVED", source := some "aws.ec2"
     created_at := some 0, resolved_at := some 4503599627430000 }]

/-! ## Theorems -/

/-! ### Strings and values -/

theorem isPrefixOf_iff_append (t s : List Char) :
    t.isPrefixOf s = true ↔ ∃ post, s = t ++ post := by
  induction t generalizing s with
  | nil => simp
  | cons a t ih =>
    cases s with
    | nil => simp [List.isPrefixOf]
    | cons b s =>
      simp only [List.isPrefixOf, Bool.and_eq_true, beq_iff_eq, ih, List.cons_append,
        List.cons.injEq]
      constructor
      · rintro ⟨rfl, post, rfl⟩
        exact ⟨post, rfl, rfl⟩
      · rintro ⟨post, rfl, rfl⟩
        exact ⟨rfl, post, rfl⟩

theorem includesChars_iff (s t : List Char) :
    includesChars s t = true ↔ ∃ pre post, s = pre ++ t ++ post := by
  induction s with
  | nil =>
    simp only [includesChars, List.isEmpty_iff]
    constructor
    · rintro rfl
      exact ⟨[], [], rfl⟩
    · rintro ⟨pre, post, h⟩
      have h2 := congrArg List.length h
      simp only [List.length_nil, List.length_append] at h2
      exact List.length_eq_zero.mp (by omega)
  | cons c s ih =>
    simp only [includesChars, Bool.or_eq_true, isPrefixOf_iff_append, ih]
    constructor
    · rintro (⟨post, h⟩ | ⟨pre, post, h⟩)
      · exact ⟨[], post, by simpa using h⟩
      · exact ⟨c :: pre, post, by simp [h]⟩
    · rintro ⟨pre, post, h⟩
      cases pre with
      | nil => exact Or.inl ⟨post, by simpa using h⟩
      | cons a pre =>
        simp only [List.cons_append, List.cons.injEq] at h
        exact Or.inr ⟨pre, post, h.2⟩

/-- The method `includes` answers exactly whether the text occurs. -/
theorem jsIncludes_iff (s t : String) : jsIncludes s t = true ↔ Occurs t s := by
  unfold jsIncludes Occurs
  exact includesChars_iff s.data t.data

/-- The comparison `v === 'literal'` holds exactly for that string value. -/
theorem strictEqStr_iff (v : JsVal) (t : String) : v.strictEqStr t = true ↔ v = .str t := by
  cases v <;> simp [JsVal.strictEqStr]

theorem getOpt_of_isNullish (v : JsVal) (name : String) (h : v.isNullish = true) :
    v.getOpt name = .undefined := by
  cases v <;> simp_all [JsVal.isNullish, JsVal.getOpt]

theorem get_of_not_isNullish (v : JsVal) (name : String) (h : v.isNullish = false) :
    v.get name = .ok (v.getOpt name) := by
  simp [JsVal.get, h]

theorem orElse_ok (a b : Bool) : orElse a (.ok b) = .ok (a || b) := by
  cases a <;> rfl

theorem andThen_ok (a b : Bool) : andThen a (.ok b) = .ok (a && b) := by
  cases a <;> rfl

/-! ### Severity classifier -/

theorem determineSeverity_eq (source : String) (eventType : Option String) (detail : JsVal) :
    determineSeverity source eventType detail = severityBySource source eventType detail := by
  unfold determineSeverity severityBySource
  by_cases h1 : source = "aws.ec2"
  · subst h1
    by_cases hn : detail.isNullish = true
    · simp [andThen, JsVal.get, hn, bind, Except.bind, Except.map, pure, Except.pure]
    · simp [andThen, JsVal.get, hn, bind, Except.bind, Except.map, pure, Except.pure]
      split_ifs <;> simp_all
  · by_cases h2 : source = "aws.rds"
    · subst h2
      cases eventType <;>
        simp [andThen, includesOf, bind, Except.bind, Except.map, pure, Except.pure]
      split_ifs <;> simp_all
    · by_cases h3 : source = "aws.lambda"
      · subst h3
        by_cases hn : detail.isNullish = true
        · simp [andThen, JsVal.get, hn, bind, Except.bind, Except.map, pure, Except.pure]
        · simp [andThen, JsVal.get, hn, bind, Except.bind, Except.map, pure, Except.pure]
          split_ifs <;> simp_all
      · by_cases h4 : source = "aws.cloudwatch"
        · subst h4
          by_cases hn : detail.isNullish = true
          · simp [andThen, JsVal.get, hn, bind, Except.bind, Except.map, pure, Except.pure]
          · simp [andThen, JsVal.get, hn, bind, Except.bind, Except.map, pure, Except.pure]
            split_ifs <;> simp_all
        · by_cases h5 : source = "aws.s3"
          · subst h5
            cases eventType <;>
              simp [andThen, includesOf, bind, Except.bind, Except.map, pure, Except.pure]
            split_ifs <;> simp_all
          · simp [andThen, h1, h2, h3, h4, h5, bind, Except.bind, Except.map, pure,
              Except.pure]

/-- Claim C1: `determineSeverity` returns CRITICAL exactly when the source is
`aws.ec2` and `detail.state` is `'terminated'`, or the source is `aws.rds` and the
event type contains `'failure'`. -/
theorem determineSeverity_critical_iff (source : String) (eventType : Option String)
    (detail : JsVal) :
    determineSeverity source eventType detail = .ok .CRITICAL ↔
      CriticalRule source eventType detail := by
  rw [determineSeverity_eq]
  unfold severityBySource CriticalRule
  simp only [← jsIncludes_iff, ← strictEqStr_iff]
  by_cases hn : detail.isNullish = true
  · have := getOpt_of_isNullish detail "state" hn
    cases eventType <;> split_ifs <;> simp_all [JsVal.strictEqStr]
    all_goals split_ifs <;> simp_all
  · cases eventType <;> split_ifs <;> simp_all
    all_goals split_ifs <;> simp_all

/-- Claim C2: `determineSeverity` returns HIGH exactly when no CRITICAL rule
matches and one of the four HIGH rules does (`aws.lambda` with a truthy
`detail.errorType`, `aws.ec2` with state `'stopped'`, `aws.cloudwatch` with nested
state value `'ALARM'`, `aws.s3` with an event type containing `'error'`). -/
theorem determineSeverity_high_iff (source : String) (eventType : Option String)
    (detail : JsVal) :
    determineSeverity source eventType detail = .ok .HIGH ↔
      ¬ CriticalRule source eventType detail ∧ HighRule source eventType detail := by
  rw [determineSeverity_eq]
  unfold severityBySource CriticalRule HighRule
  simp only [← jsIncludes_iff, ← strictEqStr_iff]
  by_cases hn : detail.isNullish = true
  · have := getOpt_of_isNullish detail "state" hn
    have := getOpt_of_isNullish detail "errorType" hn
    cases eventType <;> split_ifs <;>
      simp_all [JsVal.strictEqStr, JsVal.truthy, JsVal.getOpt]
    all_goals split_ifs <;> simp_all
  · cases eventType <;> split_ifs <;> simp_all
    all_goals split_ifs <;> simp_all

/-- Claim C3: `determineSeverity` returns MEDIUM for source `aws.autoscaling`
whatever the event, and for `aws.ec2` with `detail.state` `'stopping'`; an event
with an event type and a detail payload that matches none of the CRITICAL, HIGH
and MEDIUM rules gets LOW, and so does every event of a source that is none of
the six known ones. -/
theorem determineSeverity_medium_low (source : String) (eventType : Option String)
    (detail : JsVal) :
    (source = "aws.autoscaling" → determineSeverity source eventType detail = .ok .MEDIUM) ∧
    (source = "aws.ec2" → detail.getOpt "state" = .str "stopping" →
      determineSeverity source eventType detail = .ok .MEDIUM) ∧
    (eventType.isSome = true → detail.isNullish = false →
      ¬ CriticalRule source eventType detail → ¬ HighRule source eventType detail →
      ¬ MediumRule source detail → determineSeverity source eventType detail = .ok .LOW) ∧
    (source ∉ ["aws.ec2", "aws.rds", "aws.lambda", "aws.cloudwatch", "aws.s3",
        "aws.autoscaling"] → determineSeverity source eventType detail = .ok .LOW) := by
  rw [determineSeverity_eq]
  unfold severityBySource CriticalRule HighRule MediumRule
  simp only [← jsIncludes_iff, ← strictEqStr_iff]
  refine ⟨?_, ?_, ?_, ?_⟩
  · rintro rfl
    simp
  · rintro rfl h
    have hn : detail.isNullish = false := by
      cases detail <;> simp_all [JsVal.getOpt, JsVal.strictEqStr, JsVal.isNullish]
    have h1 : (detail.getOpt "state").strictEqStr "terminated" = false := by
      cases hd : detail.getOpt "state" <;> simp_all [JsVal.strictEqStr]
    have h2 : (detail.getOpt "state").strictEqStr "stopped" = false := by
      cases hd : detail.getOpt "state" <;> simp_all [JsVal.strictEqStr]
    simp [hn, h, h1, h2]
  · intro he hn hc hh hm
    cases eventType with
    | none => simp at he
    | some s =>
      split_ifs <;> simp_all
  · intro hs
    simp only [List.mem_cons, List.mem_singleton, List.not_mem_nil, or_false, not_or] at hs
    simp [hs]

/-- Witness of `determineSeverity_medium_low`: the autoscaling event, a stopping
instance, an unmatched event and an unknown source. -/
theorem determineSeverity_medium_low_witness :
    determineSeverity "aws.autoscaling" (some "scale-out") (.obj []) = .ok .MEDIUM ∧
    determineSeverity "aws.ec2" (some "state-change") (.obj [("state", .str "stopping")])
      = .ok .MEDIUM ∧
    determineSeverity "unknown-service" (some "ping") (.obj []) = .ok .LOW :=
  ⟨(determineSeverity_medium_low "aws.autoscaling" (some "scale-out") (.obj [])).1 rfl,
   (determineSeverity_medium_low "aws.ec2" (some "state-change")
      (.obj [("state", .str "stopping")])).2.1 rfl rfl,
   (determineSeverity_medium_low "unknown-service" (some "ping") (.obj [])).2.2.2
      (by decide)⟩

/-- Claim C4, where the code fails it: for an `aws.ec2` event without a detail
payload, and for an `aws.rds` event without an event type, `determineSeverity`
raises a `TypeError` and returns no severity. -/
theorem determineSeverity_raises_on_absent_field :
    determineSeverity "aws.ec2" (some "EC2 Instance State-change Notification") .undefined
      = .error .typeError ∧
    determineSeverity "aws.rds" none (.obj [("sourceId", .str "mydb-instance")])
      = .error .typeError := by
  constructor <;> rfl

/-- Where `determineSeverity` does return: every event that has an event type
and a detail payload gets one of the four levels. -/
theorem determineSeverity_isOk_of_present (source s : String) (detail : JsVal)
    (h : detail.isNullish = false) :
    ∃ sev, determineSeverity source (some s) detail = .ok sev := by
  rw [determineSeverity_eq]
  unfold severityBySource
  split_ifs <;> simp_all

/-! ### Analysis enricher on events with an event type and a detail payload -/

theorem findEventKey_eq (s : String) (details : JsVal) (h : details.isNullish = false) :
    findEventKey (some s) details = .ok (eventKeyOf s details) := by
  unfold findEventKey eventKeyOf
  simp only [toLowerCaseOf, get_of_not_isNullish _ _ h, orElse_ok, bind, Except.bind,
    Except.map, pure, Except.pure, Bool.or_eq_true]
  repeat' split
  all_goals simp_all

theorem generateSeverityReasoning_eq (source s : String) (details : JsVal)
    (h : details.isNullish = false) :
    generateSeverityReasoning source (some s) details = .ok (reasoningOf source s details) := by
  unfold generateSeverityReasoning reasoningOf
  simp only [includesOf, get_of_not_isNullish _ _ h, andThen_ok, bind, Except.bind,
    Except.map, pure, Except.pure, Bool.and_eq_true, beq_iff_eq]
  repeat' split
  all_goals simp_all

theorem assessImpact_isOk (source : String) (eventType : Option String) (details : JsVal)
    (h : details.isNullish = false) :
    ∃ r, assessImpact source eventType details = .ok r := by
  unfold assessImpact
  simp only [get_of_not_isNullish _ _ h, bind, Except.bind, Except.map, pure, Except.pure]
  repeat' split
  all_goals simp

/-- The enrichment of an event that has an event type and a detail payload
raises nothing. -/
theorem analyzeIncident_isOk (source s : String) (details : JsVal)
    (h : details.isNullish = false) :
    ∃ a, analyzeIncident source (some s) details = .ok a := by
  obtain ⟨i, hi⟩ := assessImpact_isOk source (some s) details h
  unfold analyzeIncident
  simp [findEventKey_eq _ _ h, generateSeverityReasoning_eq _ _ _ h, hi, bind, Except.bind,
    pure, Except.pure]

/-! ### Incident handler -/

theorem handler_of_error (w : World) (event : Event) (e : JsError)
    (h : determineSeverity event.source event.detailType event.detail = .error e) :
    handler w event = (failureResponse, []) := by
  simp [handler, h]

theorem handler_of_low (w : World) (event : Event)
    (h : determineSeverity event.source event.detailType event.detail = .ok .LOW) :
    handler w event =
      ({ statusCode := 200, body := .text "Event processed - low severity" }, []) := by
  simp [handler, h]

theorem handler_of_analysis_error (w : World) (event : Event) (sev : Severity) (e : JsError)
    (h : determineSeverity event.source event.detailType event.detail = .ok sev)
    (hs : sev ≠ .LOW)
    (ha : analyzeIncident event.source event.detailType event.detail = .error e) :
    handler w event = (failureResponse, []) := by
  simp [handler, h, hs, ha]

theorem handler_of_analysis_ok (w : World) (event : Event) (sev : Severity) (a : Analysis)
    (h : determineSeverity event.source event.detailType event.detail = .ok sev)
    (hs : sev ≠ .LOW)
    (ha : analyzeIncident event.source event.detailType event.detail = .ok a) :
    handler w event =
      if w.putSucceeds = false then
        (failureResponse, [.put (incidentOf w event sev a) false])
      else
        ({ statusCode := 200
           body := .processed "Incident processed successfully"
             (incidentOf w event sev a).incident_id sev },
         .put (incidentOf w event sev a) true ::
           (if sev = .HIGH ∨ sev = .CRITICAL then
              [.publish (incidentOf w event sev a) w.publishSucceeds] else [])) := by
  simp [handler, h, hs, ha, incidentOf, sendNotification]

/-- Claim C5: for an event classified LOW the handler makes no repository write
and no notification publish, and returns status 200 with the body
`'Event processed - low severity'`. -/
theorem handler_low_no_effects (w : World) (event : Event)
    (h : determineSeverity event.source event.detailType event.detail = .ok .LOW) :
    (handler w event).1 =
        { statusCode := 200, body := .text "Event processed - low severity" } ∧
      (handler w event).2 = [] := by
  rw [handler_of_low w event h]
  exact ⟨rfl, rfl⟩

/-- Witness of `handler_low_no_effects`: the event of an unknown source. -/
theorem handler_low_no_effects_witness :
    (handler sampleWorld pingEvent).1 =
        { statusCode := 200, body := .text "Event processed - low severity" } ∧
      (handler sampleWorld pingEvent).2 = [] :=
  handler_low_no_effects sampleWorld pingEvent (by rfl)

theorem publish_after_put (t : List Effect)
    (h : t = [] ∨ (∃ i b, t = [.put i b]) ∨ (∃ i j b, t = [.put i true, .publish j b]))
    (pre : List Effect) (e : Effect) (post : List Effect) (ht : t = pre ++ e :: post)
    (he : e.isPublish = true) : ∃ e' ∈ pre, e'.isCompletedPut = true := by
  rcases h with rfl | ⟨i, b, rfl⟩ | ⟨i, j, b, rfl⟩
  · simp at ht
  · cases pre with
    | nil =>
      simp only [List.nil_append, List.cons.injEq] at ht
      rw [← ht.1] at he
      simp [Effect.isPublish] at he
    | cons x pre =>
      simp at ht
  · cases pre with
    | nil =>
      simp only [List.nil_append, List.cons.injEq] at ht
      rw [← ht.1] at he
      simp [Effect.isPublish] at he
    | cons x pre =>
      simp only [List.cons_append, List.cons.injEq] at ht
      exact ⟨x, List.mem_cons_self _ _, by rw [← ht.1]; rfl⟩

theorem handler_trace_shape (w : World) (event : Event) :
    (handler w event).2 = [] ∨ (∃ i b, (handler w event).2 = [.put i b]) ∨
      (∃ i j b, (handler w event).2 = [.put i true, .publish j b]) := by
  cases hd : determineSeverity event.source event.detailType event.detail with
  | error err => simp [handler_of_error w event err hd]
  | ok sev =>
    by_cases hs : sev = .LOW
    · subst hs
      simp [handler_of_low w event hd]
    · cases ha : analyzeIncident event.source event.detailType event.detail with
      | error err => simp [handler_of_analysis_error w event sev err hd hs ha]
      | ok a =>
        rw [handler_of_analysis_ok w event sev a hd hs ha]
        cases hp : w.putSucceeds <;> cases sev <;> simp at hs ⊢

/-- The notification rule of the handler on every event: it attempts a publish
exactly when the severity is HIGH or CRITICAL and the repository write has
completed; a MEDIUM event is never notified and, having an event type and a
detail payload, is written; and a publish comes after the completed write. -/
theorem handler_publish_iff (w : World) (event : Event) :
    ((∃ e ∈ (handler w event).2, e.isPublish = true) ↔
      ((determineSeverity event.source event.detailType event.detail = .ok .HIGH ∨
          determineSeverity event.source event.detailType event.detail = .ok .CRITICAL) ∧
        ∃ e ∈ (handler w event).2, e.isCompletedPut = true)) ∧
    (determineSeverity event.source event.detailType event.detail = .ok .MEDIUM →
      (∀ e ∈ (handler w event).2, e.isPublish = false) ∧
      (event.detailType.isSome = true → event.detail.isNullish = false →
        ∃ item, item.severity = .MEDIUM ∧ (handler w event).2 = [.put item w.putSucceeds])) ∧
    (∀ pre e post, (handler w event).2 = pre ++ e :: post → e.isPublish = true →
      ∃ e' ∈ pre, e'.isCompletedPut = true) := by
  refine ⟨?_, ?_, fun pre e post => publish_after_put _ (handler_trace_shape w event) pre e post⟩
  all_goals
    cases hd : determineSeverity event.source event.detailType event.detail with
    | error err =>
      rw [handler_of_error w event err hd]
      simp
    | ok sev =>
      by_cases hs : sev = .LOW
      · subst hs
        rw [handler_of_low w event hd]
        simp
      · cases ha : analyzeIncident event.source event.detailType event.detail with
        | error err =>
          rw [handler_of_analysis_error w event sev err hd hs ha]
          first
          | (simp; done)
          | (rintro hm
             refine ⟨by simp, ?_⟩
             intro h1 h2
             cases hdt : event.detailType with
             | none => simp [hdt] at h1
             | some s =>
               obtain ⟨a, ha'⟩ := analyzeIncident_isOk event.source s event.detail h2
               rw [hdt] at ha
               rw [ha] at ha'
               cases ha')
        | ok a =>
          rw [handler_of_analysis_ok w event sev a hd hs ha]
          cases hp : w.putSucceeds <;> cases sev <;>
            simp [Effect.isPublish, Effect.isCompletedPut, incidentOf] at hs ⊢

/-- Witness of `handler_publish_iff`: the terminated instance is notified, the
autoscaling event is written and not notified. -/
theorem handler_publish_iff_witness :
    (∃ e ∈ (handler sampleWorld terminatedEvent).2, e.isPublish = true) ∧
    (∀ e ∈ (handler sampleWorld scaleOutEvent).2, e.isPublish = false) ∧
    (∃ item, item.severity = .MEDIUM ∧
      (handler sampleWorld scaleOutEvent).2 = [.put item sampleWorld.putSucceeds]) :=
  ⟨(handler_publish_iff sampleWorld terminatedEvent).1.mpr ⟨Or.inr rfl, by decide⟩,
   ((handler_publish_iff sampleWorld scaleOutEvent).2.1 rfl).1,
   ((handler_publish_iff sampleWorld scaleOutEvent).2.1 rfl).2 rfl rfl⟩

/-- Claim C7: for an event that is not LOW, a failed repository write gives the
failure response (status 500), a completed write gives status 200 with the
incident id and the severity, the write is attempted and decides the outcome
whenever the event has an event type and a detail payload, and the outcome
of the publish changes nothing in the response. -/
theorem handler_outcome (w : World) (event : Event) (sev : Severity)
    (h : determineSeverity event.source event.detailType event.detail = .ok sev)
    (hs : sev ≠ .LOW) :
    (w.putSucceeds = false → (handler w event).1 =
        { statusCode := 500, body := .failed "Failed to process incident" }) ∧
    ((∃ e ∈ (handler w event).2, e.isCompletedPut = true) → (handler w event).1 =
        { statusCode := 200
          body := .processed "Incident processed successfully"
            (event.source ++ "-" ++ toString w.timestamp ++ "-" ++ w.randomSuffix) sev }) ∧
    (event.detailType.isSome = true → event.detail.isNullish = false →
      w.putSucceeds = true → ∃ e ∈ (handler w event).2, e.isCompletedPut = true) ∧
    (∀ b : Bool, (handler { w with publishSucceeds := b } event).1 = (handler w event).1) := by
  cases ha : analyzeIncident event.source event.detailType event.detail with
  | error err =>
    simp only [handler_of_analysis_error _ event sev err h hs ha]
    refine ⟨fun _ => rfl, by simp, ?_, fun _ => trivial⟩
    intro h1 h2 _
    cases hdt : event.detailType with
    | none => simp [hdt] at h1
    | some s =>
      obtain ⟨a, ha'⟩ := analyzeIncident_isOk event.source s event.detail h2
      rw [hdt] at ha
      rw [ha] at ha'
      cases ha'
  | ok a =>
    simp only [handler_of_analysis_ok _ event sev a h hs ha]
    cases hp : w.putSucceeds <;>
      simp [Effect.isCompletedPut, incidentOf, failureResponse]

/-- Witness of `handler_outcome`: the terminated instance, with a repository
that accepts the write and a notification channel that fails. -/
theorem handler_outcome_witness :
    (handler { sampleWorld with publishSucceeds := false } terminatedEvent).1 =
      { statusCode := 200
        body := .processed "Incident processed successfully"
          ("aws.ec2" ++ "-" ++ toString 1700000000000 ++ "-" ++ "k3j9x0q2a") .CRITICAL } :=
  (handler_outcome { sampleWorld with publishSucceeds := false } terminatedEvent .CRITICAL
    rfl (by decide)).2.1
    ((handler_outcome { sampleWorld with publishSucceeds := false } terminatedEvent .CRITICAL
      rfl (by decide)).2.2.1 rfl rfl rfl)

/-! ### Category key and templates -/

/-- Claim C8 as stated fails: for the event type `'EC2 Instance Stopped'`, which
contains `'stopped'` and not `'terminated'`, and a detail whose state is
`'terminated'`, the specified order gives the key `'stopped'` and `findEventKey`
returns `'terminated'`. -/
theorem findEventKey_ne_spec :
    jsIncludes (toLowerCase "EC2 Instance Stopped") "stopped" = true ∧
    jsIncludes (toLowerCase "EC2 Instance Stopped") "terminated" = false ∧
    specEventKey "EC2 Instance Stopped" (.obj [("state", .str "terminated")]) = "stopped" ∧
    findEventKey (some "EC2 Instance Stopped") (.obj [("state", .str "terminated")])
      = .ok "terminated" := by
  decide

/-- Claim C8, amended: `findEventKey` takes the first match of: event type
contains `'terminated'` or `detail.state` is `'terminated'`; event type contains
`'stopped'` or `detail.state` is `'stopped'`; event type contains `'failure'` or
`'error'` (key `'failure'`); truthy `detail.errorType` (key `'error'`); else
`'default'`. It agrees with the specified order whenever `detail.state` is
neither `'terminated'` nor `'stopped'`. -/
theorem findEventKey_order (s : String) (details : JsVal) (h : details.isNullish = false) :
    (KeyTerminated s details → findEventKey (some s) details = .ok "terminated") ∧
    (¬ KeyTerminated s details → KeyStopped s details →
      findEventKey (some s) details = .ok "stopped") ∧
    (¬ KeyTerminated s details → ¬ KeyStopped s details → KeyFailure s →
      findEventKey (some s) details = .ok "failure") ∧
    (¬ KeyTerminated s details → ¬ KeyStopped s details → ¬ KeyFailure s →
      (details.getOpt "errorType").truthy = true →
      findEventKey (some s) details = .ok "error") ∧
    (¬ KeyTerminated s details → ¬ KeyStopped s details → ¬ KeyFailure s →
      (details.getOpt "errorType").truthy = false →
      findEventKey (some s) details = .ok "default") ∧
    (details.getOpt "state" ≠ .str "terminated" → details.getOpt "state" ≠ .str "stopped" →
      findEventKey (some s) details = .ok (specEventKey s details)) := by
  rw [findEventKey_eq s details h]
  unfold KeyTerminated KeyStopped KeyFailure eventKeyOf specEventKey
  simp only [ne_eq, ← jsIncludes_iff, ← strictEqStr_iff]
  refine ⟨?_, ?_, ?_, ?_, ?_, ?_⟩
  all_goals intros
  all_goals simp_all

/-- Witness of `findEventKey_order`: a detail state `'terminated'` decides the key
of an event whose type contains `'stopped'`. -/
theorem findEventKey_order_witness :
    findEventKey (some "EC2 Instance Stopped") (.obj [("state", .str "terminated")])
      = .ok "terminated" :=
  (findEventKey_order "EC2 Instance Stopped" (.obj [("state", .str "terminated")]) rfl).1
    (Or.inr rfl)

theorem lookupKey_eq_templateEntry (source key : String) :
    (lookupSource source).orEmpty.lookupKey key = templateEntry source key := by
  unfold lookupSource templateEntry
  cases h : ANALYSIS_TEMPLATES.lookup source with
  | some entries => simp [SourceTemplates.orEmpty, SourceTemplates.lookupKey]
  | none =>
    simp only [Option.none_bind]
    split_ifs <;> simp [SourceTemplates.orEmpty, SourceTemplates.lookupKey]

theorem mem_of_lookup_eq_some {β : Type} (k : String) (l : List (String × β)) (v : β)
    (h : l.lookup k = some v) : v ∈ l.map Prod.snd := by
  induction l with
  | nil => simp at h
  | cons p l ih =>
    obtain ⟨k', v'⟩ := p
    simp only [List.lookup] at h
    split at h
    · simp only [Option.some.injEq] at h
      simp [h]
    · simp [ih h]

theorem templateEntry_complete (source key : String) (t : Template)
    (h : templateEntry source key = some t) :
    t.causes.isSome = true ∧ t.recommendations.isSome = true := by
  unfold templateEntry at h
  cases hs : ANALYSIS_TEMPLATES.lookup source with
  | none => simp [hs] at h
  | some entries =>
    simp only [hs, Option.some_bind] at h
    have h1 := mem_of_lookup_eq_some _ _ _ hs
    have h2 := mem_of_lookup_eq_some _ _ _ h
    have hall : ∀ es ∈ ANALYSIS_TEMPLATES.map Prod.snd, ∀ t ∈ es.map Prod.snd,
        t.causes.isSome = true ∧ t.recommendations.isSome = true := by decide
    exact hall entries h1 t h2

/-- Claim C9: the summary, root causes and recommendations of an analysis are
those of the entry `ANALYSIS_TEMPLATES[source][key]` when the table has it, with
`key` the key `findEventKey` derives, and otherwise those of the generic
template: the summary `<source> service event detected: <event_type>` and two
fixed lists. The analysis exists for every event that has an event type and
a detail payload. -/
theorem analyzeIncident_template (source : String) (eventType : Option String)
    (details : JsVal) :
    (∀ a, analyzeIncident source eventType details = .ok a →
      ∃ s key, eventType = some s ∧ findEventKey eventType details = .ok key ∧
        match templateEntry source key with
        | some t =>
          a.summary = t.summary ∧ some a.root_causes = t.causes ∧
            some a.recommendations = t.recommendations
        | none =>
          a.summary = source ++ " service event detected: " ++ s ∧
            a.root_causes =
              ["Service-specific issue", "Configuration problem", "Resource constraints"] ∧
            a.recommendations =
              ["Check service-specific logs", "Review recent configuration changes",
               "Monitor resource utilization", "Consult AWS service documentation"]) ∧
    (eventType.isSome = true → details.isNullish = false →
      ∃ a, analyzeIncident source eventType details = .ok a) := by
  constructor
  · intro a ha
    cases eventType with
    | none => simp [analyzeIncident, findEventKey, toLowerCaseOf, bind, Except.bind] at ha
    | some s =>
      cases hk : findEventKey (some s) details with
      | error e => simp [analyzeIncident, hk, bind, Except.bind] at ha
      | ok key =>
        refine ⟨s, key, rfl, rfl, ?_⟩
        cases hr : generateSeverityReasoning source (some s) details with
        | error e => simp [analyzeIncident, hk, hr, bind, Except.bind] at ha
        | ok r =>
          cases hi : assessImpact source (some s) details with
          | error e => simp [analyzeIncident, hk, hr, hi, bind, Except.bind] at ha
          | ok i =>
            unfold analyzeIncident at ha
            simp only [hk, hr, hi, bind, Except.bind, pure, Except.pure,
              lookupKey_eq_templateEntry, Except.ok.injEq] at ha
            subst ha
            cases ht : templateEntry source key with
            | none => simp [getGenericAnalysis]
            | some t =>
              obtain ⟨h1, h2⟩ := templateEntry_complete _ _ _ ht
              obtain ⟨c, hc⟩ := Option.isSome_iff_exists.mp h1
              obtain ⟨r, hr⟩ := Option.isSome_iff_exists.mp h2
              simp [hc, hr]
  · intro he hn
    cases eventType with
    | none => simp at he
    | some s => exact analyzeIncident_isOk source s details hn

/-- Witness of `analyzeIncident_template`: the terminated instance gets the
summary of the `aws.ec2` / `terminated` entry. -/
theorem analyzeIncident_template_witness :
    ∃ a, analyzeIncident "aws.ec2" (some "state-change") (.obj [("state", .str "terminated")])
      = .ok a ∧ a.summary = "EC2 instance unexpectedly terminated" := by
  obtain ⟨a, ha⟩ := (analyzeIncident_template "aws.ec2" (some "state-change")
    (.obj [("state", .str "terminated")])).2 rfl rfl
  obtain ⟨s, key, hs, hk, h⟩ := (analyzeIncident_template "aws.ec2" (some "state-change")
    (.obj [("state", .str "terminated")])).1 a ha
  have hkey : key = "terminated" := by
    have : findEventKey (some "state-change") (.obj [("state", .str "terminated")])
        = .ok "terminated" := by decide
    rw [this] at hk
    exact (Except.ok.inj hk).symm
  subst hkey
  have ht : templateEntry "aws.ec2" "terminated" = some
      { summary := "EC2 instance unexpectedly terminated"
        causes := some ["Instance failure", "Auto Scaling action", "Manual termination",
          "Spot instance interruption"]
        recommendations := some [
          "Check CloudWatch logs for error messages",
          "Verify Auto Scaling group configuration",
          "Review instance health checks",
          "Consider using Reserved Instances for critical workloads"] } := by decide
  rw [ht] at h
  exact ⟨a, ha, h.1⟩

/-! ### Confidence score -/

theorem lookupSource_truthy_iff (source : String) :
    (lookupSource source).truthy = true ↔ KnownSource source := by
  unfold KnownSource
  by_cases h1 : source = "aws.ec2"
  · subst h1; exact ⟨fun _ => Or.inl (by decide), fun _ => by decide⟩
  by_cases h2 : source = "aws.rds"
  · subst h2; exact ⟨fun _ => Or.inl (by decide), fun _ => by decide⟩
  by_cases h3 : source = "aws.lambda"
  · subst h3; exact ⟨fun _ => Or.inl (by decide), fun _ => by decide⟩
  by_cases h4 : source = "aws.s3"
  · subst h4; exact ⟨fun _ => Or.inl (by decide), fun _ => by decide⟩
  have hl : ANALYSIS_TEMPLATES.lookup source = none := by
    have b1 : (source == "aws.ec2") = false := by simpa using h1
    have b2 : (source == "aws.rds") = false := by simpa using h2
    have b3 : (source == "aws.lambda") = false := by simpa using h3
    have b4 : (source == "aws.s3") = false := by simpa using h4
    simp only [ANALYSIS_TEMPLATES, List.lookup, b1, b2, b3, b4]
  unfold lookupSource
  rw [hl]
  by_cases hp : source ∈ objectPrototypeNames
  · simp [hp, SourceTemplates.truthy]
  · simp [hp, h1, h2, h3, h4, SourceTemplates.truthy]

/-- The four sums of the confidence score, in binary64 arithmetic. -/
theorem confidence_values :
    Dbl.min (Dbl.round 7 10) (Dbl.round 1 1) = ⟨6305039478318694, -53⟩ ∧
    Dbl.min ((Dbl.round 7 10).add (Dbl.round 1 10)) (Dbl.round 1 1) = ⟨7205759403792793, -53⟩ ∧
    Dbl.min ((Dbl.round 7 10).add (Dbl.round 2 10)) (Dbl.round 1 1) = ⟨8106479329266892, -53⟩ ∧
    Dbl.min (((Dbl.round 7 10).add (Dbl.round 2 10)).add (Dbl.round 1 10)) (Dbl.round 1 1)
      = ⟨9007199254740991, -53⟩ := by
  decide

/-- Claim C10 as stated fails: for source `aws.ec2` and the four-field detail of
a terminated instance the exact value is 1, and `calculateConfidenceScore`
returns `0.9999999999999999`, that is `1 - 2 ^ (-53)`. -/
theorem confidence_not_one :
    HasTemplateTable "aws.ec2" ∧ ManyFields terminatedDetail ∧
    exactConfidence "aws.ec2" terminatedDetail = 1 ∧
    calculateConfidenceScore "aws.ec2" (some "EC2 Instance State-change Notification")
      terminatedDetail = ⟨9007199254740991, -53⟩ ∧
    (calculateConfidenceScore "aws.ec2" (some "EC2 Instance State-change Notification")
      terminatedDetail).toRat = 1 - 1 / 2 ^ 53 ∧
    (calculateConfidenceScore "aws.ec2" (some "EC2 Instance State-change Notification")
      terminatedDetail).toRat ≠ exactConfidence "aws.ec2" terminatedDetail := by
  have h : calculateConfidenceScore "aws.ec2" (some "EC2 Instance State-change Notification")
      terminatedDetail = ⟨9007199254740991, -53⟩ := by decide
  have hk : HasTemplateTable "aws.ec2" := by decide
  have hm : ManyFields terminatedDetail := ⟨by decide, by decide⟩
  have he : exactConfidence "aws.ec2" terminatedDetail = 1 := by
    simp only [exactConfidence, hk, hm, if_true]
    norm_num
  refine ⟨hk, hm, he, h, ?_, ?_⟩
  · rw [h]; norm_num [Dbl.toRat]
  · rw [h, he]; norm_num [Dbl.toRat]

theorem calculateConfidenceScore_eq (source : String) (eventType : Option String)
    (details : JsVal) :
    calculateConfidenceScore source eventType details =
      if KnownSource source then
        if ManyFields details then ⟨9007199254740991, -53⟩ else ⟨8106479329266892, -53⟩
      else
        if ManyFields details then ⟨7205759403792793, -53⟩ else ⟨6305039478318694, -53⟩ := by
  obtain ⟨v1, v2, v3, v4⟩ := confidence_values
  have hmany : (details.truthy && decide (keyCount details > 2)) = true ↔ ManyFields details := by
    simp [ManyFields]
  unfold calculateConfidenceScore
  by_cases hk : KnownSource source <;> by_cases hm : ManyFields details
  all_goals
    have hk' := hk
    have hm' := hm
    rw [← lookupSource_truthy_iff] at hk'
    rw [← hmany] at hm'
    simp [Id.run, hk, hm, hk', hm', v1, v2, v3, v4]

theorem knownSource_iff_hasTemplateTable (source : String)
    (hs : source ∉ objectPrototypeNames) : KnownSource source ↔ HasTemplateTable source := by
  unfold KnownSource HasTemplateTable
  constructor
  · rintro (h | h)
    · exact h
    · exact absurd h hs
  · exact Or.inl

/-- Claim C10, amended: the score is one of the four binary64 numbers
`0.7`, `0.7999999999999999`, `0.8999999999999999`, `0.9999999999999999`; it lies in
`[0, 1)` and is not below the number `0.7`. For a source that is no property
name of `Object.prototype` it is the third or fourth number exactly when the
source has a template table, the second or fourth exactly when the detail
has more than two fields, and it is at most `2 ^ (-52)` below the exact value
and never above it. -/
theorem calculateConfidenceScore_rounded (source : String) (eventType : Option String)
    (details : JsVal) :
    (calculateConfidenceScore source eventType details ∈
      ([⟨6305039478318694, -53⟩, ⟨7205759403792793, -53⟩, ⟨8106479329266892, -53⟩,
        ⟨9007199254740991, -53⟩] : List Dbl)) ∧
    0 ≤ (calculateConfidenceScore source eventType details).toRat ∧
    (calculateConfidenceScore source eventType details).toRat < 1 ∧
    Dbl.le (Dbl.round 7 10) (calculateConfidenceScore source eventType details) = true ∧
    (source ∉ objectPrototypeNames →
      calculateConfidenceScore source eventType details =
          (if HasTemplateTable source then
            if ManyFields details then ⟨9007199254740991, -53⟩ else ⟨8106479329266892, -53⟩
          else
            if ManyFields details then ⟨7205759403792793, -53⟩
            else ⟨6305039478318694, -53⟩) ∧
        exactConfidence source details - 1 / 2 ^ 52 ≤
          (calculateConfidenceScore source eventType details).toRat ∧
        (calculateConfidenceScore source eventType details).toRat ≤
          exactConfidence source details) := by
  rw [calculateConfidenceScore_eq]
  refine ⟨?_, ?_, ?_, ?_, ?_⟩
  · by_cases hk : KnownSource source <;> by_cases hm : ManyFields details <;> simp [hk, hm]
  · by_cases hk : KnownSource source <;> by_cases hm : ManyFields details <;>
      simp only [hk, hm, if_true, if_false] <;> norm_num [Dbl.toRat]
  · by_cases hk : KnownSource source <;> by_cases hm : ManyFields details <;>
      simp only [hk, hm, if_true, if_false] <;> norm_num [Dbl.toRat]
  · by_cases hk : KnownSource source <;> by_cases hm : ManyFields details <;>
      simp only [hk, hm, if_true, if_false] <;> decide
  · intro hs
    have hiff := knownSource_iff_hasTemplateTable source hs
    unfold exactConfidence
    by_cases hk : HasTemplateTable source <;> by_cases hm : ManyFields details
    all_goals
      have hk' := hk
      rw [← hiff] at hk'
      simp only [hk, hk', hm, if_true, if_false]
      refine ⟨trivial, ?_, ?_⟩
      all_goals norm_num [Dbl.toRat]

/-- Witness of `calculateConfidenceScore_rounded`: a source with a template table
and a detail of four fields. -/
theorem calculateConfidenceScore_rounded_witness :
    calculateConfidenceScore "aws.lambda" (some "Lambda Function Invocation Result")
      (.obj [("functionName", .str "data-processor"), ("errorType", .str "MemoryError"),
        ("errorMessage", .str "Process out of memory"),
        ("requestId", .str "xyz789-uvw456-rst123")]) = ⟨9007199254740991, -53⟩ :=
  ((calculateConfidenceScore_rounded "aws.lambda" (some "Lambda Function Invocation Result")
      (.obj [("functionName", .str "data-processor"), ("errorType", .str "MemoryError"),
        ("errorMessage", .str "Process out of memory"),
        ("requestId", .str "xyz789-uvw456-rst123")])).2.2.2.2 (by decide)).1

/-! ### Impact, summary and reasoning -/

/-- Claim C11: `assessImpact` returns, for `aws.ec2`, the downtime and
unavailability phrases followed by `'Possible data loss'` exactly when
`detail.state` is `'terminated'`; for `aws.rds` and for `aws.lambda` their three
phrases; for every other source the single placeholder; and never an empty
list. -/
theorem assessImpact_lists (source : String) (eventType : Option String) (details : JsVal) :
    (source = "aws.ec2" → details.getOpt "state" = .str "terminated" →
      assessImpact source eventType details =
        .ok ["Potential service downtime", "Application unavailability",
             "Possible data loss"]) ∧
    (source = "aws.ec2" → details.isNullish = false →
      details.getOpt "state" ≠ .str "terminated" →
      assessImpact source eventType details =
        .ok ["Potential service downtime", "Application unavailability"]) ∧
    (source = "aws.rds" → assessImpact source eventType details =
      .ok ["Database connectivity issues", "Application data access problems",
           "Potential transaction failures"]) ∧
    (source = "aws.lambda" → assessImpact source eventType details =
      .ok ["Serverless function failures", "API endpoint disruptions",
           "Workflow interruptions"]) ∧
    (source ≠ "aws.ec2" → source ≠ "aws.rds" → source ≠ "aws.lambda" →
      assessImpact source eventType details = .ok ["Impact assessment pending"]) ∧
    (∀ l, assessImpact source eventType details = .ok l → l ≠ []) := by
  refine ⟨?_, ?_, ?_, ?_, ?_, ?_⟩
  · rintro rfl hs
    have hn : details.isNullish = false := by
      cases details <;> simp_all [JsVal.getOpt, JsVal.isNullish]
    unfold assessImpact
    simp [get_of_not_isNullish _ _ hn, bind, Except.bind, pure, Except.pure, hs,
      JsVal.strictEqStr]
  · rintro rfl hn hs
    rw [ne_eq, ← strictEqStr_iff] at hs
    unfold assessImpact
    simp [get_of_not_isNullish _ _ hn, bind, Except.bind, pure, Except.pure, hs]
  · rintro rfl
    simp [assessImpact, bind, Except.bind, pure, Except.pure]
  · rintro rfl
    simp [assessImpact, bind, Except.bind, pure, Except.pure]
  · intro h1 h2 h3
    simp [assessImpact, bind, Except.bind, pure, Except.pure, h1, h2, h3]
  · intro l hl
    unfold assessImpact at hl
    by_cases h1 : source = "aws.ec2"
    · subst h1
      by_cases hn : details.isNullish = true
      · simp [JsVal.get, hn, bind, Except.bind] at hl
      · simp only [Bool.not_eq_true] at hn
        simp only [get_of_not_isNullish _ _ hn, bind, Except.bind, pure, Except.pure] at hl
        split_ifs at hl <;> simp_all <;> (subst hl; simp)
    · by_cases h2 : source = "aws.rds"
      · subst h2
        simp [bind, Except.bind, pure, Except.pure] at hl
        subst hl; simp
      · by_cases h3 : source = "aws.lambda"
        · subst h3
          simp [bind, Except.bind, pure, Except.pure] at hl
          subst hl; simp
        · simp [bind, Except.bind, pure, Except.pure, h1, h2, h3] at hl
          subst hl; simp

/-- Witness of `assessImpact_lists`: the detail of a terminated instance. -/
theorem assessImpact_lists_witness :
    assessImpact "aws.ec2" (some "EC2 Instance State-change Notification") terminatedDetail =
      .ok ["Potential service downtime", "Application unavailability",
           "Possible data loss"] :=
  (assessImpact_lists "aws.ec2" (some "EC2 Instance State-change Notification")
    terminatedDetail).1 rfl rfl

theorem generateSeverityReasoning_mem (source : String) (eventType : Option String)
    (details : JsVal) (r : String)
    (h : generateSeverityReasoning source eventType details = .ok r) :
    r ∈ reasoningTexts := by
  unfold generateSeverityReasoning at h
  unfold reasoningTexts
  by_cases hn : details.isNullish = true <;> cases eventType <;>
    by_cases h1 : source = "aws.ec2" <;> by_cases h2 : source = "aws.rds" <;>
    by_cases h3 : source = "aws.lambda" <;>
    simp [andThen, includesOf, JsVal.get, hn, h1, h2, h3, bind, Except.bind, Except.map,
      pure, Except.pure] at h
  all_goals simp_all
  all_goals (split_ifs at h <;> simp_all)

theorem templateEntry_summary_ne (source key : String) (t : Template)
    (h : templateEntry source key = some t) : t.summary ≠ "" := by
  unfold templateEntry at h
  cases hs : ANALYSIS_TEMPLATES.lookup source with
  | none => simp [hs] at h
  | some entries =>
    simp only [hs, Option.some_bind] at h
    have h1 := mem_of_lookup_eq_some _ _ _ hs
    have h2 := mem_of_lookup_eq_some _ _ _ h
    have hall : ∀ es ∈ ANALYSIS_TEMPLATES.map Prod.snd, ∀ t ∈ es.map Prod.snd,
        t.summary ≠ "" := by decide
    exact hall entries h1 t h2

theorem genericSummary_ne (source : String) (eventType : Option String) :
    (getGenericAnalysis source eventType).summary ≠ "" := by
  intro h
  have hl := congrArg String.length h
  simp only [getGenericAnalysis, String.length_append] at hl
  have h25 : " service event detected: ".length = 25 := by decide
  have h0 : "".length = 0 := by decide
  omega

/-- What `analyzeIncident` puts in the summary and the reasoning of the analysis
it returns. -/
theorem analyzeIncident_fields (source : String) (eventType : Option String)
    (details : JsVal) (a : Analysis)
    (ha : analyzeIncident source eventType details = .ok a) :
    ∃ key r, findEventKey eventType details = .ok key ∧
      generateSeverityReasoning source eventType details = .ok r ∧
      a.summary = ((templateEntry source key).getD
        (getGenericAnalysis source eventType)).summary ∧
      a.severity_reasoning = r := by
  cases hk : findEventKey eventType details with
  | error e => simp [analyzeIncident, hk, bind, Except.bind] at ha
  | ok key =>
    cases hr : generateSeverityReasoning source eventType details with
    | error e => simp [analyzeIncident, hk, hr, bind, Except.bind] at ha
    | ok r =>
      cases hi : assessImpact source eventType details with
      | error e => simp [analyzeIncident, hk, hr, hi, bind, Except.bind] at ha
      | ok i =>
        unfold analyzeIncident at ha
        simp only [hk, hr, hi, bind, Except.bind, pure, Except.pure,
          lookupKey_eq_templateEntry, Except.ok.injEq] at ha
        subst ha
        exact ⟨key, r, rfl, rfl, rfl, rfl⟩

/-- Claim C12: every analysis `analyzeIncident` returns has a non-empty summary
and a non-empty severity reasoning, and an analysis is returned for every
event that has an event type and a detail payload. -/
theorem analyzeIncident_nonempty (source : String) (eventType : Option String)
    (details : JsVal) :
    (∀ a, analyzeIncident source eventType details = .ok a →
      a.summary ≠ "" ∧ a.severity_reasoning ≠ "") ∧
    (eventType.isSome = true → details.isNullish = false →
      ∃ a, analyzeIncident source eventType details = .ok a) := by
  constructor
  · intro a ha
    obtain ⟨key, r, _, hr, hs, hsr⟩ := analyzeIncident_fields source eventType details a ha
    constructor
    · rw [hs]
      cases ht : templateEntry source key with
      | none => exact genericSummary_ne source eventType
      | some t => exact templateEntry_summary_ne source key t ht
    · rw [hsr]
      have hm := generateSeverityReasoning_mem source eventType details r hr
      revert hm
      have hall : ∀ x ∈ reasoningTexts, x ≠ "" := by decide
      exact fun hm => hall r hm
  · intro he hn
    cases eventType with
    | none => simp at he
    | some s => exact analyzeIncident_isOk source s details hn

/-- Witness of `analyzeIncident_nonempty`: the event of an unknown source. -/
theorem analyzeIncident_nonempty_witness :
    ∃ a, analyzeIncident pingEvent.source pingEvent.detailType pingEvent.detail = .ok a ∧
      a.summary ≠ "" ∧ a.severity_reasoning ≠ "" := by
  obtain ⟨a, ha⟩ := (analyzeIncident_nonempty pingEvent.source pingEvent.detailType
    pingEvent.detail).2 rfl rfl
  exact ⟨a, ha, (analyzeIncident_nonempty pingEvent.source pingEvent.detailType
    pingEvent.detail).1 a ha⟩

/-! ### Simulator templates and severity reasoning -/

/-- Claim C19, where the code fails it: both `rds` templates of the simulator
are classified LOW, and the handler suppresses the first one without a write
or a publish. -/
theorem simulator_rds_template_suppressed :
    (INCIDENT_TEMPLATES.lookup "rds").map (fun ts => ts.map (fun t =>
        templateSeverity t "2023-11-14T22:13:20.000Z" "sim-1700000000000-k3j9x0q2a"))
      = some [.ok .LOW, .ok .LOW] ∧
    determineSeverity rdsFailureEvent.source rdsFailureEvent.detailType rdsFailureEvent.detail
      = .ok .LOW ∧
    handler sampleWorld rdsFailureEvent =
      ({ statusCode := 200, body := .text "Event processed - low severity" }, []) := by
  refine ⟨by decide, by decide, by rfl⟩

/-- The severity of every simulator template, whatever the two added fields:
the `rds` and `s3` templates are LOW. -/
theorem simulator_template_severities (isoTime simulationId : String) :
    INCIDENT_TEMPLATES.map (fun p => (p.1, p.2.map (fun t =>
        templateSeverity t isoTime simulationId))) =
      [("ec2", [.ok .CRITICAL, .ok .HIGH]), ("rds", [.ok .LOW, .ok .LOW]),
       ("lambda", [.ok .HIGH, .ok .HIGH]), ("s3", [.ok .LOW]),
       ("cloudwatch", [.ok .HIGH])] := by
  rfl

/-- Claim C20, where the code fails it: the stopped instance is classified HIGH
and its severity reasoning starts with `Medium:`. -/
theorem reasoning_names_other_level :
    determineSeverity stoppedEvent.source stoppedEvent.detailType stoppedEvent.detail
      = .ok .HIGH ∧
    (analyzeIncident stoppedEvent.source stoppedEvent.detailType stoppedEvent.detail).map
      (fun a => a.severity_reasoning)
      = .ok "Medium: Event requires monitoring but may not immediately impact services" ∧
    (analyzeIncident stoppedEvent.source stoppedEvent.detailType stoppedEvent.detail).map
      (fun a => reasoningLevel a.severity_reasoning) = .ok (some .MEDIUM) := by
  decide

theorem reasoningLevel_texts :
    reasoningLevel "Critical: Instance termination can cause service outages and data loss"
      = some .CRITICAL ∧
    reasoningLevel "Critical: Database failures directly impact application availability"
      = some .CRITICAL ∧
    reasoningLevel "High: Function errors can disrupt serverless application workflows"
      = some .HIGH ∧
    reasoningLevel "Medium: Event requires monitoring but may not immediately impact services"
      = some .MEDIUM := by
  decide

/-- Where the reasoning names the assigned level: always for CRITICAL and MEDIUM,
and for HIGH only when the source is `aws.lambda`; every other HIGH incident
carries the reasoning of the default, `Medium:`. -/
theorem reasoningLevel_of_severity (source s : String) (details : JsVal)
    (hn : details.isNullish = false) (sev : Severity)
    (h : determineSeverity source (some s) details = .ok sev) (hs : sev ≠ .LOW) :
    (generateSeverityReasoning source (some s) details).map reasoningLevel =
      .ok (some (if sev = .HIGH ∧ source ≠ "aws.lambda" then .MEDIUM else sev)) := by
  obtain ⟨t1, t2, t3, t4⟩ := reasoningLevel_texts
  rw [generateSeverityReasoning_eq source s details hn]
  rw [determineSeverity_eq] at h
  unfold severityBySource at h
  unfold reasoningOf
  simp only [hn, Bool.false_eq_true, if_false] at h
  simp only [Except.map]
  split_ifs at h
  all_goals (simp only [Except.ok.injEq] at h; subst h; simp_all)

/-! ### System health and counts -/

theorem countOpen_pos_iff (sev : String) (incidents : List StoredIncident) :
    0 < countOpen sev incidents ↔
      ∃ i ∈ incidents, i.severity = .str sev ∧ i.status = .str "OPEN" := by
  unfold countOpen
  rw [List.length_pos_iff_exists_mem]
  simp only [List.mem_filter, Bool.and_eq_true, strictEqStr_iff]

theorem calculateSystemHealth_eq (incidents : List StoredIncident) :
    calculateSystemHealth incidents =
      if 0 < countOpen "CRITICAL" incidents then .CRITICAL
      else if 2 < countOpen "HIGH" incidents then .DEGRADED
      else if 0 < countOpen "HIGH" incidents then .WARNING
      else .HEALTHY := rfl

/-- Claim C13: the health is CRITICAL if an incident is OPEN and CRITICAL;
otherwise DEGRADED if more than two incidents are OPEN and HIGH; otherwise
WARNING if an incident is OPEN and HIGH; otherwise HEALTHY. -/
theorem calculateSystemHealth_priority (incidents : List StoredIncident) :
    ((∃ i ∈ incidents, i.severity = .str "CRITICAL" ∧ i.status = .str "OPEN") →
      calculateSystemHealth incidents = .CRITICAL) ∧
    ((¬ ∃ i ∈ incidents, i.severity = .str "CRITICAL" ∧ i.status = .str "OPEN") →
      2 < countOpen "HIGH" incidents → calculateSystemHealth incidents = .DEGRADED) ∧
    ((¬ ∃ i ∈ incidents, i.severity = .str "CRITICAL" ∧ i.status = .str "OPEN") →
      countOpen "HIGH" incidents ≤ 2 →
      (∃ i ∈ incidents, i.severity = .str "HIGH" ∧ i.status = .str "OPEN") →
      calculateSystemHealth incidents = .WARNING) ∧
    ((¬ ∃ i ∈ incidents, i.severity = .str "CRITICAL" ∧ i.status = .str "OPEN") →
      (¬ ∃ i ∈ incidents, i.severity = .str "HIGH" ∧ i.status = .str "OPEN") →
      calculateSystemHealth incidents = .HEALTHY) := by
  rw [calculateSystemHealth_eq]
  simp only [← countOpen_pos_iff]
  refine ⟨?_, ?_, ?_, ?_⟩
  · intro h
    simp [h]
  · intro h1 h2
    simp [h1, h2]
  · intro h1 h2 h3
    have : ¬ 2 < countOpen "HIGH" incidents := by omega
    simp [h1, this, h3]
  · intro h1 h2
    have : ¬ 2 < countOpen "HIGH" incidents := by omega
    simp [h1, h2, this]

/-- Witness of `calculateSystemHealth_priority`: one OPEN CRITICAL incident among
five OPEN HIGH incidents gives CRITICAL. -/
theorem calculateSystemHealth_priority_witness :
    calculateSystemHealth oneCriticalFiveHigh = .CRITICAL :=
  (calculateSystemHealth_priority oneCriticalFiveHigh).1
    ⟨openIncident "CRITICAL", by simp [oneCriticalFiveHigh], rfl, rfl⟩

/-- Claim C15: when every status is OPEN or RESOLVED, the open and the resolved
count of the metrics add up to the total, the length of the list. -/
theorem getMetrics_open_resolved (now : Int) (incidents : List StoredIncident)
    (h : ∀ i ∈ incidents, i.status = .str "OPEN" ∨ i.status = .str "RESOLVED") :
    (getMetrics now incidents).open_incidents + (getMetrics now incidents).resolved_incidents
        = (getMetrics now incidents).total_incidents ∧
      (getMetrics now incidents).total_incidents = incidents.length := by
  refine ⟨?_, rfl⟩
  simp only [getMetrics]
  induction incidents with
  | nil => rfl
  | cons i rest ih =>
    have hi := h i (List.mem_cons_self _ _)
    have hrest := ih (fun j hj => h j (List.mem_cons_of_mem _ hj))
    rcases hi with ho | hr
    · have h1 : i.status.strictEqStr "OPEN" = true := by rw [ho]; decide
      have h2 : i.status.strictEqStr "RESOLVED" = false := by rw [ho]; decide
      simp only [List.filter_cons, h1, h2, if_true, List.length_cons, Bool.false_eq_true,
        if_false]
      omega
    · have h1 : i.status.strictEqStr "OPEN" = false := by rw [hr]; decide
      have h2 : i.status.strictEqStr "RESOLVED" = true := by rw [hr]; decide
      simp only [List.filter_cons, h1, h2, if_true, List.length_cons, Bool.false_eq_true,
        if_false]
      omega

/-- Witness of `getMetrics_open_resolved`: six OPEN incidents. -/
theorem getMetrics_open_resolved_witness :
    (getMetrics 1700003600000 oneCriticalFiveHigh).open_incidents +
        (getMetrics 1700003600000 oneCriticalFiveHigh).resolved_incidents
      = (getMetrics 1700003600000 oneCriticalFiveHigh).total_incidents ∧
    (getMetrics 1700003600000 oneCriticalFiveHigh).total_incidents = 6 :=
  getMetrics_open_resolved 1700003600000 oneCriticalFiveHigh (by
    intro i hi
    simp only [oneCriticalFiveHigh, List.mem_cons, List.mem_singleton, List.not_mem_nil,
      or_false] at hi
    rcases hi with rfl | rfl | rfl | rfl | rfl | rfl <;> exact Or.inl rfl)

theorem countOpen_insert (sev : String) (l1 l2 : List StoredIncident) (i : StoredIncident) :
    countOpen sev (l1 ++ i :: l2) = countOpen sev (l1 ++ l2) +
      (if i.severity.strictEqStr sev && i.status.strictEqStr "OPEN" then 1 else 0) := by
  unfold countOpen
  simp only [List.filter_append, List.filter_cons, List.length_append]
  split_ifs <;> simp
  all_goals omega

/-- Claim C21: putting an incident anywhere into a list never lowers the health
rating, and an incident that is not OPEN, or is neither HIGH nor CRITICAL,
leaves it unchanged, whether put in or taken out. -/
theorem calculateSystemHealth_monotone (l1 l2 : List StoredIncident) (i : StoredIncident) :
    (calculateSystemHealth (l1 ++ l2)).rank ≤ (calculateSystemHealth (l1 ++ i :: l2)).rank ∧
    ((i.status ≠ .str "OPEN" ∨ (i.severity ≠ .str "HIGH" ∧ i.severity ≠ .str "CRITICAL")) →
      calculateSystemHealth (l1 ++ i :: l2) = calculateSystemHealth (l1 ++ l2)) := by
  simp only [calculateSystemHealth_eq, countOpen_insert, ne_eq, ← strictEqStr_iff]
  constructor
  · split_ifs <;> simp_all [Health.rank]
    all_goals omega
  · intro h
    rcases h with h | ⟨h1, h2⟩
    · simp [h]
    · simp [h1, h2]

/-- Witness of `calculateSystemHealth_monotone`: a RESOLVED CRITICAL incident
changes nothing. -/
theorem calculateSystemHealth_monotone_witness :
    calculateSystemHealth ([openIncident "HIGH"] ++ resolvedIncident "CRITICAL" 10 :: []) =
      calculateSystemHealth ([openIncident "HIGH"] ++ []) :=
  (calculateSystemHealth_monotone [openIncident "HIGH"] [] (resolvedIncident "CRITICAL" 10)).2
    (Or.inl (by simp [resolvedIncident]))

/-! ### Histograms -/

theorem hasOwn_map_iff (K : List String) (f : String → Nat) (k0 : String) :
    hasOwn (K.map (fun k => (k, f k))) k0 = true ↔ k0 ∈ K := by
  induction K with
  | nil => simp [hasOwn]
  | cons k K ih =>
    simp only [hasOwn, List.map_cons, List.any_cons, Bool.or_eq_true, beq_iff_eq,
      List.mem_cons] at ih ⊢
    rw [ih]
    constructor
    · rintro (h | h)
      · exact Or.inl h.symm
      · exact Or.inr h
    · rintro (h | h)
      · exact Or.inl h.symm
      · exact Or.inr h

theorem lookup_map_of_mem (K : List String) (f : String → Nat) (k0 : String) (h : k0 ∈ K) :
    (K.map (fun k => (k, f k))).lookup k0 = some (f k0) := by
  induction K with
  | nil => simp at h
  | cons k K ih =>
    simp only [List.map_cons, List.lookup]
    by_cases hk : k0 = k
    · subst hk; simp
    · have : (k0 == k) = false := by simpa using hk
      simp only [this]
      exact ih (by simpa [hk] using h)

theorem setKey_map_of_mem (K : List String) (f : String → Nat) (k0 : String) (v : Nat)
    (hn : K.Nodup) (h : k0 ∈ K) :
    setKey (K.map (fun k => (k, f k))) k0 v =
      K.map (fun k => (k, if k = k0 then v else f k)) := by
  induction K with
  | nil => simp at h
  | cons k K ih =>
    simp only [List.map_cons, setKey]
    rw [List.nodup_cons] at hn
    by_cases hk : k = k0
    · subst hk
      simp only [beq_self_eq_true, if_true, List.cons.injEq, true_and]
      apply List.map_congr_left
      intro x hx
      have : x ≠ k := fun e => hn.1 (e ▸ hx)
      simp [this]
    · have hb : (k == k0) = false := by simpa using hk
      simp only [hb, Bool.false_eq_true, if_false, hk, List.cons.injEq, true_and]
      exact ih hn.2 (by
        rcases List.mem_cons.mp h with e | e
        · exact absurd e.symm hk
        · exact e)

/-- One incident added to a histogram over distinct keys. -/
theorem countStep_map (K : List String) (f : String → Nat) (hn : K.Nodup) (key : String) :
    (if hasOwn (K.map (fun k => (k, f k))) key then
        setKey (K.map (fun k => (k, f k))) key
          (((K.map (fun k => (k, f k))).lookup key).getD 0 + 1)
      else K.map (fun k => (k, f k))) =
      K.map (fun k => (k, f k + if key = k then 1 else 0)) := by
  by_cases hm : key ∈ K
  · rw [if_pos ((hasOwn_map_iff K f key).mpr hm), lookup_map_of_mem K f key hm,
      setKey_map_of_mem K f key _ hn hm]
    apply List.map_congr_left
    intro x _
    by_cases hx : x = key
    · subst hx; simp
    · have : key ≠ x := fun e => hx e.symm
      simp [hx, this]
  · have : ¬ hasOwn (K.map (fun k => (k, f k))) key = true := by
      rw [hasOwn_map_iff]; exact hm
    rw [if_neg this]
    apply List.map_congr_left
    intro x hx
    have : key ≠ x := fun e => hm (e ▸ hx)
    simp [this]

theorem countFold_map (K : List String) (hn : K.Nodup) (incidents : List StoredIncident)
    (f : String → Nat) :
    incidents.foldl
      (fun hours incident =>
        let hourKey := hourKey incident.created_at
        if hasOwn hours hourKey then
          setKey hours hourKey ((hours.lookup hourKey).getD 0 + 1)
        else hours)
      (K.map (fun k => (k, f k))) =
    K.map (fun k => (k, f k +
      (incidents.filter (fun i => hourKey i.created_at == k)).length)) := by
  induction incidents generalizing f with
  | nil => simp
  | cons i rest ih =>
    simp only [List.foldl_cons]
    rw [countStep_map K f hn (hourKey i.created_at), ih]
    apply List.map_congr_left
    intro x _
    simp only [List.filter_cons, Prod.mk.injEq, true_and]
    by_cases hx : hourKey i.created_at = x
    · simp [hx]; omega
    · simp [hx]

theorem getHours_lt (t : Int) : getHours t < 24 := by
  unfold getHours
  omega

theorem getHours_sub (now : Int) (i : Nat) (hi : i < 24) :
    getHours (now - (i : Int) * 60 * 60 * 1000) = (getHours now + 24 - i) % 24 := by
  unfold getHours
  omega

theorem hoursEndingAt_facts : ∀ h0 < 24,
    (hoursEndingAt h0).Nodup ∧ (∀ h < 24, h ∈ hoursEndingAt h0) ∧
      (∀ h ∈ hoursEndingAt h0, h < 24) ∧
      (List.range 24).reverse.map (fun i => (h0 + 24 - i) % 24) = hoursEndingAt h0 ∧
      (hoursEndingAt h0).getLast? = some h0 := by
  decide

set_option maxRecDepth 100000 in
theorem keyOfHour_injective : ∀ a < 24, ∀ b < 24, keyOfHour a = keyOfHour b → a = b := by
  decide

set_option maxRecDepth 100000 in
theorem keyOfHour_ne_nan : ∀ a < 24, keyOfHour a ≠ "NaN:00" := by
  decide

set_option maxRecDepth 100000 in
theorem keyOfHour_table :
    (List.range 24).map keyOfHour =
      ["00:00", "01:00", "02:00", "03:00", "04:00", "05:00", "06:00", "07:00", "08:00",
       "09:00", "10:00", "11:00", "12:00", "13:00", "14:00", "15:00", "16:00", "17:00",
       "18:00", "19:00", "20:00", "21:00", "22:00", "23:00"] := by
  decide

theorem keysEndingAt_nodup (h0 : Nat) (hh : h0 < 24) : (keysEndingAt h0).Nodup := by
  have hf := hoursEndingAt_facts h0 hh
  apply List.Nodup.map_on _ hf.1
  intro a ha b hb hab
  exact keyOfHour_injective a (hf.2.2.1 a ha) b (hf.2.2.1 b hb) hab

theorem keyOfHour_mem_keysEndingAt (h0 : Nat) (hh : h0 < 24) (h : Nat) (hlt : h < 24) :
    keyOfHour h ∈ keysEndingAt h0 :=
  List.mem_map_of_mem _ ((hoursEndingAt_facts h0 hh).2.1 h hlt)

theorem nan_not_mem_keysEndingAt (h0 : Nat) (hh : h0 < 24) : "NaN:00" ∉ keysEndingAt h0 := by
  intro hm
  obtain ⟨a, ha, e⟩ := List.mem_map.mp hm
  exact keyOfHour_ne_nan a ((hoursEndingAt_facts h0 hh).2.2.1 a ha) e

theorem setKey_of_not_mem (o : List (String × Nat)) (k : String) (v : Nat)
    (h : k ∉ o.map Prod.fst) : setKey o k v = o ++ [(k, v)] := by
  induction o with
  | nil => rfl
  | cons p o ih =>
    obtain ⟨k', v'⟩ := p
    simp only [List.map_cons, List.mem_cons, not_or] at h
    have hb : (k' == k) = false := by
      simpa using fun e : k' = k => h.1 e.symm
    simp only [setKey, hb, Bool.false_eq_true, if_false, List.cons_append, ih h.2]

theorem foldl_setKey_nodup (K : List String) (o : List (String × Nat))
    (hn : (o.map Prod.fst ++ K).Nodup) :
    K.foldl (fun hours k => setKey hours k 0) o = o ++ K.map (fun k => (k, 0)) := by
  induction K generalizing o with
  | nil => simp
  | cons k K ih =>
    have hk : k ∉ o.map Prod.fst := by
      intro hm
      have := (List.nodup_append.mp hn).2.2
      exact this hm (List.mem_cons_self _ _)
    simp only [List.foldl_cons, setKey_of_not_mem o k 0 hk]
    rw [ih]
    · simp
    · simpa [List.map_append, List.append_assoc] using hn

theorem hourKey_some (t : Int) : hourKey (some t) = keyOfHour (getHours t) := rfl

theorem initHours_eq (now : Int) :
    (List.range 24).reverse.foldl
      (fun hours (i : Nat) =>
        setKey hours (hourKey (some (now - (i : Int) * 60 * 60 * 1000))) 0)
      ([] : List (String × Nat)) =
    (keysEndingAt (getHours now)).map (fun k => (k, 0)) := by
  have hkeys : (List.range 24).reverse.map
      (fun (i : Nat) => hourKey (some (now - (i : Int) * 60 * 60 * 1000))) =
      keysEndingAt (getHours now) := by
    unfold keysEndingAt
    rw [← (hoursEndingAt_facts _ (getHours_lt now)).2.2.2.1, List.map_map]
    apply List.map_congr_left
    intro i hi
    have hi' : i < 24 := by simpa using hi
    simp only [Function.comp, hourKey_some, getHours_sub now i hi']
  have hfold : (List.range 24).reverse.foldl
      (fun hours (i : Nat) =>
        setKey hours (hourKey (some (now - (i : Int) * 60 * 60 * 1000))) 0)
      ([] : List (String × Nat)) =
      ((List.range 24).reverse.map
        (fun (i : Nat) => hourKey (some (now - (i : Int) * 60 * 60 * 1000)))).foldl
        (fun hours k => setKey hours k 0) [] := by
    rw [List.foldl_map]
  rw [hfold, hkeys, foldl_setKey_nodup]
  · simp
  · simpa using keysEndingAt_nodup _ (getHours_lt now)

theorem getIncidentsByHour_eq (now : Int) (incidents : List StoredIncident) :
    getIncidentsByHour now incidents =
      (keysEndingAt (getHours now)).map (fun k =>
        (k, (incidents.filter (fun i => hourKey i.created_at == k)).length)) := by
  unfold getIncidentsByHour
  simp only []
  rw [initHours_eq now,
    countFold_map _ (keysEndingAt_nodup _ (getHours_lt now)) incidents (fun _ => 0)]
  simp

theorem hourKey_eq_iff (c : Option Int) (h : Nat) (hh : h < 24) :
    hourKey c = keyOfHour h ↔ c.map getHours = some h := by
  cases c with
  | none =>
    simp only [Option.map_none', hourKey]
    constructor
    · intro e
      exact absurd e.symm (keyOfHour_ne_nan h hh)
    · intro e
      cases e
  | some t =>
    simp only [hourKey_some, Option.map_some', Option.some.injEq]
    constructor
    · exact keyOfHour_injective _ (getHours_lt t) _ hh
    · intro e; rw [e]

theorem hourKey_mem_iff (c : Option Int) (h0 : Nat) (hh : h0 < 24) :
    hourKey c ∈ keysEndingAt h0 ↔ c.isSome = true := by
  cases c with
  | none =>
    simp only [Option.isSome_none, Bool.false_eq_true, iff_false]
    exact nan_not_mem_keysEndingAt h0 hh
  | some t =>
    simp only [Option.isSome_some, iff_true, hourKey_some]
    exact keyOfHour_mem_keysEndingAt h0 hh _ (getHours_lt t)

theorem sum_indicator (K : List String) (hn : K.Nodup) (key : String) :
    (K.map (fun k => if key = k then 1 else 0)).sum = if key ∈ K then 1 else 0 := by
  induction K with
  | nil => simp
  | cons k K ih =>
    rw [List.nodup_cons] at hn
    simp only [List.map_cons, List.sum_cons, ih hn.2, List.mem_cons]
    by_cases hk : key = k
    · subst hk
      simp [hn.1]
    · simp [hk]

theorem sum_counts (K : List String) (hn : K.Nodup) (incidents : List StoredIncident) :
    (K.map (fun k => (incidents.filter (fun i => hourKey i.created_at == k)).length)).sum =
      (incidents.filter (fun i => decide (hourKey i.created_at ∈ K))).length := by
  induction incidents with
  | nil => simp
  | cons i rest ih =>
    have hsplit : (K.map (fun k =>
        ((i :: rest).filter (fun i => hourKey i.created_at == k)).length)).sum =
        (K.map (fun k => (rest.filter (fun i => hourKey i.created_at == k)).length)).sum +
          (K.map (fun k => if hourKey i.created_at = k then 1 else 0)).sum := by
      rw [← List.sum_map_add]
      congr 1
      apply List.map_congr_left
      intro k _
      simp only [List.filter_cons, beq_iff_eq]
      split_ifs <;> simp
    rw [hsplit, ih, sum_indicator K hn]
    simp only [List.filter_cons]
    split_ifs <;> simp_all

theorem map_snd_pairs (K : List String) (c : String → Nat) :
    (K.map (fun k => (k, c k))).map Prod.snd = K.map c := by
  induction K with
  | nil => rfl
  | cons k K ih => simp only [List.map_cons, ih]

theorem map_fst_pairs (K : List String) (c : String → Nat) :
    (K.map (fun k => (k, c k))).map Prod.fst = K := by
  induction K with
  | nil => rfl
  | cons k K ih => simp only [List.map_cons, ih]

/-- Claim C17: the histogram has 24 buckets, keyed by the hours `00:00` to
`23:00`, each once, in the order of the hours that ends with the current
hour of the day, and the value of a bucket is the number of incidents whose
`created_at` has that hour of the day. -/
theorem getIncidentsByHour_histogram (now : Int) (incidents : List StoredIncident) :
    getIncidentsByHour now incidents =
      (List.range 24).map (fun j =>
        (keyOfHour ((getHours now + 1 + j) % 24),
         (incidents.filter (fun i =>
            decide (i.created_at.map getHours = some ((getHours now + 1 + j) % 24)))).length)) ∧
    (getIncidentsByHour now incidents).length = 24 ∧
    ((getIncidentsByHour now incidents).map Prod.fst).Nodup ∧
    (∀ k, k ∈ (getIncidentsByHour now incidents).map Prod.fst ↔
      k ∈ ["00:00", "01:00", "02:00", "03:00", "04:00", "05:00", "06:00", "07:00", "08:00",
           "09:00", "10:00", "11:00", "12:00", "13:00", "14:00", "15:00", "16:00", "17:00",
           "18:00", "19:00", "20:00", "21:00", "22:00", "23:00"]) ∧
    ((getIncidentsByHour now incidents).map Prod.fst).getLast? =
      some (keyOfHour (getHours now)) := by
  have hlt := getHours_lt now
  have hkeys : (getIncidentsByHour now incidents).map Prod.fst = keysEndingAt (getHours now) := by
    rw [getIncidentsByHour_eq, map_fst_pairs]
  refine ⟨?_, ?_, ?_, ?_, ?_⟩
  · rw [getIncidentsByHour_eq]
    unfold keysEndingAt hoursEndingAt
    rw [List.map_map, List.map_map]
    apply List.map_congr_left
    intro j _
    simp only [Function.comp, Prod.mk.injEq, true_and]
    congr 1
    apply List.filter_congr
    intro i _
    have hj : (getHours now + 1 + j) % 24 < 24 := Nat.mod_lt _ (by norm_num)
    rw [Bool.eq_iff_iff]
    simp only [beq_iff_eq, decide_eq_true_eq]
    exact hourKey_eq_iff i.created_at _ hj
  · rw [getIncidentsByHour_eq]
    simp [keysEndingAt, hoursEndingAt]
  · rw [hkeys]
    exact keysEndingAt_nodup _ hlt
  · intro k
    rw [hkeys, ← keyOfHour_table]
    unfold keysEndingAt
    simp only [List.mem_map, List.mem_range]
    constructor
    · rintro ⟨h, hh, rfl⟩
      exact ⟨h, (hoursEndingAt_facts _ hlt).2.2.1 h hh, rfl⟩
    · rintro ⟨h, hh, rfl⟩
      exact ⟨h, (hoursEndingAt_facts _ hlt).2.1 h hh, rfl⟩
  · rw [hkeys]
    unfold keysEndingAt
    rw [List.getLast?_map, (hoursEndingAt_facts _ hlt).2.2.2.2]
    rfl

/-- Claim C16 as stated fails: an incident created 48 hours before the current
time is outside the trailing 24-hour window and is counted by the histogram. -/
theorem histogram_counts_old_incident :
    inWindow 1700003600000 (1700003600000 - 48 * 60 * 60 * 1000) = false ∧
    ([twoDaysOld].filter (fun i => match i.created_at with
        | some t => inWindow 1700003600000 t
        | none => false)).length = 0 ∧
    ((getIncidentsByHour 1700003600000 [twoDaysOld]).map Prod.snd).sum = 1 := by
  refine ⟨by decide, by decide, ?_⟩
  rw [getIncidentsByHour_eq]
  decide

/-- Claim C16, amended: the values of the histogram add up to the number of
incidents of the list that have a valid `created_at`, whatever its date; this
is the number of incidents in the trailing 24-hour window when every dated
incident of the list lies in that window. -/
theorem getIncidentsByHour_sum (now : Int) (incidents : List StoredIncident) :
    ((getIncidentsByHour now incidents).map Prod.snd).sum =
        (incidents.filter (fun i => i.created_at.isSome)).length ∧
    ((∀ i ∈ incidents, ∀ t, i.created_at = some t → inWindow now t = true) →
      ((getIncidentsByHour now incidents).map Prod.snd).sum =
        (incidents.filter (fun i => match i.created_at with
          | some t => inWindow now t
          | none => false)).length) := by
  have hsum : ((getIncidentsByHour now incidents).map Prod.snd).sum =
      (incidents.filter (fun i => i.created_at.isSome)).length := by
    rw [getIncidentsByHour_eq, map_snd_pairs, sum_counts (keysEndingAt (getHours now))
      (keysEndingAt_nodup _ (getHours_lt now)) incidents]
    congr 1
    apply List.filter_congr
    intro i _
    rw [Bool.eq_iff_iff]
    simp only [decide_eq_true_eq]
    exact hourKey_mem_iff i.created_at (getHours now) (getHours_lt now)
  refine ⟨hsum, ?_⟩
  intro hw
  rw [hsum]
  congr 1
  apply List.filter_congr
  intro i hi
  cases hc : i.created_at with
  | none => rfl
  | some t => simp [hw i hi t hc]

theorem lookup_setKey {α : Type} (o : List (String × α)) (k : String) (v : α) (s : String) :
    (setKey o k v).lookup s = if s = k then some v else o.lookup s := by
  induction o with
  | nil =>
    by_cases h : s = k
    · subst h; simp [setKey, List.lookup]
    · have : (s == k) = false := by simpa using h
      simp [setKey, List.lookup, h, this]
  | cons p o ih =>
    obtain ⟨k', v'⟩ := p
    simp only [setKey]
    by_cases hk : k' = k
    · subst hk
      simp only [beq_self_eq_true, if_true, List.lookup]
      by_cases h : s = k'
      · subst h; simp
      · have : (s == k') = false := by simpa using h
        simp [this, h]
    · have hb : (k' == k) = false := by simpa using hk
      simp only [hb, Bool.false_eq_true, if_false, List.lookup]
      by_cases h : s = k'
      · subst h
        have : ¬ s = k := hk
        simp [this]
      · have : (s == k') = false := by simpa using h
        simp only [this, ih]

theorem getIncidentsBySource_cons_step (sources : List (String × Tally))
    (incidents : List StoredIncident) :
    incidents.foldl
      (fun sources incident =>
        let source := match incident.source with
          | some s => if s != "" then s else "unknown"
          | none => "unknown"
        if source == "__proto__" then sources
        else setKey sources source (nextTally sources source))
      sources =
    incidents.foldl
      (fun sources incident =>
        if sourceKey incident == "__proto__" then sources
        else setKey sources (sourceKey incident) (nextTally sources (sourceKey incident)))
      sources := rfl

/-- Away from the names inherited from `Object.prototype`, the object that
`getIncidentsBySource` builds maps every key to the number of incidents
counted under it and has no other key. -/
theorem getIncidentsBySource_lookup (incidents : List StoredIncident)
    (h : ∀ i ∈ incidents, sourceKey i ∉ objectPrototypeNames) (s : String) :
    (getIncidentsBySource incidents).lookup s =
      if (incidents.filter (fun i => sourceKey i == s)).length = 0 then none
      else some (.count (incidents.filter (fun i => sourceKey i == s)).length) := by
  unfold getIncidentsBySource
  rw [getIncidentsBySource_cons_step]
  suffices H : ∀ (o : List (String × Tally)) (c : String → Nat),
      (∀ s, o.lookup s = if c s = 0 then none else some (.count (c s))) →
      ∀ s, (incidents.foldl
        (fun sources incident =>
          if sourceKey incident == "__proto__" then sources
          else setKey sources (sourceKey incident) (nextTally sources (sourceKey incident)))
        o).lookup s =
        if c s + (incidents.filter (fun i => sourceKey i == s)).length = 0 then none
        else some (.count (c s + (incidents.filter (fun i => sourceKey i == s)).length)) by
    have := H [] (fun _ => 0) (fun _ => by simp) s
    simpa using this
  induction incidents with
  | nil => intro o c hc s; simpa using hc s
  | cons i rest ih =>
    intro o c hc s
    have hi := h i (List.mem_cons_self _ _)
    have hproto : (sourceKey i == "__proto__") = false := by
      have : sourceKey i ≠ "__proto__" := fun e => hi (e ▸ by decide)
      simpa using this
    simp only [List.foldl_cons, hproto, Bool.false_eq_true, if_false]
    have hnext : nextTally o (sourceKey i) = .count (c (sourceKey i) + 1) := by
      unfold nextTally
      rw [hc (sourceKey i)]
      by_cases h0 : c (sourceKey i) = 0
      · simp [h0, hi]
      · simp [h0]
    have := ih (fun j hj => h j (List.mem_cons_of_mem _ hj))
      (setKey o (sourceKey i) (nextTally o (sourceKey i)))
      (fun s => c s + if s = sourceKey i then 1 else 0)
      (by
        intro s'
        rw [lookup_setKey, hnext]
        by_cases e : s' = sourceKey i
        · subst e; simp
        · simp [e, hc s'])
      s
    rw [this]
    simp only [List.filter_cons, beq_iff_eq]
    by_cases e : sourceKey i = s
    · subst e
      simp
      omega
    · have e' : ¬ s = sourceKey i := fun x => e x.symm
      simp [e, e']

/-- Claim C18, where it fails as worded: an incident whose source is
`constructor` is not counted; the key gets the text that `+ 1` makes of the
inherited function, also after a second such incident. -/
theorem getIncidentsBySource_inherited_name :
    getIncidentsBySource [constructorIncident] = [("constructor", .text)] ∧
    (getIncidentsBySource [constructorIncident]).lookup "constructor" ≠ some (.count 1) ∧
    getIncidentsBySource [constructorIncident, constructorIncident]
      = [("constructor", .text)] := by
  decide

/-- Witness of `getIncidentsByHour_sum`: one incident created an hour before the
current time. -/
theorem getIncidentsByHour_sum_witness :
    ((getIncidentsByHour 1700003600000 [openIncident "HIGH"]).map Prod.snd).sum =
      ([openIncident "HIGH"].filter (fun i => match i.created_at with
        | some t => inWindow 1700003600000 t
        | none => false)).length :=
  (getIncidentsByHour_sum 1700003600000 [openIncident "HIGH"]).2 (by
    intro i hi t ht
    rw [List.mem_singleton.mp hi] at ht
    cases ht
    decide)

/-! ### An event that is not written -/

/-- Claim C6, where the code fails it: an autoscaling event without an event
type is classified MEDIUM, `findEventKey` calls `toLowerCase` on the absent event
type, and the handler answers 500 without a write; likewise an autoscaling event
without a detail, where `findEventKey` reads `details.state`. -/
theorem handler_medium_not_written :
    determineSeverity untypedScaleEvent.source untypedScaleEvent.detailType
        untypedScaleEvent.detail = .ok .MEDIUM ∧
      findEventKey untypedScaleEvent.detailType untypedScaleEvent.detail =
        .error .typeError ∧
      handler sampleWorld untypedScaleEvent = (failureResponse, []) ∧
      determineSeverity bareScaleEvent.source bareScaleEvent.detailType
        bareScaleEvent.detail = .ok .MEDIUM ∧
      findEventKey bareScaleEvent.detailType bareScaleEvent.detail = .error .typeError ∧
      handler sampleWorld bareScaleEvent = (failureResponse, []) :=
  ⟨by decide, by decide, by rfl, by decide, by decide, by rfl⟩

/-! ### Counts by source -/

theorem total_setKey (o : List (String × Tally)) (k : String) (v : Tally) :
    ((setKey o k v).map (fun p => p.2.toNat)).sum +
        (match o.lookup k with
          | some t => t.toNat
          | none => 0) =
      (o.map (fun p => p.2.toNat)).sum + v.toNat := by
  induction o with
  | nil => simp [setKey, List.lookup]
  | cons p o ih =>
    obtain ⟨k', v'⟩ := p
    by_cases hk : k' = k
    · subst hk
      simp [setKey, List.lookup]
      omega
    · have hb : (k' == k) = false := by simpa using hk
      have hb' : (k == k') = false := by simpa using fun e : k = k' => hk e.symm
      simp only [setKey, hb, Bool.false_eq_true, if_false, List.map_cons, List.sum_cons,
        List.lookup, hb']
      omega

theorem getIncidentsBySource_fold (incidents : List StoredIncident)
    (h : ∀ i ∈ incidents, sourceKey i ∉ objectPrototypeNames)
    (o : List (String × Tally)) (c : String → Nat)
    (hc : ∀ s, o.lookup s = if c s = 0 then none else some (.count (c s)))
    (ho : ∀ p ∈ o, ∃ n, 0 < n ∧ p.2 = .count n) :
    (∀ p ∈ incidents.foldl
        (fun sources incident =>
          if sourceKey incident == "__proto__" then sources
          else setKey sources (sourceKey incident) (nextTally sources (sourceKey incident)))
        o, ∃ n, 0 < n ∧ p.2 = .count n) ∧
      ((incidents.foldl
        (fun sources incident =>
          if sourceKey incident == "__proto__" then sources
          else setKey sources (sourceKey incident) (nextTally sources (sourceKey incident)))
        o).map (fun p => p.2.toNat)).sum =
        (o.map (fun p => p.2.toNat)).sum + incidents.length := by
  induction incidents generalizing o c with
  | nil => exact ⟨ho, by simp⟩
  | cons i rest ih =>
    have hi := h i (List.mem_cons_self _ _)
    have hproto : (sourceKey i == "__proto__") = false := by
      have : sourceKey i ≠ "__proto__" := fun e => hi (e ▸ by decide)
      simpa using this
    simp only [List.foldl_cons, hproto, Bool.false_eq_true, if_false]
    have hnext : nextTally o (sourceKey i) = .count (c (sourceKey i) + 1) := by
      unfold nextTally
      rw [hc (sourceKey i)]
      by_cases h0 : c (sourceKey i) = 0
      · simp [h0, hi]
      · simp [h0]
    have hstep := total_setKey o (sourceKey i) (nextTally o (sourceKey i))
    rw [hc (sourceKey i), hnext] at hstep
    have hsum : ((setKey o (sourceKey i) (.count (c (sourceKey i) + 1))).map
        (fun p => p.2.toNat)).sum = (o.map (fun p => p.2.toNat)).sum + 1 := by
      have e1 : (Tally.count (c (sourceKey i) + 1)).toNat = c (sourceKey i) + 1 := rfl
      have e2 : (Tally.count (c (sourceKey i))).toNat = c (sourceKey i) := rfl
      rw [e1] at hstep
      by_cases h0 : c (sourceKey i) = 0
      · simp only [h0, if_true] at hstep
        rw [h0]
        omega
      · simp only [h0, if_false, e2] at hstep
        omega
    have hmem : ∀ p ∈ setKey o (sourceKey i) (.count (c (sourceKey i) + 1)),
        ∃ n, 0 < n ∧ p.2 = .count n := by
      clear hstep hsum ih hc hnext
      induction o with
      | nil =>
        intro p hp
        simp only [setKey, List.mem_singleton] at hp
        subst hp
        exact ⟨_, Nat.succ_pos _, rfl⟩
      | cons q o iho =>
        obtain ⟨k', v'⟩ := q
        intro p hp
        simp only [setKey] at hp
        split at hp
        · rcases List.mem_cons.mp hp with e | e
          · subst e
            exact ⟨_, Nat.succ_pos _, rfl⟩
          · exact ho p (List.mem_cons_of_mem _ e)
        · rcases List.mem_cons.mp hp with e | e
          · subst e
            exact ho _ (List.mem_cons_self _ _)
          · exact iho (fun p hp => ho p (List.mem_cons_of_mem _ hp)) p e
    rw [hnext]
    obtain ⟨h1, h2⟩ := ih (fun j hj => h j (List.mem_cons_of_mem _ hj))
      (setKey o (sourceKey i) (.count (c (sourceKey i) + 1)))
      (fun s => c s + if s = sourceKey i then 1 else 0)
      (by
        intro s'
        rw [lookup_setKey]
        by_cases e : s' = sourceKey i
        · subst e; simp
        · simp [e, hc s'])
      hmem
    refine ⟨h1, ?_⟩
    rw [h2, hsum, List.length_cons]
    omega

/-- Whatever the sources are, the object that `getIncidentsBySource` builds has
under every key that is no name inherited from `Object.prototype` the number of
incidents counted under it, and no such key without an incident. -/
theorem getIncidentsBySource_lookup_own (incidents : List StoredIncident) (s : String)
    (hs : s ∉ objectPrototypeNames) :
    (getIncidentsBySource incidents).lookup s =
      if (incidents.filter (fun i => sourceKey i == s)).length = 0 then none
      else some (.count (incidents.filter (fun i => sourceKey i == s)).length) := by
  unfold getIncidentsBySource
  rw [getIncidentsBySource_cons_step]
  suffices H : ∀ (o : List (String × Tally)) (c : String → Nat),
      (∀ s, s ∉ objectPrototypeNames →
        o.lookup s = if c s = 0 then none else some (.count (c s))) →
      ∀ s, s ∉ objectPrototypeNames → (incidents.foldl
        (fun sources incident =>
          if sourceKey incident == "__proto__" then sources
          else setKey sources (sourceKey incident) (nextTally sources (sourceKey incident)))
        o).lookup s =
        if c s + (incidents.filter (fun i => sourceKey i == s)).length = 0 then none
        else some (.count (c s + (incidents.filter (fun i => sourceKey i == s)).length)) by
    have := H [] (fun _ => 0) (fun _ _ => by simp) s hs
    simpa using this
  clear hs s
  induction incidents with
  | nil => intro o c hc s hs; simpa using hc s hs
  | cons i rest ih =>
    intro o c hc s hs
    simp only [List.foldl_cons]
    have hcount : (List.filter (fun i => sourceKey i == s) (i :: rest)).length =
        (if sourceKey i = s then 1 else 0) +
          (List.filter (fun i => sourceKey i == s) rest).length := by
      simp only [List.filter_cons, beq_iff_eq]
      split_ifs
      · simp
        omega
      · simp
    rw [hcount]
    by_cases hi : sourceKey i ∈ objectPrototypeNames
    · -- an inherited name: the other keys keep their value
      have hne : ¬ sourceKey i = s := fun e => hs (e ▸ hi)
      have hne' : ¬ s = sourceKey i := fun e => hne e.symm
      simp only [hne, if_false, Nat.zero_add]
      by_cases hp : (sourceKey i == "__proto__") = true
      · rw [if_pos hp]
        exact ih o c hc s hs
      · rw [if_neg hp]
        exact ih _ c (by
          intro s' hs'
          have : ¬ s' = sourceKey i := fun e => hs' (e ▸ hi)
          rw [lookup_setKey, if_neg this]
          exact hc s' hs') s hs
    · have hproto : (sourceKey i == "__proto__") = false := by
        have : sourceKey i ≠ "__proto__" := fun e => hi (e ▸ by decide)
        simpa using this
      simp only [hproto, Bool.false_eq_true, if_false]
      have hnext : nextTally o (sourceKey i) = .count (c (sourceKey i) + 1) := by
        unfold nextTally
        rw [hc (sourceKey i) hi]
        by_cases h0 : c (sourceKey i) = 0
        · simp [h0, hi]
        · simp [h0]
      have := ih
        (setKey o (sourceKey i) (nextTally o (sourceKey i)))
        (fun s => c s + if s = sourceKey i then 1 else 0)
        (by
          intro s' hs'
          rw [lookup_setKey, hnext]
          by_cases e : s' = sourceKey i
          · subst e; simp
          · simp [e, hc s' hs'])
        s hs
      rw [this]
      by_cases e : sourceKey i = s
      · subst e
        simp
        omega
      · have e' : ¬ s = sourceKey i := fun x => e x.symm
        simp [e, e']

/-- Claim C18, as amended: the object that `getIncidentsBySource` returns has
under every key `s` that is no name inherited from `Object.prototype` the number
of incidents whose source is `s`, a missing or empty source counting as
`unknown`, and a source without incident is no key. When no incident has such a
name as its source, this holds for every key, every value is a count above `0`,
and the counts add up to the number of incidents. -/
theorem getIncidentsBySource_counts (incidents : List StoredIncident) :
    (∀ s, s ∉ objectPrototypeNames → (getIncidentsBySource incidents).lookup s =
      if (incidents.filter (fun i => sourceKey i == s)).length = 0 then none
      else some (.count (incidents.filter (fun i => sourceKey i == s)).length)) ∧
    (∀ i ∈ incidents, (i.source = none ∨ i.source = some "") → sourceKey i = "unknown") ∧
    (∀ i ∈ incidents, ∀ s, i.source = some s → s ≠ "" → sourceKey i = s) ∧
    ((∀ i ∈ incidents, sourceKey i ∉ objectPrototypeNames) →
      (∀ s, (getIncidentsBySource incidents).lookup s =
        if (incidents.filter (fun i => sourceKey i == s)).length = 0 then none
        else some (.count (incidents.filter (fun i => sourceKey i == s)).length)) ∧
      (∀ p ∈ getIncidentsBySource incidents, ∃ n, 0 < n ∧ p.2 = .count n) ∧
      ((getIncidentsBySource incidents).map (fun p => p.2.toNat)).sum = incidents.length) := by
  refine ⟨fun s hs => getIncidentsBySource_lookup_own incidents s hs, ?_, ?_, ?_⟩
  · intro i _ hs
    rcases hs with hs | hs <;> simp [sourceKey, hs]
  · intro i _ s hs hne
    simp [sourceKey, hs, hne]
  · intro h
    have hf := getIncidentsBySource_fold incidents h [] (fun _ => 0) (fun _ => by simp)
      (fun p hp => by simp at hp)
    refine ⟨getIncidentsBySource_lookup incidents h, ?_, ?_⟩
    · unfold getIncidentsBySource
      rw [getIncidentsBySource_cons_step]
      exact hf.1
    · unfold getIncidentsBySource
      rw [getIncidentsBySource_cons_step]
      simpa using hf.2

set_option maxRecDepth 100000 in
/-- Witness of `getIncidentsBySource_counts`: three incidents of the instance
service, one of the database service and two without a source. -/
theorem getIncidentsBySource_counts_witness :
    getIncidentsBySource sourcedIncidents =
        [("aws.ec2", .count 3), ("unknown", .count 2), ("aws.rds", .count 1)] ∧
      ((getIncidentsBySource sourcedIncidents).map (fun p => p.2.toNat)).sum =
        sourcedIncidents.length :=
  ⟨by decide, ((getIncidentsBySource_counts sourcedIncidents).2.2.2 (by decide)).2.2⟩

/-! ### Binary64 rounding and the average resolution time -/

namespace Dbl

theorem log2Fuel_spec (fuel n : Nat) (h1 : 1 ≤ n) (hf : n ≤ fuel) :
    2 ^ log2Fuel fuel n ≤ n ∧ n < 2 ^ (log2Fuel fuel n + 1) := by
  induction fuel generalizing n with
  | zero => omega
  | succ fuel ih =>
    unfold log2Fuel
    by_cases h2 : n < 2
    · simp only [h2, if_true]
      omega
    · simp only [h2, if_false]
      have := ih (n / 2) (by omega) (by omega)
      rw [pow_succ, pow_succ]
      omega

theorem floorLog2_spec (n : Nat) (h1 : 1 ≤ n) :
    2 ^ floorLog2 n ≤ n ∧ n < 2 ^ (floorLog2 n + 1) :=
  log2Fuel_spec n n h1 (le_refl n)

/-- The two powers that scale by `2 ^ e`. -/
theorem two_pow_toNat_div (e : Int) :
    ((2 : ℚ) ^ e.toNat) / ((2 : ℚ) ^ (-e).toNat) = (2 : ℚ) ^ e := by
  rcases le_total 0 e with h | h
  · have h1 : (-e).toNat = 0 := by omega
    rw [h1, pow_zero, div_one]
    conv_rhs => rw [← Int.toNat_of_nonneg h]
    rw [zpow_natCast]
  · have h1 : e.toNat = 0 := by omega
    rw [h1, pow_zero, one_div]
    have h2 : e = -((-e).toNat : Int) := by omega
    conv_rhs => rw [h2]
    rw [zpow_neg, zpow_natCast]

theorem round_eq (n d : Nat) (hn : n ≠ 0) :
    round n d =
      if nearestEven (n * 2 ^ (-(roundExp n d)).toNat) (d * 2 ^ (roundExp n d).toNat) = 2 ^ 53
      then ⟨2 ^ 52, roundExp n d + 1⟩
      else ⟨nearestEven (n * 2 ^ (-(roundExp n d)).toNat) (d * 2 ^ (roundExp n d).toNat),
        roundExp n d⟩ := by
  simp only [round, hn, if_false, roundExp, nearestEven]

theorem nearestEven_spec (num den : Nat) (hden : 0 < den) :
    |(nearestEven num den : ℚ) - (num : ℚ) / den| ≤ 1 / 2 ∧
      (num % den = 0 → (nearestEven num den : ℚ) = (num : ℚ) / den) := by
  have hdq : (0 : ℚ) < den := by exact_mod_cast hden
  have hsplit : (num : ℚ) / den = (num / den : Nat) + ((num % den : Nat) : ℚ) / den := by
    have h := Nat.div_add_mod num den
    have h' : (num : ℚ) = (den : ℚ) * ((num / den : Nat) : ℚ) + ((num % den : Nat) : ℚ) := by
      exact_mod_cast h.symm
    rw [h']
    field_simp
    ring
  have hr : num % den < den := Nat.mod_lt _ hden
  have hrq : ((num % den : Nat) : ℚ) < den := by exact_mod_cast hr
  have hr0 : (0 : ℚ) ≤ ((num % den : Nat) : ℚ) := by positivity
  constructor
  · unfold nearestEven
    split_ifs with h
    · rcases h with h | ⟨h, _⟩
      · have hq : (den : ℚ) < 2 * ((num % den : Nat) : ℚ) := by exact_mod_cast h
        rw [hsplit, Nat.cast_add, Nat.cast_one, abs_le]
        have : ((num % den : Nat) : ℚ) / den > 1 / 2 := by
          rw [gt_iff_lt, div_lt_div_iff₀ (by norm_num) hdq]; linarith
        have h1 : ((num % den : Nat) : ℚ) / den < 1 := by
          rw [div_lt_one hdq]; exact hrq
        constructor <;> linarith
      · have hq : 2 * ((num % den : Nat) : ℚ) = den := by exact_mod_cast h
        rw [hsplit, Nat.cast_add, Nat.cast_one, abs_le]
        have : ((num % den : Nat) : ℚ) / den = 1 / 2 := by
          rw [div_eq_div_iff (ne_of_gt hdq) (by norm_num)]; linarith
        constructor <;> linarith
    · rw [not_or] at h
      have h1 : 2 * (num % den) ≤ den := by omega
      have hq : 2 * ((num % den : Nat) : ℚ) ≤ den := by exact_mod_cast h1
      rw [hsplit, abs_le]
      have : ((num % den : Nat) : ℚ) / den ≤ 1 / 2 := by
        rw [div_le_div_iff₀ hdq (by norm_num)]; linarith
      have h0 : 0 ≤ ((num % den : Nat) : ℚ) / den := by positivity
      constructor <;> linarith
  · intro h0
    unfold nearestEven
    have : ¬ (den < 2 * (num % den) ∨ (2 * (num % den) = den ∧ (num / den) % 2 = 1)) := by
      rw [h0]; omega
    rw [if_neg this, hsplit, h0]
    simp


/-- The value that `round` rounds, at the scale of the chosen exponent. -/
theorem scaled_cast (n d : Nat) (hd : 1 ≤ d) (e : Int) :
    ((n * 2 ^ (-e).toNat : Nat) : ℚ) / ((d * 2 ^ e.toNat : Nat) : ℚ) =
      (n : ℚ) / d / (2 : ℚ) ^ e := by
  have hdq : (d : ℚ) ≠ 0 := by
    have : (0 : ℚ) < d := by exact_mod_cast hd
    exact ne_of_gt this
  rw [← two_pow_toNat_div e]
  push_cast
  field_simp

theorem roundExp_spec (n d : Nat) (hn : 1 ≤ n) (hd : 1 ≤ d) :
    (2 : ℚ) ^ 52 ≤ (n : ℚ) / d / (2 : ℚ) ^ (roundExp n d) := by
  have hdq : (0 : ℚ) < d := by exact_mod_cast hd
  obtain ⟨hn1, _⟩ := floorLog2_spec n hn
  obtain ⟨_, hd2⟩ := floorLog2_spec d hd
  have hn1q : (2 : ℚ) ^ floorLog2 n ≤ n := by exact_mod_cast hn1
  have hd2q : (d : ℚ) ≤ (2 : ℚ) ^ (floorLog2 d + 1) := by exact_mod_cast hd2.le
  unfold roundExp
  simp only []
  split_ifs with h
  · -- the first guess
    have he : (2 : ℚ) ^ ((floorLog2 n : Int) - (floorLog2 d : Int) - 53) =
        (2 : ℚ) ^ floorLog2 n / ((2 : ℚ) ^ (floorLog2 d + 1) * 2 ^ 52) := by
      rw [zpow_sub₀ (by norm_num), zpow_sub₀ (by norm_num), zpow_natCast, zpow_natCast]
      rw [pow_succ]
      norm_num
      field_simp
      ring
    rw [he, div_div, le_div_iff₀ (by positivity)]
    have h2 : (0 : ℚ) < (2 : ℚ) ^ floorLog2 n := by positivity
    have h3 : (0 : ℚ) < (2 : ℚ) ^ (floorLog2 d + 1) := by positivity
    calc (2 : ℚ) ^ 52 * (d * ((2 : ℚ) ^ floorLog2 n / ((2 : ℚ) ^ (floorLog2 d + 1) * 2 ^ 52)))
        = (d / (2 : ℚ) ^ (floorLog2 d + 1)) * (2 : ℚ) ^ floorLog2 n := by
          field_simp
          ring
      _ ≤ 1 * (2 : ℚ) ^ floorLog2 n := by
          apply mul_le_mul_of_nonneg_right _ h2.le
          rw [div_le_one h3]
          exact hd2q
      _ ≤ n := by rw [one_mul]; exact hn1q
  · -- one more
    have hfs : 2 ^ 53 ≤ floorScaled n d ((floorLog2 n : Int) - (floorLog2 d : Int) - 53) := by
      omega
    unfold floorScaled at hfs
    set e0 : Int := (floorLog2 n : Int) - (floorLog2 d : Int) - 53 with he0
    have hD : 0 < d * 2 ^ e0.toNat := by positivity
    have hmul := (Nat.le_div_iff_mul_le hD).mp hfs
    have hmulq : ((2 : ℚ) ^ 53) * ((d * 2 ^ e0.toNat : Nat) : ℚ) ≤
        ((n * 2 ^ (-e0).toNat : Nat) : ℚ) := by exact_mod_cast hmul
    have hDq : (0 : ℚ) < ((d * 2 ^ e0.toNat : Nat) : ℚ) := by exact_mod_cast hD
    have hs : (2 : ℚ) ^ 53 ≤ (n : ℚ) / d / (2 : ℚ) ^ e0 := by
      rw [← scaled_cast n d hd e0, le_div_iff₀ hDq]
      exact hmulq
    rw [zpow_add₀ (by norm_num), zpow_one, ← div_div]
    have : (2 : ℚ) ^ 52 = (2 : ℚ) ^ 53 / 2 := by norm_num
    rw [this]
    exact div_le_div_of_nonneg_right hs (by norm_num)

theorem toRat_round_eq (n d : Nat) (hn : 1 ≤ n) :
    (round n d).toRat =
      (nearestEven (n * 2 ^ (-(roundExp n d)).toNat) (d * 2 ^ (roundExp n d).toNat) : ℚ) *
        (2 : ℚ) ^ (roundExp n d) := by
  rw [round_eq n d (by omega)]
  split_ifs with h
  · simp only [toRat, h]
    rw [zpow_add₀ (by norm_num), zpow_one]
    push_cast
    ring
  · rfl

theorem toRat_round_zero (d : Nat) : (round 0 d).toRat = 0 := by
  simp [round, toRat]

/-- The number `round n d` is within the relative error `2 ^ (-53)` of `n / d`. -/
theorem round_error (n d : Nat) (hn : 1 ≤ n) (hd : 1 ≤ d) :
    |(round n d).toRat - (n : ℚ) / d| ≤ (n : ℚ) / d / 2 ^ 53 := by
  have hspec := roundExp_spec n d hn hd
  have hD : 0 < d * 2 ^ (roundExp n d).toNat := by positivity
  have hne := (nearestEven_spec (n * 2 ^ (-(roundExp n d)).toNat)
    (d * 2 ^ (roundExp n d).toNat) hD).1
  rw [scaled_cast n d hd] at hne
  rw [toRat_round_eq n d hn]
  set m : ℚ := (nearestEven (n * 2 ^ (-(roundExp n d)).toNat)
    (d * 2 ^ (roundExp n d).toNat) : ℚ)
  set p : ℚ := (2 : ℚ) ^ (roundExp n d) with hp
  have hp0 : 0 < p := by positivity
  set x : ℚ := (n : ℚ) / d
  have hx : x = x / p * p := by field_simp
  have h1 : m * p - x = (m - x / p) * p := by
    rw [sub_mul]
    congr 1
  rw [h1, abs_mul, abs_of_pos hp0]
  have h2 : |m - x / p| * p ≤ 1 / 2 * p := mul_le_mul_of_nonneg_right hne hp0.le
  have h3 : (2 : ℚ) ^ 52 * p ≤ x := by
    rw [← le_div_iff₀ hp0]; exact hspec
  have h4 : x / 2 ^ 53 ≥ 1 / 2 * p := by
    rw [ge_iff_le, le_div_iff₀ (by positivity)]
    linarith
  linarith

/-- A value with at most 53 significant bits is its own rounding. -/
theorem round_exact (n d : Nat) (hn : 1 ≤ n) (hd : 1 ≤ d) (M : Nat) (E : Int)
    (hM : M < 2 ^ 53) (hx : (n : ℚ) / d = (M : ℚ) * (2 : ℚ) ^ E) :
    (round n d).toRat = (n : ℚ) / d := by
  have hspec := roundExp_spec n d hn hd
  have hD : 0 < d * 2 ^ (roundExp n d).toNat := by positivity
  have hDq : (0 : ℚ) < ((d * 2 ^ (roundExp n d).toNat : Nat) : ℚ) := by exact_mod_cast hD
  set e := roundExp n d with he
  have hp0 : (0 : ℚ) < (2 : ℚ) ^ e := by positivity
  -- the exponent of the value is not below the chosen one
  have hEe : e ≤ E := by
    by_contra hlt
    have hlt' : E - e ≤ -1 := by omega
    have hs : (n : ℚ) / d / (2 : ℚ) ^ e = (M : ℚ) * (2 : ℚ) ^ (E - e) := by
      rw [hx, zpow_sub₀ (by norm_num)]
      ring
    have hle : (2 : ℚ) ^ (E - e) ≤ (2 : ℚ) ^ (-1 : Int) :=
      zpow_le_zpow_right₀ (by norm_num) hlt'
    have hMq : (M : ℚ) < 2 ^ 53 := by exact_mod_cast hM
    have hM0 : (0 : ℚ) ≤ M := by positivity
    have : (M : ℚ) * (2 : ℚ) ^ (E - e) ≤ (M : ℚ) * (2 : ℚ) ^ (-1 : Int) :=
      mul_le_mul_of_nonneg_left hle hM0
    rw [hs] at hspec
    norm_num at this hspec
    linarith
  -- so the scaled value is a natural number
  have hK : (n : ℚ) / d / (2 : ℚ) ^ e = ((M * 2 ^ (E - e).toNat : Nat) : ℚ) := by
    rw [hx, Nat.cast_mul, Nat.cast_pow, Nat.cast_ofNat, ← zpow_natCast,
      Int.toNat_of_nonneg (by omega), zpow_sub₀ (by norm_num)]
    ring
  have hmod : (n * 2 ^ (-e).toNat) % (d * 2 ^ e.toNat) = 0 := by
    have h1 := scaled_cast n d hd e
    rw [hK, div_eq_iff (ne_of_gt hDq)] at h1
    have h2 : n * 2 ^ (-e).toNat = M * 2 ^ (E - e).toNat * (d * 2 ^ e.toNat) := by
      exact_mod_cast h1
    rw [h2]
    exact Nat.mul_mod_left _ _
  have hne := (nearestEven_spec (n * 2 ^ (-e).toNat) (d * 2 ^ e.toNat) hD).2 hmod
  rw [toRat_round_eq n d hn, ← he, hne, scaled_cast n d hd]
  field_simp
  ring

theorem roundExp_upper (n d : Nat) (hn : 1 ≤ n) (hd : 1 ≤ d) :
    (n : ℚ) / d / (2 : ℚ) ^ (roundExp n d) < (2 : ℚ) ^ 53 := by
  have hdq : (0 : ℚ) < d := by exact_mod_cast hd
  obtain ⟨_, hn2⟩ := floorLog2_spec n hn
  obtain ⟨hd1, _⟩ := floorLog2_spec d hd
  have hn2q : (n : ℚ) < (2 : ℚ) ^ (floorLog2 n + 1) := by exact_mod_cast hn2
  have hd1q : (2 : ℚ) ^ floorLog2 d ≤ d := by exact_mod_cast hd1
  unfold roundExp
  simp only []
  split_ifs with h
  · unfold floorScaled at h
    set e0 : Int := (floorLog2 n : Int) - (floorLog2 d : Int) - 53 with he0
    have hD : 0 < d * 2 ^ e0.toNat := by positivity
    have hmul := (Nat.div_lt_iff_lt_mul hD).mp h
    have hmulq : ((n * 2 ^ (-e0).toNat : Nat) : ℚ) <
        ((2 : ℚ) ^ 53) * ((d * 2 ^ e0.toNat : Nat) : ℚ) := by exact_mod_cast hmul
    have hDq : (0 : ℚ) < ((d * 2 ^ e0.toNat : Nat) : ℚ) := by exact_mod_cast hD
    rw [← scaled_cast n d hd e0, div_lt_iff₀ hDq]
    exact hmulq
  · have he : (2 : ℚ) ^ ((floorLog2 n : Int) - (floorLog2 d : Int) - 53 + 1) =
        (2 : ℚ) ^ (floorLog2 n + 1) / ((2 : ℚ) ^ floorLog2 d * 2 ^ 53) := by
      have h1 : ((floorLog2 n : Int) - (floorLog2 d : Int) - 53 + 1) =
          ((floorLog2 n + 1 : Nat) : Int) - ((floorLog2 d + 53 : Nat) : Int) := by
        push_cast
        ring
      rw [h1, zpow_sub₀ (by norm_num), zpow_natCast, zpow_natCast, pow_add (2 : ℚ) (floorLog2 d) 53]
    rw [he, div_div, div_lt_iff₀ (by positivity)]
    have h2 : (0 : ℚ) < (2 : ℚ) ^ floorLog2 d := by positivity
    have h3 : (0 : ℚ) < (2 : ℚ) ^ (floorLog2 n + 1) := by positivity
    calc (n : ℚ) < (2 : ℚ) ^ (floorLog2 n + 1) := hn2q
      _ = (2 : ℚ) ^ 53 * ((2 : ℚ) ^ floorLog2 d *
            ((2 : ℚ) ^ (floorLog2 n + 1) / ((2 : ℚ) ^ floorLog2 d * 2 ^ 53))) := by
          field_simp
          ring
      _ ≤ (2 : ℚ) ^ 53 * (d *
            ((2 : ℚ) ^ (floorLog2 n + 1) / ((2 : ℚ) ^ floorLog2 d * 2 ^ 53))) := by
          apply mul_le_mul_of_nonneg_left _ (by positivity)
          apply mul_le_mul_of_nonneg_right hd1q (by positivity)

/-- The significand that `round` finds, before a carry. -/
theorem nearestEven_bounds (n d : Nat) (hn : 1 ≤ n) (hd : 1 ≤ d) :
    2 ^ 52 ≤ nearestEven (n * 2 ^ (-(roundExp n d)).toNat) (d * 2 ^ (roundExp n d).toNat) ∧
      nearestEven (n * 2 ^ (-(roundExp n d)).toNat) (d * 2 ^ (roundExp n d).toNat) ≤ 2 ^ 53 := by
  have hlo := roundExp_spec n d hn hd
  have hhi := roundExp_upper n d hn hd
  have hD : 0 < d * 2 ^ (roundExp n d).toNat := by positivity
  have hne := (nearestEven_spec (n * 2 ^ (-(roundExp n d)).toNat)
    (d * 2 ^ (roundExp n d).toNat) hD).1
  rw [scaled_cast n d hd, abs_le] at hne
  set m := nearestEven (n * 2 ^ (-(roundExp n d)).toNat) (d * 2 ^ (roundExp n d).toNat)
  constructor
  · have h1 : ((2 ^ 52 : Nat) : ℚ) - 1 < (m : ℚ) := by
      push_cast
      linarith [hne.1]
    have h2 : ((2 ^ 52 - 1 : Nat) : ℚ) < (m : ℚ) := by
      have : ((2 ^ 52 - 1 : Nat) : ℚ) = ((2 ^ 52 : Nat) : ℚ) - 1 := by norm_num
      rw [this]
      exact h1
    have h3 : 2 ^ 52 - 1 < m := by exact_mod_cast h2
    omega
  · have h1 : (m : ℚ) < ((2 ^ 53 : Nat) : ℚ) + 1 := by
      push_cast
      linarith [hne.2]
    have h2 : (m : ℚ) < ((2 ^ 53 + 1 : Nat) : ℚ) := by
      have : ((2 ^ 53 + 1 : Nat) : ℚ) = ((2 ^ 53 : Nat) : ℚ) + 1 := by norm_num
      rw [this]
      exact h1
    have h3 : m < 2 ^ 53 + 1 := by exact_mod_cast h2
    omega

theorem isNormal_pos (q : ℚ) (h : IsNormal q) : 0 < q := by
  obtain ⟨m, e, h1, _, rfl⟩ := h
  have : (0 : ℚ) < m := by
    have : 0 < m := by omega
    exact_mod_cast this
  positivity

theorem round_isNormal (n d : Nat) (hn : 1 ≤ n) (hd : 1 ≤ d) :
    IsNormal (round n d).toRat := by
  obtain ⟨hlo, hhi⟩ := nearestEven_bounds n d hn hd
  rw [round_eq n d (by omega)]
  split_ifs with h
  · exact ⟨2 ^ 52, roundExp n d + 1, le_refl _, by norm_num, rfl⟩
  · exact ⟨_, roundExp n d, hlo, by omega, rfl⟩

/-- The error of `round` against the result. -/
theorem round_error_result (n d : Nat) (hn : 1 ≤ n) (hd : 1 ≤ d) :
    |(round n d).toRat - (n : ℚ) / d| ≤ (round n d).toRat / 2 ^ 53 := by
  obtain ⟨hlo, _⟩ := nearestEven_bounds n d hn hd
  have hD : 0 < d * 2 ^ (roundExp n d).toNat := by positivity
  have hne := (nearestEven_spec (n * 2 ^ (-(roundExp n d)).toNat)
    (d * 2 ^ (roundExp n d).toNat) hD).1
  rw [scaled_cast n d hd] at hne
  rw [toRat_round_eq n d hn]
  have hloq : ((2 ^ 52 : Nat) : ℚ) ≤ (nearestEven (n * 2 ^ (-(roundExp n d)).toNat)
    (d * 2 ^ (roundExp n d).toNat) : ℚ) := by exact_mod_cast hlo
  set m : ℚ := (nearestEven (n * 2 ^ (-(roundExp n d)).toNat)
    (d * 2 ^ (roundExp n d).toNat) : ℚ)
  set p : ℚ := (2 : ℚ) ^ (roundExp n d) with hp
  have hp0 : 0 < p := by positivity
  set x : ℚ := (n : ℚ) / d
  have h1 : m * p - x = (m - x / p) * p := by
    rw [sub_mul]
    congr 1
    field_simp
  rw [h1, abs_mul, abs_of_pos hp0]
  have h2 : |m - x / p| * p ≤ 1 / 2 * p := mul_le_mul_of_nonneg_right hne hp0.le
  have h3 : (2 : ℚ) ^ 52 * p ≤ m * p := by
    apply mul_le_mul_of_nonneg_right _ hp0.le
    push_cast at hloq
    exact hloq
  have h4 : 1 / 2 * p ≤ m * p / 2 ^ 53 := by
    rw [le_div_iff₀ (by positivity)]
    linarith
  linarith

/-- A binary64 number is its own rounding. -/
theorem round_of_isNormal (n d : Nat) (hn : 1 ≤ n) (hd : 1 ≤ d)
    (h : IsNormal ((n : ℚ) / d)) : (round n d).toRat = (n : ℚ) / d := by
  obtain ⟨m, e, _, h2, h3⟩ := h
  exact round_exact n d hn hd m e h2 h3

theorem round_rounds (n d : Nat) (hn : 1 ≤ n) (hd : 1 ≤ d) :
    Rounds ((n : ℚ) / d) (round n d).toRat :=
  ⟨round_isNormal n d hn hd, round_error n d hn hd, round_error_result n d hn hd,
    round_of_isNormal n d hn hd⟩

/-- A positive value of at most 53 significant bits is a binary64 number. -/
theorem isNormal_of_nat (M : Nat) (E : Int) (h1 : 1 ≤ M) (h2 : M < 2 ^ 53) :
    IsNormal ((M : ℚ) * (2 : ℚ) ^ E) := by
  obtain ⟨hl, hu⟩ := floorLog2_spec M h1
  have hl52 : floorLog2 M ≤ 52 := by
    by_contra hc
    have : 2 ^ 53 ≤ 2 ^ floorLog2 M := Nat.pow_le_pow_right (by norm_num) (by omega)
    omega
  refine ⟨M * 2 ^ (52 - floorLog2 M), E - ((52 - floorLog2 M : Nat) : Int), ?_, ?_, ?_⟩
  · calc 2 ^ 52 = 2 ^ floorLog2 M * 2 ^ (52 - floorLog2 M) := by
          rw [← pow_add]
          congr 1
          omega
      _ ≤ M * 2 ^ (52 - floorLog2 M) := Nat.mul_le_mul_right _ hl
  · calc M * 2 ^ (52 - floorLog2 M) < 2 ^ (floorLog2 M + 1) * 2 ^ (52 - floorLog2 M) :=
          Nat.mul_lt_mul_of_pos_right hu (by positivity)
      _ = 2 ^ 53 := by
          rw [← pow_add]
          congr 1
          omega
  · rw [zpow_sub₀ (by norm_num), zpow_natCast]
    push_cast
    field_simp
    ring

/-- Two binary64 numbers differ by a unit in the last place at least. -/
theorem isNormal_gap (v u : ℚ) (hv : IsNormal v) (hu : IsNormal u) (h : v < u) :
    v ≤ u * (1 - 1 / 2 ^ 53) := by
  obtain ⟨m1, e1, a1, b1, rfl⟩ := hv
  obtain ⟨m2, e2, a2, b2, rfl⟩ := hu
  have a1q : ((2 : ℚ) ^ 52) ≤ m1 := by exact_mod_cast a1
  have a2q : ((2 : ℚ) ^ 52) ≤ m2 := by exact_mod_cast a2
  have b2q : (m2 : ℚ) ≤ 2 ^ 53 := by exact_mod_cast b2.le
  have p2 : (0 : ℚ) < (2 : ℚ) ^ e2 := by positivity
  rcases lt_trichotomy e1 e2 with he | he | he
  · -- a lower exponent
    have b1' : m1 + 1 ≤ 2 ^ 53 := by omega
    have b1q : (m1 : ℚ) + 1 ≤ 2 ^ 53 := by exact_mod_cast b1'
    have hp : (2 : ℚ) ^ e1 ≤ (2 : ℚ) ^ (e2 - 1) :=
      zpow_le_zpow_right₀ (by norm_num) (by omega)
    have hp' : (2 : ℚ) ^ (e2 - 1) = (2 : ℚ) ^ e2 / 2 := by
      rw [zpow_sub₀ (by norm_num), zpow_one]
    rw [hp'] at hp
    have h1 : (m1 : ℚ) * (2 : ℚ) ^ e1 ≤ (2 ^ 53 - 1) * ((2 : ℚ) ^ e2 / 2) := by
      apply mul_le_mul (by linarith) hp (by positivity) (by norm_num)
    have h2 : ((2 : ℚ) ^ 53 - 1) * ((2 : ℚ) ^ e2 / 2) ≤
        (m2 : ℚ) * (2 : ℚ) ^ e2 * (1 - 1 / 2 ^ 53) := by
      have : ((2 : ℚ) ^ 53 - 1) * ((2 : ℚ) ^ e2 / 2) =
          (2 : ℚ) ^ 52 * (2 : ℚ) ^ e2 * (1 - 1 / 2 ^ 53) := by
        norm_num
        ring
      rw [this]
      apply mul_le_mul_of_nonneg_right _ (by norm_num)
      exact mul_le_mul_of_nonneg_right a2q p2.le
    linarith
  · -- the same exponent
    subst he
    have hm : (m1 : ℚ) < m2 := lt_of_mul_lt_mul_right h p2.le
    have hm' : m1 + 1 ≤ m2 := by
      have : m1 < m2 := by exact_mod_cast hm
      omega
    have hmq : (m1 : ℚ) + 1 ≤ m2 := by exact_mod_cast hm'
    have h1 : (m1 : ℚ) ≤ (m2 : ℚ) * (1 - 1 / 2 ^ 53) := by
      have : (m2 : ℚ) * (1 - 1 / 2 ^ 53) = m2 - m2 / 2 ^ 53 := by ring
      rw [this]
      have : (m2 : ℚ) / 2 ^ 53 ≤ 1 := by
        rw [div_le_one (by positivity)]
        exact b2q
      linarith
    calc (m1 : ℚ) * (2 : ℚ) ^ e1 ≤ (m2 : ℚ) * (1 - 1 / 2 ^ 53) * (2 : ℚ) ^ e1 :=
          mul_le_mul_of_nonneg_right h1 p2.le
      _ = (m2 : ℚ) * (2 : ℚ) ^ e1 * (1 - 1 / 2 ^ 53) := by ring
  · -- a higher exponent is a greater number
    exfalso
    have hp : (2 : ℚ) ^ (e2 + 1) ≤ (2 : ℚ) ^ e1 :=
      zpow_le_zpow_right₀ (by norm_num) (by omega)
    have hp' : (2 : ℚ) ^ (e2 + 1) = (2 : ℚ) ^ e2 * 2 := by
      rw [zpow_add₀ (by norm_num), zpow_one]
    rw [hp'] at hp
    have h1 : (2 : ℚ) ^ 52 * ((2 : ℚ) ^ e2 * 2) ≤ (m1 : ℚ) * (2 : ℚ) ^ e1 :=
      mul_le_mul a1q hp (by positivity) (by positivity)
    have h2 : (m2 : ℚ) * (2 : ℚ) ^ e2 ≤ (2 : ℚ) ^ 53 * (2 : ℚ) ^ e2 :=
      mul_le_mul_of_nonneg_right b2q p2.le
    have h3 : (m2 : ℚ) * (2 : ℚ) ^ e2 < (2 : ℚ) ^ 53 * (2 : ℚ) ^ e2 := by
      have : (m2 : ℚ) < 2 ^ 53 := by exact_mod_cast b2
      exact mul_lt_mul_of_pos_right this p2
    have h4 : (2 : ℚ) ^ 52 * ((2 : ℚ) ^ e2 * 2) = (2 : ℚ) ^ 53 * (2 : ℚ) ^ e2 := by
      norm_num
      ring
    linarith

/-- A rounding is not below a binary64 number that the value is not below. -/
theorem rounds_ge (q v u : ℚ) (h : Rounds q v) (hu : IsNormal u) (hq : u ≤ q) : u ≤ v := by
  obtain ⟨hn, e1, _, hx⟩ := h
  by_contra hlt
  push_neg at hlt
  have hg := isNormal_gap v u hn hu hlt
  have hu0 := isNormal_pos u hu
  rw [abs_le] at e1
  rcases eq_or_lt_of_le hq with heq | hlt'
  · rw [← heq] at hx
    have := hx hu
    rw [this] at hlt
    exact lt_irrefl _ hlt
  · have h1 : u * (1 - 1 / 2 ^ 53) < q * (1 - 1 / 2 ^ 53) :=
      mul_lt_mul_of_pos_right hlt' (by norm_num)
    have h2 : q * (1 - 1 / 2 ^ 53) = q - q / 2 ^ 53 := by ring
    linarith [e1.1]

/-- A rounding is not above a binary64 number that the value is not above. -/
theorem rounds_le (q v u : ℚ) (h : Rounds q v) (hu : IsNormal u) (hq : q ≤ u) : v ≤ u := by
  obtain ⟨hn, _, e2, hx⟩ := h
  by_contra hlt
  push_neg at hlt
  have hg := isNormal_gap u v hu hn hlt
  have hv0 := isNormal_pos v hn
  rw [abs_le] at e2
  have h2 : v * (1 - 1 / 2 ^ 53) = v - v / 2 ^ 53 := by ring
  have h3 : u ≤ q := by linarith [e2.2]
  have heq : q = u := le_antisymm hq h3
  rw [heq] at hx
  have := hx hu
  rw [this] at hlt
  exact lt_irrefl _ hlt

/-- A rounding stays below a bound that the value is below by the rounding
error. -/
theorem rounds_lt (q v u : ℚ) (h : Rounds q v) (hq : q * (1 + 1 / 2 ^ 53) < u) : v < u := by
  obtain ⟨_, e1, _, _⟩ := h
  rw [abs_le] at e1
  have h2 : q * (1 + 1 / 2 ^ 53) = q + q / 2 ^ 53 := by ring
  linarith [e1.2]

/-- A rounding stays above a positive bound that the value is above by the
rounding error. -/
theorem rounds_gt (q v u : ℚ) (h : Rounds q v) (hu : 0 < u)
    (hq : u ≤ q * (1 - 1 / 2 ^ 53)) : u < v := by
  obtain ⟨_, _, e2, _⟩ := h
  by_contra hle
  push_neg at hle
  rw [abs_le] at e2
  have h1 : q ≤ v + v / 2 ^ 53 := by linarith [e2.1]
  have h2 : q ≤ u + u / 2 ^ 53 := by
    have : v / 2 ^ 53 ≤ u / 2 ^ 53 := div_le_div_of_nonneg_right hle (by positivity)
    linarith
  have h3 : q * (1 - 1 / 2 ^ 53) ≤ (u + u / 2 ^ 53) * (1 - 1 / 2 ^ 53) :=
    mul_le_mul_of_nonneg_right h2 (by norm_num)
  have h4 : (u + u / 2 ^ 53) * (1 - 1 / 2 ^ 53) = u - u / 2 ^ 53 / 2 ^ 53 := by ring
  have h5 : 0 < u / 2 ^ 53 / 2 ^ 53 := by positivity
  linarith

theorem pos_of_isNormal_mul (u c : ℚ) (hc : 0 < c) (hu : IsNormal (u * c)) : 0 < u := by
  have h := isNormal_pos _ hu
  by_contra hn
  push_neg at hn
  nlinarith

/-- A rounding of a quotient by a constant stays below a bound that the
dividend, a binary64 number, is below. -/
theorem rounds_div_lt (v w u c : ℚ) (hc : 0 < c) (hv : IsNormal v) (hu : IsNormal (u * c))
    (h : Rounds (v / c) w) (hlt : v < u * c) : w < u := by
  have hg := isNormal_gap v (u * c) hv hu hlt
  have hu0 := pos_of_isNormal_mul u c hc hu
  apply rounds_lt _ _ _ h
  have h1 : v / c ≤ u * (1 - 1 / 2 ^ 53) := by
    rw [div_le_iff₀ hc]
    calc v ≤ u * c * (1 - 1 / 2 ^ 53) := hg
      _ = u * (1 - 1 / 2 ^ 53) * c := by ring
  have h2 : v / c * (1 + 1 / 2 ^ 53) ≤ u * (1 - 1 / 2 ^ 53) * (1 + 1 / 2 ^ 53) :=
    mul_le_mul_of_nonneg_right h1 (by norm_num)
  have h3 : u * (1 - 1 / 2 ^ 53) * (1 + 1 / 2 ^ 53) = u - u / 2 ^ 53 / 2 ^ 53 := by ring
  have h4 : 0 < u / 2 ^ 53 / 2 ^ 53 := by positivity
  linarith

/-- A rounding of a quotient by a constant stays above a bound that the
dividend, a binary64 number, is above. -/
theorem rounds_div_gt (v w u c : ℚ) (hc : 0 < c) (hv : IsNormal v) (hu : IsNormal (u * c))
    (h : Rounds (v / c) w) (hlt : u * c < v) : u < w := by
  have hg := isNormal_gap (u * c) v hu hv hlt
  have hu0 := pos_of_isNormal_mul u c hc hu
  apply rounds_gt _ _ _ h hu0
  have h1 : v / c * (1 - 1 / 2 ^ 53) = v * (1 - 1 / 2 ^ 53) / c := by ring
  rw [h1, le_div_iff₀ hc]
  exact hg

/-- A rounding of a quotient by a constant is not below a bound that the
dividend is not below. -/
theorem rounds_div_ge (v w u c : ℚ) (hc : 0 < c) (hu : IsNormal u)
    (h : Rounds (v / c) w) (hle : u * c ≤ v) : u ≤ w := by
  apply rounds_ge _ _ _ h hu
  rw [le_div_iff₀ hc]
  exact hle

/-- A rounding of a quotient by a constant is not above a bound that the
dividend is not above. -/
theorem rounds_div_le (v w u c : ℚ) (hc : 0 < c) (hu : IsNormal u)
    (h : Rounds (v / c) w) (hle : v ≤ u * c) : w ≤ u := by
  apply rounds_le _ _ _ h hu
  rw [div_le_iff₀ hc]
  exact hle

/-- The three roundings of `T / N / 1000 / 60` keep the side of every half of an
integer on which the exact quotient lies, for a dividend below `2 ^ 53`. -/
theorem chain_bounds (T N J : Nat) (hT0 : 1 ≤ T) (hT : T < 2 ^ 53) (hN : 1 ≤ N)
    (hJ0 : 1 ≤ J) (hJ : 1875 * J < 2 ^ 53) (v1 v2 v3 : ℚ)
    (r1 : Rounds ((T : ℚ) / N) v1) (r2 : Rounds (v1 / 1000) v2) (r3 : Rounds (v2 / 60) v3) :
    ((J : ℚ) / 2 ≤ (T : ℚ) / N / 1000 / 60 → (J : ℚ) / 2 ≤ v3) ∧
      ((T : ℚ) / N / 1000 / 60 ≤ (J : ℚ) / 2 → v3 ≤ (J : ℚ) / 2) ∧
      ((T : ℚ) / N / 1000 / 60 < (J : ℚ) / 2 → v3 < (J : ℚ) / 2) ∧
      ((J : ℚ) / 2 < (T : ℚ) / N / 1000 / 60 → (J : ℚ) / 2 < v3) := by
  have hNq : (0 : ℚ) < N := by exact_mod_cast hN
  have hTq : (T : ℚ) < 2 ^ 53 := by exact_mod_cast hT
  have hT0q : (0 : ℚ) < T := by exact_mod_cast hT0
  -- the three bounds are binary64 numbers
  have n3 : IsNormal ((J : ℚ) / 2) := by
    have := isNormal_of_nat J (-1) hJ0 (by omega)
    have e : (J : ℚ) * (2 : ℚ) ^ (-1 : Int) = (J : ℚ) / 2 := by
      rw [zpow_neg, zpow_one]
      rfl
    rw [e] at this
    exact this
  have n2 : IsNormal ((J : ℚ) / 2 * 60) := by
    have := isNormal_of_nat (15 * J) 1 (by omega) (by omega)
    have e : ((15 * J : Nat) : ℚ) * (2 : ℚ) ^ (1 : Int) = (J : ℚ) / 2 * 60 := by
      push_cast
      rw [zpow_one]
      ring
    rw [e] at this
    exact this
  have n1 : IsNormal ((J : ℚ) / 2 * 60 * 1000) := by
    have := isNormal_of_nat (1875 * J) 4 (by omega) hJ
    have e : ((1875 * J : Nat) : ℚ) * (2 : ℚ) ^ (4 : Int) = (J : ℚ) / 2 * 60 * 1000 := by
      push_cast
      norm_num
      ring
    rw [e] at this
    exact this
  have hY : (T : ℚ) / N / 1000 / 60 = (T : ℚ) / N / 60000 := by
    rw [div_div, div_div, div_div]
    norm_num
  have hU : (J : ℚ) / 2 * 60 * 1000 = 30000 * J := by ring
  refine ⟨?_, ?_, ?_, ?_⟩
  · intro h
    have h1 : (J : ℚ) / 2 * 60 * 1000 ≤ (T : ℚ) / N := by
      rw [hY, le_div_iff₀ (by norm_num)] at h
      linarith
    have a1 := rounds_ge _ _ _ r1 n1 h1
    have a2 := rounds_div_ge v1 v2 _ 1000 (by norm_num) n2 r2 a1
    exact rounds_div_ge v2 v3 _ 60 (by norm_num) n3 r3 a2
  · intro h
    have h1 : (T : ℚ) / N ≤ (J : ℚ) / 2 * 60 * 1000 := by
      rw [hY, div_le_iff₀ (by norm_num)] at h
      linarith
    have a1 := rounds_le _ _ _ r1 n1 h1
    have a2 := rounds_div_le v1 v2 _ 1000 (by norm_num) n2 r2 a1
    exact rounds_div_le v2 v3 _ 60 (by norm_num) n3 r3 a2
  · intro h
    have h1 : (T : ℚ) / N < 30000 * J := by
      rw [hY, div_lt_iff₀ (by norm_num)] at h
      linarith
    -- the dividend is an integer below the bound
    have h2 : (T : ℚ) < ((30000 * J * N : Nat) : ℚ) := by
      rw [div_lt_iff₀ hNq] at h1
      push_cast
      exact h1
    have h3 : T + 1 ≤ 30000 * J * N := by
      have : T < 30000 * J * N := by exact_mod_cast h2
      omega
    have h3q : (T : ℚ) + 1 ≤ 30000 * J * N := by exact_mod_cast h3
    have h4 : (T : ℚ) / N * (1 + 1 / 2 ^ 53) < (J : ℚ) / 2 * 60 * 1000 := by
      rw [hU]
      have e : (T : ℚ) / N * (1 + 1 / 2 ^ 53) = ((T : ℚ) + T / 2 ^ 53) / N := by ring
      rw [e, div_lt_iff₀ hNq]
      have : (T : ℚ) / 2 ^ 53 < 1 := by
        rw [div_lt_one (by positivity)]
        exact hTq
      linarith
    have a1 := rounds_lt _ _ _ r1 h4
    have a2 := rounds_div_lt v1 v2 _ 1000 (by norm_num) r1.1 n1 r2 a1
    exact rounds_div_lt v2 v3 _ 60 (by norm_num) r2.1 n2 r3 a2
  · intro h
    have h1 : 30000 * (J : ℚ) < (T : ℚ) / N := by
      rw [hY, lt_div_iff₀ (by norm_num)] at h
      linarith
    have h2 : ((30000 * J * N : Nat) : ℚ) < (T : ℚ) := by
      rw [lt_div_iff₀ hNq] at h1
      push_cast
      exact h1
    have h3 : 30000 * J * N + 1 ≤ T := by
      have : 30000 * J * N < T := by exact_mod_cast h2
      omega
    have h3q : 30000 * (J : ℚ) * N + 1 ≤ T := by exact_mod_cast h3
    have h4 : (J : ℚ) / 2 * 60 * 1000 ≤ (T : ℚ) / N * (1 - 1 / 2 ^ 53) := by
      rw [hU]
      have e : (T : ℚ) / N * (1 - 1 / 2 ^ 53) = ((T : ℚ) - T / 2 ^ 53) / N := by ring
      rw [e, le_div_iff₀ hNq]
      have : (T : ℚ) / 2 ^ 53 < 1 := by
        rw [div_lt_one (by positivity)]
        exact hTq
      linarith
    have a1 := rounds_gt _ _ _ r1 (isNormal_pos _ n1) h4
    have a2 := rounds_div_gt v1 v2 _ 1000 (by norm_num) r1.1 n1 r2 a1
    exact rounds_div_gt v2 v3 _ 60 (by norm_num) r2.1 n2 r3 a2

/-- The three roundings of `A / N / 1000 / 60` round half up to the same integer
as the exact quotient, and so do their negations, for `A` below `2 ^ 53`. -/
theorem chain_floor (A N : Nat) (hA0 : 1 ≤ A) (hA : A < 2 ^ 53) (hN : 1 ≤ N)
    (v1 v2 v3 : ℚ) (r1 : Rounds ((A : ℚ) / N) v1) (r2 : Rounds (v1 / 1000) v2)
    (r3 : Rounds (v2 / 60) v3) :
    ⌊v3 + 1 / 2⌋ = ⌊(A : ℚ) / N / 1000 / 60 + 1 / 2⌋ ∧
      ⌊-v3 + 1 / 2⌋ = ⌊-((A : ℚ) / N / 1000 / 60) + 1 / 2⌋ := by
  have hNq : (1 : ℚ) ≤ N := by exact_mod_cast hN
  have hAq : (A : ℚ) < 2 ^ 53 := by exact_mod_cast hA
  have hA0q : (0 : ℚ) < A := by exact_mod_cast hA0
  have hv3 := isNormal_pos _ r3.1
  set Y : ℚ := (A : ℚ) / N / 1000 / 60 with hYdef
  have hY0 : 0 < Y := by positivity
  have hYle : Y ≤ 2 ^ 53 / 60000 := by
    have h1 : (A : ℚ) / N ≤ A := div_le_self hA0q.le hNq
    have h2 : Y = (A : ℚ) / N / 60000 := by
      rw [hYdef, div_div, div_div, div_div]
      norm_num
    rw [h2]
    apply div_le_div_of_nonneg_right _ (by norm_num)
    linarith
  have bounds := fun J h0 h => chain_bounds A N J hA0 hA hN h0 h v1 v2 v3 r1 r2 r3
  constructor
  · -- the total is positive
    obtain ⟨hK1, hK2⟩ := Int.floor_eq_iff.mp (rfl : ⌊Y + 1 / 2⌋ = ⌊Y + 1 / 2⌋)
    have hK0 : 0 ≤ ⌊Y + 1 / 2⌋ := Int.floor_nonneg.mpr (by linarith)
    obtain ⟨L, hL⟩ := Int.eq_ofNat_of_zero_le hK0
    rw [hL] at hK1 hK2 ⊢
    have hK1' : (L : ℚ) ≤ Y + 1 / 2 := by exact_mod_cast hK1
    have hK2' : Y + 1 / 2 < (L : ℚ) + 1 := by exact_mod_cast hK2
    have hLb : L < 2 ^ 38 := by
      have hnum : (2 : ℚ) ^ 53 / 60000 + 1 / 2 < 2 ^ 38 := by norm_num
      have h : (L : ℚ) < 2 ^ 38 := by linarith
      have : (L : ℚ) < ((2 ^ 38 : Nat) : ℚ) := by
        push_cast
        exact h
      exact_mod_cast this
    rw [Int.floor_eq_iff]
    constructor
    · rcases Nat.eq_zero_or_pos L with h0 | hpos
      · subst h0
        push_cast
        linarith
      · have h := (bounds (2 * L - 1) (by omega) (by omega)).1
        have e : ((2 * L - 1 : Nat) : ℚ) / 2 = (L : ℚ) - 1 / 2 := by
          have : ((2 * L - 1 : Nat) : ℚ) = 2 * (L : ℚ) - 1 := by
            rw [Nat.cast_sub (by omega)]
            push_cast
            ring
          rw [this]
          ring
        rw [e] at h
        have := h (by linarith)
        push_cast
        linarith
    · have h := (bounds (2 * L + 1) (by omega) (by omega)).2.2.1
      have e : ((2 * L + 1 : Nat) : ℚ) / 2 = (L : ℚ) + 1 / 2 := by
        push_cast
        ring
      rw [e] at h
      have := h (by linarith)
      push_cast
      linarith
  · -- the total is negative
    obtain ⟨hK1, hK2⟩ := Int.floor_eq_iff.mp (rfl : ⌊-Y + 1 / 2⌋ = ⌊-Y + 1 / 2⌋)
    have hK0 : ⌊-Y + 1 / 2⌋ ≤ 0 := by
      have : ⌊-Y + 1 / 2⌋ < 1 := Int.floor_lt.mpr (by push_cast; linarith)
      omega
    obtain ⟨L, hL⟩ := Int.eq_ofNat_of_zero_le (by omega : 0 ≤ -⌊-Y + 1 / 2⌋)
    have hL' : ⌊-Y + 1 / 2⌋ = -(L : Int) := by omega
    rw [hL'] at hK1 hK2 ⊢
    have hK1' : -(L : ℚ) ≤ -Y + 1 / 2 := by exact_mod_cast hK1
    have hK2' : -Y + 1 / 2 < -(L : ℚ) + 1 := by exact_mod_cast hK2
    have hLb : L < 2 ^ 38 := by
      have hnum : (2 : ℚ) ^ 53 / 60000 + 1 / 2 < 2 ^ 38 := by norm_num
      have h : (L : ℚ) < 2 ^ 38 := by linarith
      have : (L : ℚ) < ((2 ^ 38 : Nat) : ℚ) := by
        push_cast
        exact h
      exact_mod_cast this
    rw [Int.floor_eq_iff]
    constructor
    · have h := (bounds (2 * L + 1) (by omega) (by omega)).2.1
      have e : ((2 * L + 1 : Nat) : ℚ) / 2 = (L : ℚ) + 1 / 2 := by
        push_cast
        ring
      rw [e] at h
      have := h (by linarith)
      push_cast
      linarith
    · rcases Nat.eq_zero_or_pos L with h0 | hpos
      · subst h0
        push_cast
        linarith
      · have h := (bounds (2 * L - 1) (by omega) (by omega)).2.2.2
        have e : ((2 * L - 1 : Nat) : ℚ) / 2 = (L : ℚ) - 1 / 2 := by
          have : ((2 * L - 1 : Nat) : ℚ) = 2 * (L : ℚ) - 1 := by
            rw [Nat.cast_sub (by omega)]
            push_cast
            ring
          rw [this]
          ring
        rw [e] at h
        have := h (by linarith)
        push_cast
        linarith

end Dbl

namespace SDbl

/-- The value that `ofScaled` rounds. -/
theorem ofScaled_cast (z : Nat) (e : Int) (d : Nat) (hd : 1 ≤ d) :
    ((z * 2 ^ e.toNat : Nat) : ℚ) / ((d * 2 ^ (-e).toNat : Nat) : ℚ) =
      (z : ℚ) * (2 : ℚ) ^ e / d := by
  have hdq : (d : ℚ) ≠ 0 := by
    have : (0 : ℚ) < d := by exact_mod_cast hd
    exact ne_of_gt this
  rw [← Dbl.two_pow_toNat_div e]
  push_cast
  field_simp
  exact Or.inl (mul_comm _ _)

theorem mag_toRat_nonneg (x : Dbl) : 0 ≤ x.toRat := by
  unfold Dbl.toRat
  positivity

theorem natAbs_cast (z : Int) : ((z.natAbs : Nat) : ℚ) = |(z : ℚ)| := by
  rw [Nat.cast_natAbs, Int.cast_abs]

/-- The magnitude of a value with at most 53 significant bits is produced
exactly. -/
theorem ofScaled_mag_exact (z : Int) (e : Int) (M : Nat) (E : Int)
    (hM : M < 2 ^ 53) (hx : |(z : ℚ)| * (2 : ℚ) ^ e = (M : ℚ) * (2 : ℚ) ^ E) :
    (ofScaled z e 1).mag.toRat = |(z : ℚ)| * (2 : ℚ) ^ e := by
  simp only [ofScaled]
  by_cases h0 : z = 0
  · subst h0
    simp [Dbl.round, Dbl.toRat]
  · have hz1 : 1 ≤ z.natAbs := by omega
    have hN : 1 ≤ z.natAbs * 2 ^ e.toNat := Nat.one_le_iff_ne_zero.mpr (by positivity)
    have hD : 1 ≤ 1 * 2 ^ (-e).toNat := Nat.one_le_iff_ne_zero.mpr (by positivity)
    have hval : ((z.natAbs * 2 ^ e.toNat : Nat) : ℚ) / ((1 * 2 ^ (-e).toNat : Nat) : ℚ) =
        |(z : ℚ)| * (2 : ℚ) ^ e := by
      rw [ofScaled_cast z.natAbs e 1 (le_refl 1), natAbs_cast]
      simp
    rw [Dbl.round_exact _ _ hN hD M E hM (by rw [hval, hx]), hval]

/-- A value with at most 53 significant bits is produced exactly. -/
theorem ofScaled_exact (z : Int) (e : Int) (M : Nat) (E : Int)
    (hM : M < 2 ^ 53) (hx : |(z : ℚ)| * (2 : ℚ) ^ e = (M : ℚ) * (2 : ℚ) ^ E) :
    (ofScaled z e 1).toRat = (z : ℚ) * (2 : ℚ) ^ e := by
  have hm := ofScaled_mag_exact z e M E hM hx
  unfold toRat
  rw [hm]
  by_cases hz : z < 0
  · have hzq : (z : ℚ) < 0 := by exact_mod_cast hz
    simp only [ofScaled, hz, decide_True, if_true, abs_of_neg hzq]
    ring
  · have hzq : (0 : ℚ) ≤ (z : ℚ) := by
      have : 0 ≤ z := by omega
      exact_mod_cast this
    simp only [ofScaled, hz, decide_False, Bool.false_eq_true, if_false, abs_of_nonneg hzq]

/-- An integer of at most 53 bits is a number. -/
theorem ofInt_exact (z : Int) (hlt : z.natAbs < 2 ^ 53) : (ofInt z).toRat = (z : ℚ) := by
  have h := ofScaled_exact z 0 z.natAbs 0 hlt (by rw [natAbs_cast])
  simpa [ofInt] using h

theorem ofInt_neg (z : Int) (hz : 0 ≤ z) : (ofInt z).neg = false := by
  simp only [ofInt, ofScaled, decide_eq_false_iff_not, not_lt]
  exact hz

theorem scaledTo_cast (x : SDbl) (e : Int) (he : e ≤ x.mag.exp) :
    ((x.scaledTo e : Int) : ℚ) * (2 : ℚ) ^ e = x.toRat := by
  have hp : ((2 : ℚ) ^ (x.mag.exp - e).toNat) * (2 : ℚ) ^ e = (2 : ℚ) ^ x.mag.exp := by
    rw [← zpow_natCast, Int.toNat_of_nonneg (by omega), ← zpow_add₀ (by norm_num)]
    congr 1
    omega
  unfold toRat scaledTo Dbl.toRat
  cases x.neg
  · simp only [Bool.false_eq_true, if_false, one_mul]
    push_cast
    rw [mul_assoc, hp]
  · simp only [if_true]
    push_cast
    rw [neg_mul, one_mul, neg_mul, mul_assoc, hp]

/-- An exact sum of at most 53 bits is produced exactly. -/
theorem add_exact (x y : SDbl) (Z : Int) (hZ : Z.natAbs < 2 ^ 53)
    (hsum : x.toRat + y.toRat = (Z : ℚ)) : (x.add y).toRat = (Z : ℚ) := by
  unfold add
  simp only []
  set e := min x.mag.exp y.mag.exp with he
  have h1 := scaledTo_cast x e (min_le_left _ _)
  have h2 := scaledTo_cast y e (min_le_right _ _)
  have hp0 : (0 : ℚ) < (2 : ℚ) ^ e := by positivity
  have hv : ((x.scaledTo e + y.scaledTo e : Int) : ℚ) * (2 : ℚ) ^ e = (Z : ℚ) := by
    push_cast
    rw [add_mul, h1, h2, hsum]
  have := ofScaled_exact (x.scaledTo e + y.scaledTo e) e Z.natAbs 0 hZ (by
    rw [natAbs_cast, ← hv, abs_mul, abs_of_pos hp0]
    simp)
  rw [hv] at this
  exact this

/-- An exact difference of at most 53 bits is produced exactly. -/
theorem sub_exact (x y : SDbl) (Z : Int) (hZ : Z.natAbs < 2 ^ 53)
    (hdiff : x.toRat - y.toRat = (Z : ℚ)) : (x.sub y).toRat = (Z : ℚ) := by
  unfold sub
  simp only []
  set e := min x.mag.exp y.mag.exp with he
  have h1 := scaledTo_cast x e (min_le_left _ _)
  have h2 := scaledTo_cast y e (min_le_right _ _)
  have hp0 : (0 : ℚ) < (2 : ℚ) ^ e := by positivity
  have hv : ((x.scaledTo e - y.scaledTo e : Int) : ℚ) * (2 : ℚ) ^ e = (Z : ℚ) := by
    push_cast
    rw [sub_mul, h1, h2, hdiff]
  have := ofScaled_exact (x.scaledTo e - y.scaledTo e) e Z.natAbs 0 hZ (by
    rw [natAbs_cast, ← hv, abs_mul, abs_of_pos hp0]
    simp)
  rw [hv] at this
  exact this

/-- The value that `div` rounds. -/
theorem div_cast (x y : SDbl) :
    ((x.mag.mant * 2 ^ (x.mag.exp - y.mag.exp).toNat : Nat) : ℚ) /
      ((y.mag.mant * 2 ^ (y.mag.exp - x.mag.exp).toNat : Nat) : ℚ) =
      x.mag.toRat / y.mag.toRat := by
  have h := Dbl.two_pow_toNat_div (x.mag.exp - y.mag.exp)
  have hneg : -(x.mag.exp - y.mag.exp) = y.mag.exp - x.mag.exp := by ring
  rw [hneg] at h
  simp only [Dbl.toRat]
  push_cast
  rw [mul_div_mul_comm, mul_div_mul_comm, h, zpow_sub₀ (by norm_num)]

theorem mant_pos_of_toRat_pos (x : Dbl) (h : 0 < x.toRat) : 1 ≤ x.mant := by
  by_contra h0
  have : x.mant = 0 := by omega
  simp [Dbl.toRat, this] at h

theorem mant_zero_of_toRat_zero (x : Dbl) (h : x.toRat = 0) : x.mant = 0 := by
  unfold Dbl.toRat at h
  have hp : (2 : ℚ) ^ x.exp ≠ 0 := by positivity
  rcases mul_eq_zero.mp h with h1 | h1
  · exact_mod_cast h1
  · exact absurd h1 hp

/-- The magnitude of a quotient of numbers that are not zero is a rounding of
the exact quotient of the magnitudes. -/
theorem div_rounds (x y : SDbl) (hx : 0 < x.mag.toRat) (hy : 0 < y.mag.toRat) :
    Dbl.Rounds (x.mag.toRat / y.mag.toRat) (x.div y).mag.toRat := by
  have hxm := mant_pos_of_toRat_pos _ hx
  have hym := mant_pos_of_toRat_pos _ hy
  have hN : 1 ≤ x.mag.mant * 2 ^ (x.mag.exp - y.mag.exp).toNat :=
    Nat.one_le_iff_ne_zero.mpr (by positivity)
  have hD : 1 ≤ y.mag.mant * 2 ^ (y.mag.exp - x.mag.exp).toNat :=
    Nat.one_le_iff_ne_zero.mpr (by positivity)
  have := Dbl.round_rounds _ _ hN hD
  rw [div_cast] at this
  exact this

/-- The quotient of zero is zero. -/
theorem div_mag_zero (x y : SDbl) (hx : x.mag.mant = 0) : (x.div y).mag = ⟨0, 0⟩ := by
  simp [div, Dbl.round, hx]

theorem div_neg (x y : SDbl) (hy : y.neg = false) : (x.div y).neg = x.neg := by
  simp [div, hy]

/-- The function `Math.round` is `⌊x + 1/2⌋`. -/
theorem jsRound_eq (x : SDbl) : x.jsRound = ⌊x.toRat + 1 / 2⌋ := by
  have key : ∀ m : Int, (if 0 ≤ x.mag.exp then m * 2 ^ x.mag.exp.toNat
      else (2 * m + 2 ^ (-x.mag.exp).toNat) / (2 * 2 ^ (-x.mag.exp).toNat)) =
      ⌊(m : ℚ) * (2 : ℚ) ^ x.mag.exp + 1 / 2⌋ := by
    intro m
    split_ifs with h
    · symm
      rw [Int.floor_eq_iff]
      have hv : (m : ℚ) * (2 : ℚ) ^ x.mag.exp =
          ((m * 2 ^ x.mag.exp.toNat : Int) : ℚ) := by
        push_cast
        rw [← zpow_natCast, Int.toNat_of_nonneg h]
      rw [hv]
      constructor <;> linarith
    · have hP : (2 : ℚ) ^ x.mag.exp = 1 / (2 : ℚ) ^ (-x.mag.exp).toNat := by
        rw [← zpow_natCast, Int.toNat_of_nonneg (by omega), zpow_neg]
        simp
      have hv : (m : ℚ) * (2 : ℚ) ^ x.mag.exp + 1 / 2 =
          (((2 * m + 2 ^ (-x.mag.exp).toNat : Int)) : ℚ) /
            ((2 * 2 ^ (-x.mag.exp).toNat : Nat) : ℚ) := by
        rw [hP]
        push_cast
        field_simp
        ring
      rw [hv, Rat.floor_intCast_div_natCast]
      push_cast
      rfl
  have := key ((if x.neg then -1 else 1) * (x.mag.mant : Int))
  unfold jsRound
  simp only []
  rw [this]
  congr 2
  unfold toRat Dbl.toRat
  cases x.neg
  · simp
  · simp

theorem toRat_of_not_neg (x : SDbl) (h : x.neg = false) : x.toRat = x.mag.toRat := by
  simp [toRat, h]

/-- The three divisions and the rounding of `calculateAvgResolutionTime` give
the exact quotient rounded half up, for a total of at most 53 bits. -/
theorem avg_chain (t n : SDbl) (T : Int) (N : Nat) (ht : t.toRat = (T : ℚ))
    (hnn : n.neg = false) (hn : n.toRat = (N : ℚ)) (hN : 0 < N) (hT : T.natAbs < 2 ^ 53) :
    (((t.div n).div (ofInt 1000)).div (ofInt 60)).jsRound =
      ⌊(T : ℚ) / N / 1000 / 60 + 1 / 2⌋ := by
  have hk := ofInt_neg 1000 (by norm_num)
  have hkv := ofInt_exact 1000 (by norm_num)
  have hs := ofInt_neg 60 (by norm_num)
  have hsv := ofInt_exact 60 (by norm_num)
  rw [toRat_of_not_neg _ hk] at hkv
  rw [toRat_of_not_neg _ hs] at hsv
  rw [toRat_of_not_neg _ hnn] at hn
  push_cast at hkv hsv
  have hNq : (0 : ℚ) < N := by exact_mod_cast hN
  rw [jsRound_eq]
  have hneg : (((t.div n).div (ofInt 1000)).div (ofInt 60)).neg = t.neg := by
    rw [div_neg _ _ hs, div_neg _ _ hk, div_neg _ _ hnn]
  by_cases hT0 : T = 0
  · -- no time at all
    subst hT0
    have hm : t.mag.mant = 0 := by
      apply mant_zero_of_toRat_zero
      unfold toRat at ht
      push_cast at ht
      split_ifs at ht
      · linarith
      · exact ht
    have h1 := div_mag_zero t n hm
    have h2 := div_mag_zero (t.div n) (ofInt 1000) (by rw [h1])
    have h3 := div_mag_zero ((t.div n).div (ofInt 1000)) (ofInt 60) (by rw [h2])
    have hz : (((t.div n).div (ofInt 1000)).div (ofInt 60)).toRat = 0 := by
      unfold toRat
      rw [h3]
      simp [Dbl.toRat]
    rw [hz]
    simp
  · have hA0 : 1 ≤ T.natAbs := by omega
    have hmag : t.mag.toRat = (T.natAbs : ℚ) ∧ (t.neg = true ↔ T < 0) := by
      have hnn := mag_toRat_nonneg t.mag
      have hTq : (T : ℚ) ≠ 0 := by exact_mod_cast hT0
      rw [natAbs_cast]
      unfold toRat at ht
      split_ifs at ht with hb
      · have hlt : (T : ℚ) < 0 := lt_of_le_of_ne (by linarith) hTq
        refine ⟨by rw [abs_of_neg hlt]; linarith, ?_⟩
        simp only [hb, true_iff]
        exact_mod_cast hlt
      · have hlt : (0 : ℚ) < (T : ℚ) := lt_of_le_of_ne (by linarith) (Ne.symm hTq)
        refine ⟨by rw [abs_of_pos hlt]; linarith, ?_⟩
        have : ¬ T < 0 := by
          have : (0 : Int) < T := by exact_mod_cast hlt
          omega
        simp [hb, this]
    obtain ⟨hmag, hsign⟩ := hmag
    have hApos : (0 : ℚ) < (T.natAbs : ℚ) := by exact_mod_cast hA0
    have r1 := div_rounds t n (by rw [hmag]; exact hApos) (by rw [hn]; exact hNq)
    rw [hmag, hn] at r1
    have p1 := Dbl.isNormal_pos _ r1.1
    have r2 := div_rounds (t.div n) (ofInt 1000) p1 (by rw [hkv]; norm_num)
    rw [hkv] at r2
    have p2 := Dbl.isNormal_pos _ r2.1
    have r3 := div_rounds ((t.div n).div (ofInt 1000)) (ofInt 60) p2 (by rw [hsv]; norm_num)
    rw [hsv] at r3
    obtain ⟨c1, c2⟩ := Dbl.chain_floor T.natAbs N hA0 hT hN _ _ _ r1 r2 r3
    unfold toRat
    rw [hneg]
    by_cases hb : t.neg = true
    · have hlt : T < 0 := hsign.mp hb
      have hTq : (T : ℚ) = -(T.natAbs : ℚ) := by
        rw [natAbs_cast, abs_of_neg (by exact_mod_cast hlt)]
        ring
      simp only [hb, if_true]
      rw [c2, hTq]
      congr 2
      ring
    · have hge : ¬ T < 0 := fun h => hb (hsign.mpr h)
      have hTq : (T : ℚ) = (T.natAbs : ℚ) := by
        rw [natAbs_cast, abs_of_nonneg (by exact_mod_cast (by omega : 0 ≤ T))]
      simp only [hb, Bool.false_eq_true, if_false]
      rw [c1, hTq]

/-- The number of a count above `2 ^ 53` is at least `2 ^ 53`. -/
theorem ofInt_large (N : Nat) (hN : 2 ^ 53 ≤ N) :
    (ofInt (N : Int)).neg = false ∧ (2 : ℚ) ^ 53 ≤ (ofInt (N : Int)).mag.toRat := by
  refine ⟨ofInt_neg _ (by positivity), ?_⟩
  have hN1 : 1 ≤ N := by omega
  have hn : 1 ≤ (N : Int).natAbs * 2 ^ (0 : Int).toNat := by
    simp only [Int.natAbs_ofNat, Int.toNat_zero, pow_zero, mul_one]
    exact hN1
  have hd : 1 ≤ 1 * 2 ^ (-(0 : Int)).toNat := by simp
  have r := Dbl.round_rounds _ _ hn hd
  have hu : Dbl.IsNormal ((2 : ℚ) ^ 53) := by
    have := Dbl.isNormal_of_nat 1 53 (le_refl 1) (by norm_num)
    have e : ((1 : Nat) : ℚ) * (2 : ℚ) ^ (53 : Int) = (2 : ℚ) ^ 53 := by norm_num
    rw [e] at this
    exact this
  have hq : (2 : ℚ) ^ 53 ≤ (((N : Int).natAbs * 2 ^ (0 : Int).toNat : Nat) : ℚ) /
      ((1 * 2 ^ (-(0 : Int)).toNat : Nat) : ℚ) := by
    simp only [Int.natAbs_ofNat, Int.toNat_zero, pow_zero, mul_one, neg_zero, Nat.cast_one,
      div_one]
    exact_mod_cast hN
  exact Dbl.rounds_ge _ _ _ r hu hq

/-- The three divisions and the rounding of `calculateAvgResolutionTime` give
the exact quotient rounded half up, for a total of at most 53 bits and every
count. -/
theorem avg_chain_count (t : SDbl) (T : Int) (N : Nat) (ht : t.toRat = (T : ℚ))
    (hN : 0 < N) (hT : T.natAbs < 2 ^ 53) :
    (((t.div (ofInt (N : Int))).div (ofInt 1000)).div (ofInt 60)).jsRound =
      ⌊(T : ℚ) / N / 1000 / 60 + 1 / 2⌋ := by
  by_cases hlt : N < 2 ^ 53
  · exact avg_chain t (ofInt (N : Int)) T N ht (ofInt_neg _ (by positivity))
      (by rw [ofInt_exact _ (by simpa using hlt)]; simp) hN hT
  · push_neg at hlt
    obtain ⟨hnn, hnv⟩ := ofInt_large N hlt
    have hk := ofInt_neg 1000 (by norm_num)
    have hkv := ofInt_exact 1000 (by norm_num)
    have hs := ofInt_neg 60 (by norm_num)
    have hsv := ofInt_exact 60 (by norm_num)
    rw [toRat_of_not_neg _ hk] at hkv
    rw [toRat_of_not_neg _ hs] at hsv
    push_cast at hkv hsv
    have hNq : (2 : ℚ) ^ 53 ≤ (N : ℚ) := by exact_mod_cast hlt
    have hTa : |(T : ℚ)| < 2 ^ 53 := by
      rw [← natAbs_cast]
      exact_mod_cast hT
    -- the exact quotient is small
    have hY : |(T : ℚ) / N / 1000 / 60| < 1 / 4 := by
      rw [abs_div, abs_div, abs_div, abs_of_pos (by norm_num : (0 : ℚ) < 60),
        abs_of_pos (by norm_num : (0 : ℚ) < 1000), abs_of_pos (by linarith : (0 : ℚ) < N)]
      rw [div_div, div_div, div_lt_iff₀ (by positivity)]
      have : (0 : ℚ) ≤ |(T : ℚ)| := abs_nonneg _
      nlinarith
    have hfl : ⌊(T : ℚ) / N / 1000 / 60 + 1 / 2⌋ = 0 := by
      rw [Int.floor_eq_iff]
      rw [abs_lt] at hY
      push_cast
      constructor <;> linarith [hY.1, hY.2]
    rw [hfl, jsRound_eq, Int.floor_eq_iff]
    have hneg : (((t.div (ofInt (N : Int))).div (ofInt 1000)).div (ofInt 60)).neg = t.neg := by
      rw [div_neg _ _ hs, div_neg _ _ hk, div_neg _ _ hnn]
    have hsmall : (((t.div (ofInt (N : Int))).div (ofInt 1000)).div (ofInt 60)).mag.toRat ≤
        1 / 4 := by
      by_cases hm : t.mag.mant = 0
      · have h1 := div_mag_zero t (ofInt (N : Int)) hm
        have h2 := div_mag_zero (t.div (ofInt (N : Int))) (ofInt 1000) (by rw [h1])
        have h3 := div_mag_zero ((t.div (ofInt (N : Int))).div (ofInt 1000)) (ofInt 60)
          (by rw [h2])
        rw [h3]
        simp [Dbl.toRat]
      · have hmpos : 0 < t.mag.toRat := by
          unfold Dbl.toRat
          have : (0 : ℚ) < t.mag.mant := by
            have : 0 < t.mag.mant := by omega
            exact_mod_cast this
          positivity
        have hmle : t.mag.toRat < 2 ^ 53 := by
          have : t.mag.toRat = |(T : ℚ)| := by
            rw [← ht]
            unfold toRat
            split_ifs
            · rw [abs_neg, abs_of_pos hmpos]
            · rw [abs_of_pos hmpos]
          rw [this]
          exact hTa
        have one : Dbl.IsNormal (1 : ℚ) := by
          have := Dbl.isNormal_of_nat 1 0 (le_refl 1) (by norm_num)
          simpa using this
        have quarter : Dbl.IsNormal ((1 : ℚ) / 4) := by
          have := Dbl.isNormal_of_nat 1 (-2) (le_refl 1) (by norm_num)
          have e : ((1 : Nat) : ℚ) * (2 : ℚ) ^ (-2 : Int) = 1 / 4 := by norm_num
          rw [e] at this
          exact this
        have r1 := div_rounds t (ofInt (N : Int)) hmpos (by linarith)
        have b1 := Dbl.rounds_le _ _ _ r1 one (by
          rw [div_le_one (by linarith)]
          linarith)
        have p1 := Dbl.isNormal_pos _ r1.1
        have r2 := div_rounds (t.div (ofInt (N : Int))) (ofInt 1000) p1 (by rw [hkv]; norm_num)
        rw [hkv] at r2
        have b2 := Dbl.rounds_le _ _ _ r2 one (by linarith)
        have p2 := Dbl.isNormal_pos _ r2.1
        have r3 := div_rounds ((t.div (ofInt (N : Int))).div (ofInt 1000)) (ofInt 60) p2
          (by rw [hsv]; norm_num)
        rw [hsv] at r3
        exact Dbl.rounds_le _ _ _ r3 quarter (by linarith)
    have hnonneg := mag_toRat_nonneg
      (((t.div (ofInt (N : Int))).div (ofInt 1000)).div (ofInt 60)).mag
    unfold toRat
    push_cast
    split_ifs <;> constructor <;> linarith

end SDbl

theorem natAbs_sum_le (l : List StoredIncident) :
    ((l.map resolutionMs).sum).natAbs ≤ totalAbsMs l := by
  unfold totalAbsMs
  induction l with
  | nil => simp
  | cons i l ih =>
    simp only [List.map_cons, List.sum_cons]
    omega

/-- The loop of `calculateAvgResolutionTime` adds the resolution times up
exactly while the sum stays below `2 ^ 53`. -/
theorem foldl_totalTime (l : List StoredIncident) (hl : ∀ i ∈ l, timesAreDates i = true)
    (s : SDbl) (S : Int) (hsv : s.toRat = (S : ℚ))
    (hsum : S.natAbs + totalAbsMs l < 2 ^ 53) :
    ∃ t : SDbl, l.foldl
        (fun sum incident => do
          let createdAt ← getTime incident.created_at
          let resolvedAt ← getTime incident.resolved_at
          return (← sum).add (resolvedAt.sub createdAt))
        (some s) = some t ∧
      t.toRat = ((S + (l.map resolutionMs).sum : Int) : ℚ) := by
  induction l generalizing s S with
  | nil =>
    refine ⟨s, rfl, ?_⟩
    simp [hsv]
  | cons i l ih =>
    have hi := hl i (List.mem_cons_self _ _)
    unfold totalAbsMs at hsum
    simp only [List.map_cons, List.sum_cons] at hsum ⊢
    unfold timesAreDates at hi
    split at hi
    · rename_i c r hc hr
      simp only [Bool.and_eq_true, decide_eq_true_eq] at hi
      obtain ⟨hc53, hr53⟩ := hi
      have hd : resolutionMs i = r - c := by simp [resolutionMs, hc, hr]
      rw [hd] at hsum ⊢
      have hcv := SDbl.ofInt_exact c hc53
      have hrv := SDbl.ofInt_exact r hr53
      have hdv := SDbl.sub_exact (SDbl.ofInt r) (SDbl.ofInt c) (r - c) (by omega)
        (by rw [hrv, hcv]; push_cast; ring)
      have hav := SDbl.add_exact s ((SDbl.ofInt r).sub (SDbl.ofInt c)) (S + (r - c))
        (by omega) (by rw [hsv, hdv]; push_cast; ring)
      obtain ⟨t, ht, htv⟩ := ih (fun j hj => hl j (List.mem_cons_of_mem _ hj))
        (s.add ((SDbl.ofInt r).sub (SDbl.ofInt c))) (S + (r - c)) hav (by
          unfold totalAbsMs
          omega)
      refine ⟨t, ?_, ?_⟩
      · rw [← ht]
        simp [List.foldl_cons, getTime, hc, hr]
      · rw [htv]
        push_cast
        ring
    · simp at hi

theorem resolvedWithTime_filter (incidents : List StoredIncident) :
    resolvedWithTime (incidents.filter
      (fun i => !(i.status.strictEqStr "OPEN" || i.resolved_at.isNone))) =
      resolvedWithTime incidents := by
  unfold resolvedWithTime
  rw [List.filter_filter]
  apply List.filter_congr
  intro i _
  cases hs : i.status <;> cases hr : i.resolved_at <;> simp [JsVal.strictEqStr]
  intro h
  subst h
  decide

theorem calculateAvgResolutionTime_eq (incidents : List StoredIncident) :
    calculateAvgResolutionTime incidents =
      if (resolvedWithTime incidents).length = 0 then some 0
      else ((resolvedWithTime incidents).foldl
        (fun sum incident => do
          let createdAt ← getTime incident.created_at
          let resolvedAt ← getTime incident.resolved_at
          return (← sum).add (resolvedAt.sub createdAt))
        (some (SDbl.ofInt 0))).map (fun t =>
          (((t.div (SDbl.ofInt (resolvedWithTime incidents).length)).div (SDbl.ofInt 1000)).div
            (SDbl.ofInt 60)).jsRound) := rfl

set_option maxRecDepth 100000 in
/-- The scenario of the specification, by evaluation of the code. -/
theorem tenTwentyThirty_avg : calculateAvgResolutionTime tenTwentyThirty = some 20 := by
  decide

set_option maxRecDepth 100000 in
/-- An incident resolved 150 seconds before its creation gives `-2`, the mean
`-2.5` rounded half up, and one created 70 minutes before the epoch gives 70,
as the average of the specification does; the times of both are dates and their
resolution times are far below `2 ^ 53` milliseconds. -/
theorem avg_of_backdated :
    calculateAvgResolutionTime [resolvedEarlier] = some (-2) ∧
      specAvgResolutionTime [resolvedEarlier] = -2 ∧
      calculateAvgResolutionTime [createdBeforeEpoch] = some 70 ∧
      specAvgResolutionTime [createdBeforeEpoch] = 70 ∧
      timesAreDates resolvedEarlier = true ∧ timesAreDates createdBeforeEpoch = true ∧
      totalAbsMs [resolvedEarlier] = 150000 ∧ totalAbsMs [createdBeforeEpoch] = 4200000 := by
  have h1 : resolvedWithTime [resolvedEarlier] = [resolvedEarlier] := rfl
  have h2 : resolvedWithTime [createdBeforeEpoch] = [createdBeforeEpoch] := rfl
  refine ⟨by decide, ?_, by decide, ?_, by decide, by decide, by decide, by decide⟩
  · unfold specAvgResolutionTime
    simp only [h1]
    simp only [resolvedEarlier, resolutionMs, List.map_cons, List.map_nil, List.sum_cons,
      List.sum_nil, List.length_cons, List.length_nil]
    norm_num
  · unfold specAvgResolutionTime
    simp only [h2]
    simp only [createdBeforeEpoch, resolutionMs, List.map_cons, List.map_nil, List.sum_cons,
      List.sum_nil, List.length_cons, List.length_nil]
    norm_num

theorem avg_in_range (incidents : List StoredIncident)
    (hdates : ∀ i ∈ resolvedWithTime incidents, timesAreDates i = true)
    (htotal : totalAbsMs (resolvedWithTime incidents) < 2 ^ 53) :
    calculateAvgResolutionTime incidents = some (specAvgResolutionTime incidents) := by
  rw [calculateAvgResolutionTime_eq]
  unfold specAvgResolutionTime
  simp only []
  split_ifs with h0
  · rfl
  · have hzv := SDbl.ofInt_exact 0 (by norm_num)
    obtain ⟨t, ht, htv⟩ := foldl_totalTime (resolvedWithTime incidents) hdates
      (SDbl.ofInt 0) 0 hzv (by simpa using htotal)
    rw [ht, Option.map_some']
    have hT := natAbs_sum_le (resolvedWithTime incidents)
    have := SDbl.avg_chain_count t (((resolvedWithTime incidents).map resolutionMs).sum)
      (resolvedWithTime incidents).length (by rw [htv]; simp) (by omega) (by omega)
    rw [this]

/-- Claim C14, as amended: when every RESOLVED incident with a `resolved_at` has
a `created_at` too, both of them time values of a `Date`, and these resolution
times, taken without their signs, add up to less than `2 ^ 53` milliseconds,
`calculateAvgResolutionTime` returns the average of the specification: the mean
of `resolved_at - created_at` in milliseconds over exactly those incidents, in
minutes, rounded to the nearest integer, and `0` if there is none. Three
RESOLVED incidents of 10, 20 and 30 minutes give 20, and leaving out the
incidents that are OPEN or lack `resolved_at` does not change the result. -/
theorem calculateAvgResolutionTime_mean (incidents : List StoredIncident)
    (hdates : ∀ i ∈ resolvedWithTime incidents, timesAreDates i = true)
    (htotal : totalAbsMs (resolvedWithTime incidents) < 2 ^ 53) :
    calculateAvgResolutionTime incidents = some (specAvgResolutionTime incidents) ∧
      (resolvedWithTime incidents = [] → calculateAvgResolutionTime incidents = some 0) ∧
      calculateAvgResolutionTime tenTwentyThirty = some 20 ∧
      calculateAvgResolutionTime (incidents.filter
        (fun i => !(i.status.strictEqStr "OPEN" || i.resolved_at.isNone))) =
        calculateAvgResolutionTime incidents := by
  refine ⟨avg_in_range incidents hdates htotal, ?_, tenTwentyThirty_avg, ?_⟩
  · intro h
    rw [calculateAvgResolutionTime_eq, h]
    rfl
  · rw [calculateAvgResolutionTime_eq, calculateAvgResolutionTime_eq, resolvedWithTime_filter]

set_option maxRecDepth 100000 in
/-- Witness of `calculateAvgResolutionTime_mean`: three RESOLVED incidents of 10,
20 and 30 minutes among an OPEN incident and a RESOLVED one without
`resolved_at`. -/
theorem calculateAvgResolutionTime_mean_witness :
    calculateAvgResolutionTime mixedIncidents = some (specAvgResolutionTime mixedIncidents) ∧
      (resolvedWithTime mixedIncidents = [] →
        calculateAvgResolutionTime mixedIncidents = some 0) ∧
      calculateAvgResolutionTime tenTwentyThirty = some 20 ∧
      calculateAvgResolutionTime (mixedIncidents.filter
        (fun i => !(i.status.strictEqStr "OPEN" || i.resolved_at.isNone))) =
        calculateAvgResolutionTime mixedIncidents :=
  calculateAvgResolutionTime_mean mixedIncidents (by decide) (by decide)

set_option maxRecDepth 100000 in
/-- Claim C14, where it fails as worded: for two RESOLVED incidents created at
the epoch and resolved after 4503599627429999 and 4503599627430000 milliseconds
the sum of the two resolution times is above `2 ^ 53` and not a binary64 number;
the code returns 75059993791, and the mean in minutes rounded to the nearest
integer is 75059993790. -/
theorem avg_not_spec :
    calculateAvgResolutionTime longIncidents = some 75059993791 ∧
      specAvgResolutionTime longIncidents = 75059993790 := by
  constructor
  · decide
  · have h : resolvedWithTime longIncidents = longIncidents := rfl
    unfold specAvgResolutionTime
    simp only [h]
    simp only [longIncidents, resolutionMs, List.map_cons, List.map_nil, List.sum_cons,
      List.sum_nil, List.length_cons, List.length_nil]
    norm_num

end CloudOps
